import Mathlib

/-!
# Quimby: route trie, request context and server

A shallow embedding of the router of `http/router.go`, of the request context
of `http/context.go`, of `ServeHTTP` and `CompleteRequest` of `http/server.go`
and of the errors of `error/model.go`, followed by the properties proved
about them.

Conventions of the embedding

* A Go `string` is a list of characters (`Str`).
* A Go `map[string]*RouteNode` is a function from keys to optional nodes: a
  map has no order, and two maps are equal when they agree on every key.
* The route tree is a tree (no node is shared), so a `*RouteNode` is modelled
  by the position of the node in the tree; an in-place update of the node
  behind a pointer is a rebuild of the path that leads to it.
* A Go interface value that may be `nil` is an `Option`.
* A Go `error` built by `fmt.Errorf` is a constructor carrying the arguments
  of the format string.
-/

namespace Quimby

/-! ## Strings -/

/-- A Go string, as the list of its characters. -/
abbrev Str := List Char

/-- The Go predicate `unicode.IsSpace`: in Latin-1 the characters
`\t \n \v \f \r`, the space, U+0085 and U+00A0; beyond Latin-1 the characters
with the property White_Space. -/
def IsSpace (c : Char) : Bool :=
  let n := c.toNat
  (0x09 ≤ n && n ≤ 0x0D) || n == 0x20 || n == 0x85 || n == 0xA0 || n == 0x1680
    || (0x2000 ≤ n && n ≤ 0x200A) || n == 0x2028 || n == 0x2029 || n == 0x202F
    || n == 0x205F || n == 0x3000

/-- The Go function `strings.TrimSpace`: white space removed at both ends. -/
def TrimSpace (s : Str) : Str :=
  ((s.dropWhile IsSpace).reverse.dropWhile IsSpace).reverse

/-- The Go function `strings.Split(s, sep)` for a separator of one character:
the pieces of `s` between the separators; never an empty list (`Split "" sep`
is the list holding the empty string). -/
def Split : Str → Char → List Str
  | [], _ => [[]]
  | c :: cs, sep =>
    if c = sep then [] :: Split cs sep
    else
      match Split cs sep with
      | [] => [[c]]
      | seg :: segs => (c :: seg) :: segs

/-- The Go function `strings.HasPrefix`. -/
def HasPrefix (s pre : Str) : Bool := pre.isPrefixOf s

/-- Modelled from the spec: `stringutil.DOpen` of the library
`github.com/Kasita-Inc/gadget`, which is not part of this repository. The spec
writes a placeholder segment as `{{name}}`; its opening delimiter is `{{`. -/
def DOpen : Str := ['{', '{']

/-- Modelled from the spec: `stringutil.Clean` of the library
`github.com/Kasita-Inc/gadget`, which is not part of this repository. The spec
says a route is rejected when splitting on `/` yields any empty segment, and
`AddRoute` rejects when `Clean` shortens the list of segments: `Clean` drops
the empty strings. -/
def Clean (a : List Str) : List Str := a.filter (fun s => !s.isEmpty)

/-! ## Router (`http/router.go`) -/

/-- The path wild card, `WildCard = "*"`. -/
def WildCard : Str := ['*']

/-- The separator character of `Slash = "/"`. -/
def SlashChar : Char := '/'

/-- The path separator, `Slash = "/"`. -/
def Slash : Str := [SlashChar]

/-- The errors of the router: `fmt.Errorf` with its arguments.
* `invalidFormat route`: "Invalid route format '%s'. Remove leading, trailing,
  and double slashes"
* `conflict route template`: "controller already present at route '%s' (%s)"
* `noRoute path`: "No route defined for path '%s'" -/
inductive RouteError where
  | invalidFormat (route : Str)
  | conflict (route template : Str)
  | noRoute (path : Str)
  deriving DecidableEq, Repr

/-- The struct `RouteNode`: a node of the parse tree of the routes. The type
`C` is the type of the controllers; `Controller = none` is the `nil`
interface value. -/
structure RouteNode (C : Type) where
  Value : Str
  SubRoutes : Str → Option (RouteNode C)
  TemplateRoute : Str
  Controller : Option C

/-- The struct `Router`. -/
structure Router (C : Type) where
  RouteTree : RouteNode C
  RegisteredRoutes : List Str

variable {C : Type}

/-- The function `createNode`: a node with an empty map, no template and no
controller. -/
def createNode (value : Str) : RouteNode C :=
  { Value := value, SubRoutes := fun _ => none, TemplateRoute := [], Controller := none }

/-- The function `CreateRouter`. -/
def CreateRouter (rootController : Option C) : Router C :=
  { RouteTree := { (createNode Slash : RouteNode C) with
                   TemplateRoute := Slash, Controller := rootController },
    RegisteredRoutes := [] }

/-- The map write `node.SubRoutes[key] = child`. -/
def setSubRoute (node : RouteNode C) (key : Str) (child : RouteNode C) : RouteNode C :=
  { node with SubRoutes := fun k => if k = key then some child else node.SubRoutes k }

/-- The key under which `insertRoute` stores a route segment: lines 62 to 65
of `router.go`, `WildCard` for a segment that starts with `DOpen`. -/
def routeKey (pathPart : Str) : Str :=
  if HasPrefix pathPart DOpen then WildCard else pathPart

/-- The method `RouteNode.insertRoute`. The Go method returns a pointer to the
node of the last segment, which the caller then reads and writes in place.
Here the caller passes what it does with that node as `k`; the result is the
tree rebuilt around the node that `k` returns, with the second result of `k`.
The child found or created for the first segment is written back under its
key, which for a created child is the write `node.SubRoutes[v.Value] = v`
and for a found child keeps the pointer that the map already holds.
The Go method reads `route[0]`; `AddRoute` only passes the result of
`strings.Split`, which is never empty, so the first equation is not used. -/
def insertRoute {β : Type} : RouteNode C → List Str → (RouteNode C → RouteNode C × β) →
    RouteNode C × β
  | node, [], k => k node
  | node, pathPart :: rest, k =>
    let pathPart := routeKey pathPart
    let v := match node.SubRoutes pathPart with
      | some v => v
      | none => createNode pathPart
    let r := if rest.length > 0 then insertRoute v rest k else k v
    (setSubRoute node pathPart r.1, r.2)

/-- Lines 98 to 104 of `router.go`: what `AddRoute` does with the node that
`insertRoute` returns. -/
def bindController (route : Str) (controller : Option C) (node : RouteNode C) :
    RouteNode C × Option RouteError :=
  if node.Controller.isNone then
    ({ node with Controller := controller, TemplateRoute := route }, none)
  else
    (node, some (RouteError.conflict route node.TemplateRoute))

/-- The method `Router.AddRoute`: the router after the call and the error
returned (`none` is `nil`). -/
def AddRoute (router : Router C) (route : Str) (controller : Option C) :
    Router C × Option RouteError :=
  let route := TrimSpace route
  let splitRoute := Split route SlashChar
  if (Clean splitRoute).length ≠ splitRoute.length then
    (router, some (RouteError.invalidFormat route))
  else
    let r := insertRoute router.RouteTree splitRoute (bindController route controller)
    ({ RouteTree := r.1, RegisteredRoutes := router.RegisteredRoutes ++ [route] }, r.2)

/-- The method `RouteNode.find`; `none` is the `nil` node. -/
def find : RouteNode C → List Str → Option (RouteNode C)
  | node, [] => some node
  | node, p :: rest =>
    match node.SubRoutes p with
    | some subnode => find subnode rest
    | none =>
      match node.SubRoutes WildCard with
      | some subnode => find subnode rest
      | none => none

/-- The method `Router.FindRouteForPath`: the node returned (`none` is `nil`)
and the error returned (`none` is `nil`). -/
def FindRouteForPath (router : Router C) (path : Str) :
    Option (RouteNode C) × Option RouteError :=
  let splitPath := Split path SlashChar
  let node := if path = [] then some router.RouteTree else find router.RouteTree splitPath
  match node with
  | none => (none, some (RouteError.noRoute path))
  | some n =>
    if n.Controller.isNone then (some n, some (RouteError.noRoute path))
    else (some n, none)

/-- A sequence of `AddRoute` calls, the router after the last one. -/
def AddRoutes (router : Router C) : List (Str × Option C) → Router C
  | [] => router
  | (route, controller) :: calls => AddRoutes (AddRoute router route controller).1 calls

/-- The errors returned by a sequence of `AddRoute` calls, in the order of the
calls. -/
def AddRoutesErrors (router : Router C) : List (Str × Option C) → List (Option RouteError)
  | [] => []
  | (route, controller) :: calls =>
    (AddRoute router route controller).2 ::
      AddRoutesErrors (AddRoute router route controller).1 calls

/-! ## Positions in the route tree -/

/-- The node reached from `node` by following the map keys `addr`. -/
def nodeAt : RouteNode C → List Str → Option (RouteNode C)
  | node, [] => some node
  | node, key :: addr =>
    match node.SubRoutes key with
    | some child => nodeAt child addr
    | none => none

/-- The controller bound at the position `addr`, `none` when there is no node
there or the node has no controller. -/
def controllerAt (node : RouteNode C) (addr : List Str) : Option C :=
  (nodeAt node addr).bind (fun n => n.Controller)

/-- The template stored at the position `addr`. -/
def templateAt (node : RouteNode C) (addr : List Str) : Option Str :=
  (nodeAt node addr).map (fun n => n.TemplateRoute)

/-- The position at which `AddRoute` binds a route: the keys of the segments
of the trimmed route, which is the normalized segment sequence of the route. -/
def routeAddr (route : Str) : List Str :=
  (Split (TrimSpace route) SlashChar).map routeKey

/-- The check of `AddRoute` on the shape of a route passes. -/
def validRoute (route : Str) : Bool :=
  (Clean (Split (TrimSpace route) SlashChar)).length = (Split (TrimSpace route) SlashChar).length

/-- The tree has no key that starts with `DOpen`. -/
def KeysClean (t : RouteNode C) : Prop :=
  ∀ b : List Str, (nodeAt t b).isSome = true → ∀ k ∈ b, HasPrefix k DOpen = false

/-- The route is bound to the controller on the router: the node at the
position of the route holds the controller. A successful `AddRoute` of the
route with the controller makes it so, and no later call changes it. -/
def boundTo (router : Router C) (route : Str) (c : C) : Prop :=
  controllerAt router.RouteTree (routeAddr route) = some c

instance [DecidableEq C] (router : Router C) (route : Str) (c : C) :
    Decidable (boundTo router route c) := by
  unfold boundTo; infer_instance

/-- What the code accepts at one position of a route: any path segment when
the route segment starts with `DOpen` or is `WildCard`, the route segment
itself otherwise. -/
def segmentAccepts (t p : Str) : Prop :=
  HasPrefix t DOpen = true ∨ t = WildCard ∨ p = t

instance (t p : Str) : Decidable (segmentAccepts t p) := by
  unfold segmentAccepts; infer_instance

/-! ## The reading of a route by the spec -/

/-- Modelled from the spec: the closing delimiter of a placeholder, which the
spec writes as `{{name}}`. -/
def DClose : Str := ['}', '}']

/-- Modelled from the spec: a segment written as `{{name}}`, a placeholder;
every other segment is a literal segment. -/
def isPlaceholder (t : Str) : Bool :=
  HasPrefix t DOpen && DClose.isSuffixOf t

/-- Modelled from the spec: what is accepted at one position of a route, any
path segment at a placeholder, the route segment itself at a literal
segment. -/
def specAccepts (t p : Str) : Prop :=
  isPlaceholder t = true ∨ p = t

instance (t p : Str) : Decidable (specAccepts t p) := by
  unfold specAccepts; infer_instance

/-! ## Routers of the examples -/

/-- The calls that register `a/b/c`, `a/{{w}}/c` and `a/z/d`, in this order. -/
def callsExactWildOther : List (Str × Option Nat) :=
  [("a/b/c".toList, some 1), ("a/\x7b\x7bw\x7d\x7d/c".toList, some 2),
   ("a/z/d".toList, some 3)]

/-- The routes `a/b/c`, `a/{{w}}/c` and `a/z/d`, registered in this order on a
router without root controller. -/
def routerExactWildOther : Router Nat :=
  AddRoutes (CreateRouter none) callsExactWildOther

/-- The routes `a/{{w}}/c` and `a/b/c`, registered in this order on a router
without root controller. -/
def routerWildExact : Router Nat :=
  AddRoutes (CreateRouter none)
    [("a/\x7b\x7bw\x7d\x7d/c".toList, some 2), ("a/b/c".toList, some 1)]

/-- The routes `route/*/something` and `route/awef/something` on a router
without root controller, as in `TestFindControllerNoRoute`. -/
def routerStarAwef : Router Nat :=
  AddRoutes (CreateRouter none)
    [("route/*/something".toList, some 1), ("route/awef/something".toList, some 1)]

/-- The route `route/*/something` alone on a router without root controller. -/
def routerStar : Router Nat :=
  AddRoutes (CreateRouter none) [("route/*/something".toList, some 1)]

/-! ## Errors (`error/model.go`, `error/field.go`, `error/system.go`) -/

/-- The constant `ValidationError`. -/
def ValidationError : Str := "validation-error".toList

/-- The constant `CannotBeBlank`. -/
def CannotBeBlank : Str := "cannot-be-blank".toList

/-- The constant `MethodNotAllowed`. -/
def MethodNotAllowed : Str := "method-not-allowed".toList

/-- The struct `FieldError`. -/
structure FieldError where
  Code : Str
  Message : Str
  Field : Str
  deriving DecidableEq, Repr

/-- A Go value of type `interface{}` other than `nil`: a string, a
`FieldError`, or any other value, told apart by a number. -/
inductive Any where
  | str (s : Str)
  | fieldError (e : FieldError)
  | other (id : Nat)
  deriving DecidableEq, Repr

/-- The struct `RestError`. `Details = none` is the `nil` slice; a detail
`none` is the `nil` interface value. -/
structure RestError where
  Code : Str
  Message : Str
  Details : Option (List (Option Any))
  deriving DecidableEq, Repr

/-- The function `NewRestError`. -/
def NewRestError (code message : Str) (details : Option (List (Option Any))) : RestError :=
  { Code := code, Message := message, Details := details }

/-- The method `RestError.AddDetail`: `append` on the details, which makes a
slice of one element from the `nil` slice. -/
def AddDetail (restError : RestError) (errorDetail : Option Any) : RestError :=
  { restError with Details := some (restError.Details.getD [] ++ [errorDetail]) }

/-! ## Request context (`http/context.go`) -/

/-- The constant `http.StatusBadRequest`. -/
def StatusBadRequest : Int := 400

/-- The errors of the package `io` that `Read` tells apart, and any other
error of a reader. -/
inductive IOError where
  | EOF
  | ErrUnexpectedEOF
  | other (id : Nat)
  deriving DecidableEq, Repr

/-- The body of a request, an `io.ReadCloser`: the bytes it delivers before it
stops, each byte a character, and the error with which it stops (`EOF` at the
end of the stream). -/
structure BodyStream where
  data : Str
  stop : IOError
  deriving DecidableEq, Repr

/-- The struct `url.URL`, as far as `CreateContext` reads it: the field
`RawQuery` and the result of the method `String`. -/
structure URL where
  RawQuery : Str
  String : Str
  deriving DecidableEq, Repr

/-- The struct `http.Request`, as far as the package reads it. -/
structure Request where
  Method : Str
  URL : URL
  RequestURI : Str
  ContentLength : Int
  Body : BodyStream
  RemoteAddr : Str
  Header : List (Str × List Str)
  deriving DecidableEq, Repr

/-- The zero value `http.Request{}`, with an empty body. -/
def emptyRequest : Request :=
  { Method := [], URL := { RawQuery := [], String := [] }, RequestURI := [],
    ContentLength := 0, Body := { data := [], stop := IOError.EOF }, RemoteAddr := [],
    Header := [] }

/-- The interface `http.ResponseWriter`, as the record of what was done
through it: the header map that `Header` returns, the status codes passed to
`WriteHeader` and the byte slices passed to `Write`, each in the order of the
calls. -/
structure ResponseWriter where
  header : List (Str × List Str)
  statuses : List Int
  written : List Str
  deriving DecidableEq, Repr

/-- A response writer through which nothing was done yet. -/
def emptyResponse : ResponseWriter :=
  { header := [], statuses := [], written := [] }

/-- The struct `Context`, without the fields `URL` and `Extended`, which the
methods below neither read nor write. `Route = none`, `Model = none` and
`Error = none` are `nil`; the request and the response writer are held by
value, so a write through the pointer `Request` or through the interface
`Response` is a write of the field. The maps `URIParameters`, a
`map[string]string`, and `URLParameters`, a `url.Values`, are the lists of
their entries, one entry for each key: they are written with `mapSet` and with
`valuesAdd`, and read with `mapGet` and with `valuesOf`. -/
structure Context (C : Type) where
  URIParameters : List (Str × Str)
  URLParameters : List (Str × List Str)
  URI : Str
  Method : Str
  Request : Request
  Response : ResponseWriter
  Route : Option (RouteNode C)
  responseStatus : Int
  Model : Option Any
  Error : Option RestError
  Body : Str
  bodyRead : Bool

/-- The zero value `Context{}`, the fresh context of the tests, with a response
writer through which nothing was done yet. -/
def emptyContext : Context C :=
  { URIParameters := [], URLParameters := [], URI := [], Method := [],
    Request := emptyRequest, Response := emptyResponse, Route := none,
    responseStatus := 0, Model := none, Error := none, Body := [], bodyRead := false }

/-- The method `Context.Status`. -/
def Status (context : Context C) : Int := context.responseStatus

/-- The method `Context.SetError`. -/
def SetError (context : Context C) (err : Option RestError) (status : Int) : Context C :=
  { context with responseStatus := status, Error := err }

/-- The method `Context.HasError`. -/
def HasError (context : Context C) : Bool := context.Error.isSome

/-- The method `Context.AddError`. The call `context.Error.AddDetail(err)`
writes the error behind the pointer; here the context holds the error after
the write. After the first statement the context has an error, so the last
case of the match is not reached. -/
def AddError (context : Context C) (err : FieldError) : Context C :=
  let context :=
    if !HasError context then
      SetError context (some (NewRestError ValidationError [] none)) StatusBadRequest
    else context
  match context.Error with
  | some e => { context with Error := some (AddDetail e (some (Any.fieldError err))) }
  | none => context

/-- The method `Context.SetResponse`: the context after the call and the
boolean returned. -/
def SetResponse (context : Context C) (model : Option Any) (status : Int) :
    Context C × Bool :=
  if HasError context then (context, false)
  else ({ context with responseStatus := status, Model := model }, true)

/-- The context of `TestSetError` after its `SetError` call. -/
def contextWithError : Context Nat :=
  SetError emptyContext (some (NewRestError MethodNotAllowed [] none)) 405

/-! ## Functions of other packages used by the context -/

/-- The Go function `strings.Trim(s, cutset)`: the characters of `cutset`
removed at both ends. -/
def Trim (s cutset : Str) : Str :=
  ((s.dropWhile (fun c => cutset.contains c)).reverse.dropWhile
    (fun c => cutset.contains c)).reverse

/-- Modelled from the spec: `stringutil.IsWhiteSpace` of the library
`github.com/Kasita-Inc/gadget`, which is not part of this repository. The spec
says de-templating runs when the resolved path is non-blank: a string is blank
when all its characters are white space. -/
def IsWhiteSpace (s : Str) : Bool := s.all IsSpace

/-- The value of a hexadecimal digit. -/
def unhex (c : Char) : Option Nat :=
  if '0' ≤ c ∧ c ≤ '9' then some (c.toNat - '0'.toNat)
  else if 'a' ≤ c ∧ c ≤ 'f' then some (c.toNat - 'a'.toNat + 10)
  else if 'A' ≤ c ∧ c ≤ 'F' then some (c.toNat - 'A'.toNat + 10)
  else none

/-- The Go function `url.QueryUnescape`: `+` is a space, `%XY` is the byte
with the hexadecimal code `XY`, a `%` not followed by two hexadecimal digits
is an error (`none`). -/
def QueryUnescape : Str → Option Str
  | [] => some []
  | '%' :: a :: b :: rest =>
    match unhex a, unhex b with
    | some x, some y => (QueryUnescape rest).map (fun r => Char.ofNat (16 * x + y) :: r)
    | _, _ => none
  | '%' :: _ => none
  | '+' :: rest => (QueryUnescape rest).map (fun r => ' ' :: r)
  | c :: rest => (QueryUnescape rest).map (fun r => c :: r)

/-- The Go function `strings.Cut(s, sep)` for a separator of one character,
without its third result. -/
def Cut (s : Str) (sep : Char) : Str × Str :=
  (s.takeWhile (fun c => c != sep), (s.dropWhile (fun c => c != sep)).drop 1)

/-- The write `m[key] = append(m[key], value)` on a `url.Values`. -/
def valuesAdd : List (Str × List Str) → Str → Str → List (Str × List Str)
  | [], key, value => [(key, [value])]
  | (k, vs) :: m, key, value =>
    if k = key then (k, vs ++ [value]) :: m else (k, vs) :: valuesAdd m key value

/-- The loop of the Go function `url.parseQuery` over the pieces of the query
between `&`: a piece with a `;` is an error, an empty piece is skipped, the
key and the value of a piece are unescaped and a failure is an error; the
pieces without error are still added. -/
def parseQuery : List Str → List (Str × List Str) × Bool → List (Str × List Str) × Bool
  | [], acc => acc
  | piece :: pieces, (m, err) =>
    if piece.contains ';' then parseQuery pieces (m, true)
    else if piece = [] then parseQuery pieces (m, err)
    else
      match QueryUnescape (Cut piece '=').1, QueryUnescape (Cut piece '=').2 with
      | some key, some value => parseQuery pieces (valuesAdd m key value, err)
      | _, _ => parseQuery pieces (m, true)

/-- The Go function `url.ParseQuery` of the standard library: the values
parsed and whether an error is returned. -/
def ParseQuery (query : Str) : List (Str × List Str) × Bool :=
  parseQuery (Split query '&') ([], false)

/-! ## De-templating, as the spec describes it -/

/-- Modelled from the spec: the name of a segment written as `{{name}}`, a
name being free of braces; `none` for any other segment. -/
def placeholderName (seg : Str) : Option Str :=
  if HasPrefix seg DOpen && DClose.isSuffixOf seg && decide (4 ≤ seg.length) &&
      ((seg.drop 2).dropLast.dropLast).all (fun c => c != '{' && c != '}') then
    some ((seg.drop 2).dropLast.dropLast)
  else none

/-- The Go function `strings.Contains`. -/
def Contains (s substr : Str) : Bool := s.tails.any (fun t => substr.isPrefixOf t)

/-- Modelled from the spec: a template segment with malformed placeholder
syntax, one that holds `{{` or `}}` and is not written as `{{name}}` (two
placeholders fused in one segment, a placeholder that is a part of a
segment). -/
def malformedSegment (seg : Str) : Bool :=
  (Contains seg DOpen || Contains seg DClose) && (placeholderName seg).isNone

/-- The write `m[key] = value` on a `map[string]string`, the map being the
list of its entries, one for each key: the value of a key that is there is
replaced, a key that is not there is added. -/
def mapSet : List (Str × Str) → Str → Str → List (Str × Str)
  | [], key, value => [(key, value)]
  | (k, v) :: m, key, value =>
    if k = key then (k, value) :: m else (k, v) :: mapSet m key value

/-- The read `value, ok := m[key]` on a `map[string]string`: `none` when the
map has no such key. -/
def mapGet : List (Str × Str) → Str → Option Str
  | [], _ => none
  | (k, v) :: m, key => if k = key then some v else mapGet m key

/-- Modelled from the spec: the mapping of de-templating, template segment N
paired with path segment N: for each placeholder, in the order of the
positions, the path segment at its position is written into the map `m` under
the name of the placeholder. The map holds one value for a name; which value
it holds for a name that the template has at two positions the spec does not
say, here it is the one of the later position. -/
def detemplateMap (m : List (Str × Str)) : List Str → List Str → List (Str × Str)
  | t :: ts, p :: ps =>
    match placeholderName t with
    | some name => detemplateMap (mapSet m name p) ts ps
    | none => detemplateMap m ts ps
  | _, _ => m

/-- Modelled from the spec: `stringutil.Detemplate` of the library
`github.com/Kasita-Inc/gadget`, which is not part of this repository: the named
values recovered by pairing the template with the path segment by segment, and
whether an error is returned, which the spec says of a template whose
placeholder syntax is malformed. What is returned with the error the spec
does not say; here it is the `nil` map. Without error it is a fresh map with
the values written by `detemplateMap`. -/
def Detemplate (template s : Str) : List (Str × Str) × Bool :=
  if (Split template SlashChar).any malformedSegment then ([], true)
  else (detemplateMap [] (Split template SlashChar) (Split s SlashChar), false)

/-! ## Building the context (`http/context.go`) and serving (`http/server.go`) -/

/-- The constant `MalformedURL`. -/
def MalformedURL : Str := "malformed-url".toList

/-- The constant `InvalidRoute`. -/
def InvalidRoute : Str := "invalid-route".toList

/-- The constant `AuthenticationFailed`. -/
def AuthenticationFailed : Str := "authentication-failed".toList

/-- The constant `InvalidCredentialsErrorMessage`. -/
def InvalidCredentialsErrorMessage : Str := "Invalid Credentials".toList

/-- The constant `http.StatusUnauthorized`. -/
def StatusUnauthorized : Int := 401

/-- The constant `http.StatusMethodNotAllowed`. -/
def StatusMethodNotAllowed : Int := 405

/-- The constant `http.StatusInternalServerError`. -/
def StatusInternalServerError : Int := 500

/-- The constant `http.MethodGet`. -/
def MethodGet : Str := "GET".toList

/-- The constant `http.MethodPost`. -/
def MethodPost : Str := "POST".toList

/-- The constant `http.MethodPut`. -/
def MethodPut : Str := "PUT".toList

/-- The constant `http.MethodPatch`. -/
def MethodPatch : Str := "PATCH".toList

/-- The constant `http.MethodDelete`. -/
def MethodDelete : Str := "DELETE".toList

/-- The constant `http.MethodOptions`. -/
def MethodOptions : Str := "OPTIONS".toList

/-- A call of a method of the interface `Controller` made by `CreateContext`
or `ServeHTTP`; the call of `Authenticate` with the boolean it returned. -/
inductive Call where
  | Authenticate (result : Bool)
  | Get
  | Post
  | Put
  | Patch
  | Delete
  | Options
  deriving DecidableEq, Repr

/-- What the package calls and does not define: the functions `url.ParseQuery`
and `stringutil.Detemplate`, each with the value it returns and whether it
returns an error, and the methods of the controllers. A method of a controller
receives the pointer to the context and may write it: it maps the context
before the call to the context after it. -/
structure Env (C : Type) where
  ParseQuery : Str → List (Str × List Str) × Bool
  Detemplate : Str → Str → List (Str × Str) × Bool
  Authenticate : C → Context C → Context C × Bool
  Get : C → Context C → Context C
  Post : C → Context C → Context C
  Put : C → Context C → Context C
  Patch : C → Context C → Context C
  Delete : C → Context C → Context C
  Options : C → Context C → Context C

/-- The path that `CreateContext` looks up: the request URI up to the first
`?`, with the spaces and slashes at its ends removed (lines 125 and 126 of
`context.go`). -/
def cleanPath (request : Request) : Str :=
  Trim ((Split request.RequestURI '?').headD []) [' ', '/']

/-- The context of `CreateContext` after line 116 of `context.go`: the fields
of the request copied and the query parsed. The response writer handed to
`CreateContext` is taken to be one through which nothing was done yet, as the
server hands it to `ServeHTTP`. -/
def parsedContext (env : Env C) (request : Request) : Context C :=
  { (emptyContext : Context C) with
    Request := request, URI := request.RequestURI, Method := request.Method,
    URLParameters := (env.ParseQuery request.URL.RawQuery).1 }

/-- The message `fmt.Sprintf("Malformed URL Parameters '%s'.", request.URL)`. -/
def malformedURLMessage (request : Request) : Str :=
  "Malformed URL Parameters '".toList ++ request.URL.String ++ "'.".toList

/-- The context of `CreateContext` after line 140 of `context.go`, when the
route was found and de-templating returned no error: the route stored and the
parameters of the URI filled, from `Detemplate` when the path is not blank. -/
def routedContext (env : Env C) (request : Request) (node : RouteNode C) : Context C :=
  { parsedContext env request with
    Route := some node,
    URIParameters :=
      if !IsWhiteSpace (cleanPath request) then
        (env.Detemplate node.TemplateRoute (cleanPath request)).1
      else [] }

/-- The function `CreateContext`: the context returned and the calls of
controller methods made, in order. A node that `FindRouteForPath` returns
without error has a controller, so the last case of the inner match, a `nil`
controller, is not reached. -/
def CreateContext (env : Env C) (request : Request) (router : Router C) :
    Context C × List (C × Call) :=
  let context := parsedContext env request
  if (env.ParseQuery request.URL.RawQuery).2 then
    (SetError context (some (NewRestError MalformedURL (malformedURLMessage request) none))
      StatusBadRequest, [])
  else
    match FindRouteForPath router (cleanPath request) with
    | (some node, none) =>
      if !IsWhiteSpace (cleanPath request) &&
          (env.Detemplate node.TemplateRoute (cleanPath request)).2 then
        (SetError (routedContext env request node) (some (NewRestError InvalidRoute [] none))
          StatusInternalServerError, [])
      else if MethodOptions ≠ request.Method then
        match node.Controller with
        | some c =>
          let r := env.Authenticate c (routedContext env request node)
          (if !r.2 then
              SetError r.1 (some (NewRestError AuthenticationFailed
                InvalidCredentialsErrorMessage none)) StatusUnauthorized
            else r.1,
            [(c, Call.Authenticate r.2)])
        | none => (routedContext env request node, [])
      else (routedContext env request node, [])
    | (route, _) =>
      (SetError { context with Route := route } (some (NewRestError InvalidRoute [] none))
        StatusBadRequest, [])

/-- The call `context.Route.Controller.M(context)` of a verb method `M` in
`ServeHTTP`: the context after the call and the calls so far with this one
added; `none` is the panic of Go on a `nil` route or controller. -/
def invoke (method : C → Context C → Context C) (call : Call)
    (created : Context C × List (C × Call)) : Option (Context C × List (C × Call)) :=
  match created.1.Route.bind (fun node => node.Controller) with
  | some c => some (method c created.1, created.2 ++ [(c, call)])
  | none => none

/-- Lines 31 to 49 of `server.go`, the method `ServeHTTP` up to its last
statement: the context that `ServeHTTP` hands to `CompleteRequest` and the
calls of controller methods made, in order; `none` is a panic.
`CompleteRequest` calls no method of a controller. -/
def dispatch (env : Env C) (request : Request) (router : Router C) :
    Option (Context C × List (C × Call)) :=
  let created := CreateContext env request router
  if !HasError created.1 then
    if created.1.Request.Method = MethodGet then invoke env.Get Call.Get created
    else if created.1.Request.Method = MethodPost then invoke env.Post Call.Post created
    else if created.1.Request.Method = MethodPut then invoke env.Put Call.Put created
    else if created.1.Request.Method = MethodPatch then invoke env.Patch Call.Patch created
    else if created.1.Request.Method = MethodDelete then invoke env.Delete Call.Delete created
    else if created.1.Request.Method = MethodOptions then
      invoke env.Options Call.Options created
    else
      some (SetError created.1 (some (NewRestError MethodNotAllowed [] none))
        StatusMethodNotAllowed, created.2)
  else some created

/-! ## Reading the body (`http/context.go`) -/

/-- The errors that `Read` returns: the `NoContentError` with its two fields,
or the error of the reader. -/
inductive ReadError where
  | NoContent (RequestPath RequestMethod : Str)
  | Reader (err : IOError)
  deriving DecidableEq, Repr

/-- A line written by `log.Errorf` in `Read`, with the arguments of its format
`"warning:%s:%s: Request.ContentLength (%d) mismatch with actual body length
(%d)"` in the order in which the code passes them. -/
structure LogLine where
  URI : Str
  RemoteAddr : Str
  first : Int
  second : Int
  deriving DecidableEq, Repr

/-- The results of `io.ReadFull`. -/
structure ReadFullResult where
  buf : Str
  n : Nat
  err : Option IOError
  rest : BodyStream
  deriving DecidableEq, Repr

/-- The Go function `io.ReadFull(r, buf)` on a buffer of `len` zero bytes, as
the standard library documents it: it reads exactly `len` bytes; the error is
`EOF` only if no bytes were read; if an `EOF` happens after reading some but
not all the bytes it is `ErrUnexpectedEOF`; any other error of the reader is
returned as it is. The bytes not read stay zero. -/
def ReadFull (r : BodyStream) (len : Nat) : ReadFullResult :=
  if len ≤ r.data.length then
    { buf := r.data.take len, n := len, err := none,
      rest := { r with data := r.data.drop len } }
  else
    { buf := r.data ++ List.replicate (len - r.data.length) (Char.ofNat 0),
      n := r.data.length,
      err := some (if r.stop = IOError.EOF ∧ r.data ≠ [] then IOError.ErrUnexpectedEOF
        else r.stop),
      rest := { r with data := [] } }

/-- The results of `Read`, with the context after the call and the lines
logged: `body = none` is the `nil` slice, `err = none` is `nil`. -/
structure ReadResult (C : Type) where
  context : Context C
  body : Option Str
  err : Option ReadError
  log : List LogLine

/-- The method `Context.Read`. -/
def Read (context : Context C) : ReadResult C :=
  if context.bodyRead then
    { context := context, body := some context.Body, err := none, log := [] }
  else if context.Request.ContentLength ≤ 0 then
    { context := context, body := none, err := some (ReadError.NoContent [] []), log := [] }
  else
    let r := ReadFull context.Request.Body context.Request.ContentLength.toNat
    { context :=
        { context with
          Body := r.buf, bodyRead := true,
          Request := { context.Request with Body := r.rest } },
      body := some r.buf,
      err := (if r.err = some IOError.EOF then none else r.err).map ReadError.Reader,
      log :=
        if r.err = some IOError.ErrUnexpectedEOF then
          [{ URI := context.URI, RemoteAddr := context.Request.RemoteAddr,
             first := r.n, second := context.Request.ContentLength }]
        else [] }

/-! ## Controllers and requests of the examples -/

/-- The collaborators of the tests: the models of `url.ParseQuery` and
`stringutil.Detemplate` above, a controller whose `Authenticate` returns
`auth` whatever the context (`TestController` for `true`,
`NoAuthTestController` for `false`), and verb methods that set the verb as the
response as those of `TestController` do. -/
def testEnv (auth : Bool) : Env Nat :=
  { ParseQuery := ParseQuery,
    Detemplate := Detemplate,
    Authenticate := fun _ context => (context, auth),
    Get := fun _ context => (SetResponse context (some (Any.str MethodGet)) 200).1,
    Post := fun _ context => (SetResponse context (some (Any.str MethodPost)) 201).1,
    Put := fun _ context => (SetResponse context (some (Any.str MethodPut)) 202).1,
    Patch := fun _ context => (SetResponse context (some (Any.str MethodPatch)) 202).1,
    Delete := fun _ context => (SetResponse context (some (Any.str MethodDelete)) 204).1,
    Options := fun _ context => (SetResponse context (some (Any.str MethodOptions)) 200).1 }

/-- A request as the tests build it with `url.Parse` of `http://127.0.0.1`
followed by `uri`: the method, the request URI and the raw query. -/
def testRequest (method uri query : Str) : Request :=
  { emptyRequest with
    Method := method, RequestURI := uri,
    URL := { RawQuery := query, String := "http://127.0.0.1".toList ++ uri } }

/-- The router with the root controller 0 and no route. -/
def routerRootOnly : Router Nat := CreateRouter (some 0)

/-- The router with the root controller 0 and the route `foo/{{id}}{{id2}}`
for the controller 0, as in `TestCreateContextBadTemplate`. -/
def routerFused : Router Nat :=
  AddRoutes (CreateRouter (some 0))
    [("foo/\x7b\x7bid\x7d\x7d\x7b\x7bid2\x7d\x7d".toList, some 0)]

/-- The router with the root controller 0 and the route `foo/{{id}}` for the
controller 0, as in `TestCreateContextQueryStringNotInParameters`. -/
def routerFooId : Router Nat :=
  AddRoutes (CreateRouter (some 0)) [("foo/\x7b\x7bid\x7d\x7d".toList, some 0)]

/-- The router with the root controller 0 and the route `{{a}}{{b}}` for the
controller 0. -/
def routerFusedOnly : Router Nat :=
  AddRoutes (CreateRouter (some 0)) [("\x7b\x7ba\x7d\x7d\x7b\x7bb\x7d\x7d".toList, some 0)]

/-- A context whose request declares 5 bytes and whose body delivers the 3
bytes `foo` before the end of the stream. -/
def contextShortBody : Context Nat :=
  { (emptyContext : Context Nat) with
    URI := "/".toList,
    Request := { emptyRequest with
      ContentLength := 5, Body := { data := "foo".toList, stop := IOError.EOF } } }

/-- A context whose request declares 5 bytes and whose body delivers no byte
before the end of the stream. -/
def contextNoBody : Context Nat :=
  { (emptyContext : Context Nat) with
    URI := "/".toList,
    Request := { emptyRequest with
      ContentLength := 5, Body := { data := [], stop := IOError.EOF } } }

/-- The router with the root controller 0 and the route `{{id}}` for the
controller 0. -/
def routerIdOnly : Router Nat :=
  AddRoutes (CreateRouter (some 0)) [("\x7b\x7bid\x7d\x7d".toList, some 0)]

/-- The router with the root controller 0 and the route `{{a}}/{{b}}{{c}}` for
the controller 0. -/
def routerSiblingFused : Router Nat :=
  AddRoutes (CreateRouter (some 0))
    [("\x7b\x7ba\x7d\x7d/\x7b\x7bb\x7d\x7d\x7b\x7bc\x7d\x7d".toList, some 0)]

/-- The router with the root controller 0 and the route `{{id}}/{{id}}` for
the controller 0: the template has the name `id` at two positions. -/
def routerIdTwice : Router Nat :=
  AddRoutes (CreateRouter (some 0))
    [("\x7b\x7bid\x7d\x7d/\x7b\x7bid\x7d\x7d".toList, some 0)]

/-- The collaborators of the tests with a controller whose `Authenticate`
writes the context it is handed, as the pointer `*Context` allows: it empties
the two maps of parameters, sets an error of its own with the status 403, and
returns true. -/
def testEnvRewriting : Env Nat :=
  { testEnv true with
    Authenticate := fun _ context =>
      (SetError { context with URIParameters := [], URLParameters := [] }
        (some (NewRestError "forbidden".toList [] none)) 403, true) }

/-! ## Registering a controller (`http/router.go`) -/

/-- The loop of `Router.AddController` over the routes that are left: each
route is added with the controller, and the first error ends the loop. -/
def addControllerRoutes (router : Router C) (controller : C) :
    List Str → Router C × Option RouteError
  | [] => (router, none)
  | route :: routes =>
    match AddRoute router route (some controller) with
    | (router, none) => addControllerRoutes router controller routes
    | (router, some err) => (router, some err)

/-- The method `Router.AddController`: the router after the call and the error
returned. `GetRoutes` is the method of the interface `Controller`, called once
on the controller, which is not `nil`. -/
def AddController (GetRoutes : C → List Str) (router : Router C) (controller : C) :
    Router C × Option RouteError :=
  addControllerRoutes router controller (GetRoutes controller)

/-- The context of `TestRead`: 3 bytes declared and the 3 bytes `foo`
delivered. -/
def contextFoo : Context Nat :=
  { (emptyContext : Context Nat) with
    Request := { emptyRequest with
      ContentLength := 3, Body := { data := "foo".toList, stop := IOError.EOF } } }

/-- The controller 1 with the routes `a`, `b//c` and `d`, the second of which
fails the shape check. -/
def routesWithBadSecond : Nat → List Str :=
  fun _ => ["a".toList, "b//c".toList, "d".toList]

/-! ## Completing the request (`http/server.go`) -/

/-- The constant `contentTypeHeader`. -/
def contentTypeHeader : Str := "Content-Type".toList

/-- The constant `contentTypeJSON`. -/
def contentTypeJSON : Str := "application/json".toList

/-- The constant `contentTypeForm`. -/
def contentTypeForm : Str := "application/x-www-form-urlencoded".toList

/-- The constant `HealthCheckRoute` of `http/controller.go`. -/
def HealthCheckRoute : Str := "health".toList

/-- The constant `healthCheckURI`. -/
def healthCheckURI : Str := "/".toList ++ HealthCheckRoute

/-- The index expression `m[key]` on a `url.Values` or on a `http.Header`: the
values of the key in the order they were added, the `nil` slice when the key
is absent. -/
def valuesOf : List (Str × List Str) → Str → List Str
  | [], _ => []
  | (k, vs) :: m, key => if k = key then vs else valuesOf m key

/-- The method `Get` of `url.Values`, and of `http.Header` for a key in
canonical form as `Content-Type` is: the first value of the key, the empty
string when there is none. -/
def Get (m : List (Str × List Str)) (key : Str) : Str :=
  (valuesOf m key).headD []

/-- The call `Header().Add(key, value)` on a response writer, for a key in
canonical form. -/
def ResponseWriter.Add (w : ResponseWriter) (key value : Str) : ResponseWriter :=
  { w with header := valuesAdd w.header key value }

/-- The method `WriteHeader` of a response writer. -/
def ResponseWriter.WriteHeader (w : ResponseWriter) (status : Int) : ResponseWriter :=
  { w with statuses := w.statuses ++ [status] }

/-- The method `Write` of a response writer. -/
def ResponseWriter.Write (w : ResponseWriter) (b : Str) : ResponseWriter :=
  { w with written := w.written ++ [b] }

/-- A line of the access log: the arguments of `log.Accessf` that the model of
the request holds, without the protocol, the user agent and the referer.
`Body` is the cached body, which only the line of `completeRequestJSON` has. -/
structure AccessLine where
  RemoteAddr : Str
  Method : Str
  URL : Str
  URLParameters : List (Str × List Str)
  Body : Option Str
  Status : Int
  deriving DecidableEq, Repr

/-- The function `json.Marshal` of the standard library on the two values that
`completeRequestJSON` passes to it, the model and the error that is not `nil`:
the bytes, or `none` when it returns an error. -/
structure Encoder where
  Marshal : Option Any → Option Str
  MarshalError : RestError → Option Str

/-- The error `qerror.NewRestError("system-error", "", nil)` of
`completeRequestJSON`. -/
def systemError : RestError := NewRestError "system-error".toList [] none

/-- The access log line of a context, written unless the URI is the one of the
health check. -/
def accessLog (context : Context C) (body : Option Str) : List AccessLine :=
  if healthCheckURI ≠ context.URI then
    [{ RemoteAddr := context.Request.RemoteAddr, Method := context.Request.Method,
       URL := context.Request.URL.String, URLParameters := context.URLParameters,
       Body := body, Status := Status context }]
  else []

/-- The method `RESTServer.completeRequestJSON`: the context after the call
and the access log lines written. When `json.Marshal` fails on the fallback
error too, its bytes are the `nil` slice. -/
def completeRequestJSON (enc : Encoder) (context : Context C) :
    Context C × List AccessLine :=
  let context :=
    { context with Response := context.Response.Add contentTypeHeader contentTypeJSON }
  let encoded :=
    match context.Error with
    | some e => enc.MarshalError e
    | none => enc.Marshal context.Model
  let context :=
    match encoded with
    | some _ => context
    | none => SetError context (some systemError) StatusInternalServerError
  let b :=
    match encoded with
    | some b => b
    | none => (enc.MarshalError systemError).getD []
  ({ context with
      Response := (context.Response.WriteHeader context.responseStatus).Write b },
    accessLog context (some context.Body))

/-- The bytes that `CompleteRequest` writes when the content type is set: the
message of the error, or the model, which the type assertion
`context.Model.(string)` takes to be a string, or nothing when the model is
`nil`. `none` is the panic of the type assertion on a model that is not a
string. -/
def plainBody (context : Context C) : Option Str :=
  match context.Error with
  | some e => some e.Message
  | none =>
    match context.Model with
    | none => some []
    | some (Any.str s) => some s
    | some _ => none

/-- The method `RESTServer.CompleteRequest`: the context after the call and
the access log lines written; `none` is a panic. -/
def CompleteRequest (enc : Encoder) (context : Context C) :
    Option (Context C × List AccessLine) :=
  if Get context.Response.header contentTypeHeader = [] then
    some (completeRequestJSON enc context)
  else
    (plainBody context).map (fun b =>
      ({ context with
          Response := (context.Response.WriteHeader context.responseStatus).Write b },
        accessLog context none))

/-- The method `RESTServer.ServeHTTP`: the context at the end, the calls of
controller methods made and the access log lines written; `none` is a
panic. -/
def ServeHTTP (env : Env C) (enc : Encoder) (request : Request) (router : Router C) :
    Option (Context C × List (C × Call) × List AccessLine) :=
  match dispatch env request router with
  | none => none
  | some (context, calls) =>
    (CompleteRequest enc context).map (fun done => (done.1, calls, done.2))

/-! ## The encoder of the examples -/

/-- The double quote. -/
def Quote : Char := Char.ofNat 34

/-- The backslash. -/
def Backslash : Char := Char.ofNat 92

/-- A hexadecimal digit in lower case. -/
def hexDigit (n : Nat) : Char :=
  Char.ofNat (if n < 10 then 48 + n else 87 + n)

/-- The escape `\u00XX` of a character below 256. -/
def unicodeEscape (c : Char) : Str :=
  [Backslash, 'u', '0', '0', hexDigit (c.toNat / 16), hexDigit (c.toNat % 16)]

/-- One character of a string as `json.Marshal` writes it, for the characters
of ASCII: the quote and the backslash after a backslash, newline, carriage
return and tab by their letters, the other control characters and `<`, `>`,
`&` as `\u00XX`. -/
def jsonEscape (c : Char) : Str :=
  if c = Quote then [Backslash, Quote]
  else if c = Backslash then [Backslash, Backslash]
  else if c = Char.ofNat 10 then [Backslash, 'n']
  else if c = Char.ofNat 13 then [Backslash, 'r']
  else if c = Char.ofNat 9 then [Backslash, 't']
  else if c.toNat < 32 ∨ c = '<' ∨ c = '>' ∨ c = '&' then unicodeEscape c
  else [c]

/-- A string as `json.Marshal` writes it. -/
def jsonString (s : Str) : Str :=
  [Quote] ++ s.foldr (fun c acc => jsonEscape c ++ acc) [] ++ [Quote]

/-- An object with the keys and the encoded values given, as `json.Marshal`
writes a struct. -/
def jsonObject (fields : List (Str × Str)) : Str :=
  [Char.ofNat 123] ++
    [','].intercalate (fields.map (fun kv => jsonString kv.1 ++ [':'] ++ kv.2)) ++
    [Char.ofNat 125]

/-- An array of the encoded values given. -/
def jsonArray (items : List Str) : Str :=
  ['['] ++ [','].intercalate items ++ [']']

/-- What `json.Marshal` gives on a value of type `interface{}` of the
examples: `null` for `nil`, a string, a `FieldError` with its tags `code`,
`message` and `field`; the values `Any.other` of the examples are values that
`json.Marshal` rejects, as `math.Inf(1)` in the tests. -/
def marshalAny : Option Any → Option Str
  | none => some "null".toList
  | some (Any.str s) => some (jsonString s)
  | some (Any.fieldError e) =>
    some (jsonObject [("code".toList, jsonString e.Code),
      ("message".toList, jsonString e.Message), ("field".toList, jsonString e.Field)])
  | some (Any.other _) => none

/-- The values of a slice encoded in order, `none` when one is rejected. -/
def marshalAll : List (Option Any) → Option (List Str)
  | [] => some []
  | d :: ds =>
    match marshalAny d, marshalAll ds with
    | some x, some xs => some (x :: xs)
    | _, _ => none

/-- What `json.Marshal` gives on a `RestError`, with its tags `code`,
`message` and `details`: the `nil` slice of details is written `null`. -/
def marshalRestError (e : RestError) : Option Str :=
  match e.Details with
  | none =>
    some (jsonObject [("code".toList, jsonString e.Code),
      ("message".toList, jsonString e.Message), ("details".toList, "null".toList)])
  | some ds =>
    (marshalAll ds).map (fun xs =>
      jsonObject [("code".toList, jsonString e.Code),
        ("message".toList, jsonString e.Message), ("details".toList, jsonArray xs)])

/-- The encoder of the examples. -/
def testEncoder : Encoder :=
  { Marshal := marshalAny, MarshalError := marshalRestError }

/-- The context of `TestCompleteRequestResponse`: the model `OK` with status
200. -/
def contextOK : Context Nat :=
  (SetResponse emptyContext (some (Any.str "OK".toList)) 200).1

/-- The context of `TestCompleteRequestError`: the error `testing` with status
418. -/
def contextTeapot : Context Nat :=
  SetError emptyContext (some (NewRestError "testing".toList [] none)) 418

/-- The context of `TestCompleteRequestErrorCannotMarshall`: the error
`testing` with a detail that `json.Marshal` rejects, with status 418. -/
def contextTeapotInf : Context Nat :=
  SetError emptyContext
    (some (AddDetail (NewRestError "testing".toList [] none) (some (Any.other 0)))) 418

/-- The context of `TestCompleteRequestResponseCannotMarshal`: a model that
`json.Marshal` rejects, with status 208. -/
def contextInf : Context Nat :=
  (SetResponse emptyContext (some (Any.other 0)) 208).1

/-- A context as the method `Get` of the `APIController` of the example leaves
it: the content type `text/html` set and a string as the model, with status
200. -/
def contextHTML : Context Nat :=
  (SetResponse
    { (emptyContext : Context Nat) with
      Response := emptyResponse.Add contentTypeHeader "text/html".toList }
    (some (Any.str "<html></html>".toList)) 200).1

/-- As `contextHTML`, with an error set after the model. -/
def contextHTMLError : Context Nat :=
  SetError contextHTML (some (NewRestError "testing".toList "no".toList none)) 418

/-- As `contextHTML`, without a model. -/
def contextHTMLEmpty : Context Nat :=
  { (emptyContext : Context Nat) with
    Response := emptyResponse.Add contentTypeHeader "text/html".toList,
    responseStatus := 204 }

/-! ## Reading an object (`http/context.go`) -/

/-- The constant `http.StatusNotAcceptable`. -/
def StatusNotAcceptable : Int := 406

/-- The kinds of `reflect.Kind` of the standard library. -/
inductive Kind where
  | Invalid | Bool | Int | Int8 | Int16 | Int32 | Int64
  | Uint | Uint8 | Uint16 | Uint32 | Uint64 | Uintptr
  | Float32 | Float64 | Complex64 | Complex128
  | Array | Chan | Func | Interface | Map | Pointer | Slice | String | Struct
  | UnsafePointer
  deriving DecidableEq, Repr

/-- A value of the map `valueMap` of `valuesToObject`: a string, or a slice of
strings. -/
inductive FormValue where
  | scalar (value : Str)
  | sequence (values : List Str)
  deriving DecidableEq, Repr

/-- What `ReadObject` calls and the package does not define, for targets of
type `T`. `ParseMediaType` is `mime.ParseMediaType`, with the media type and
the text of the error; `ParseQuery` is `url.ParseQuery`, with the values and
the text of the error; `Underscore` is `stringutil.Underscore`; `Fields` is the
reflection of `inspectModel`, the names of the fields of the target, which is
a struct or a pointer to one, each with the kind of its type; `Unmarshal` is
`json.Unmarshal` on a body, and `UnmarshalValues` is `json.Marshal` on the map
`valueMap`, which cannot fail on strings and slices of strings, followed by
`json.Unmarshal`: both give the target after the call and the text of the
error. -/
structure Decoder (T : Type) where
  ParseMediaType : Str → Str × Option Str
  ParseQuery : Str → List (Str × List Str) × Option Str
  Underscore : Str → Str
  Fields : T → List (Str × Kind)
  Unmarshal : Str → T → T × Option Str
  UnmarshalValues : List (Str × FormValue) → T → T × Option Str

/-- Modelled from the spec: the function `stringutil.IsEmpty` of the gadget
library, true on the empty string. -/
def IsEmpty (s : Str) : Bool := s.isEmpty

/-- The method `Context.inspectModel`: the map from the names of the fields of
the target to their types, of which `valuesToObject` reads the kind. The names
of the fields of a struct are distinct, so the map is the list of the
fields. -/
def inspectModel (dec : Decoder T) (target : T) : List (Str × Kind) :=
  dec.Fields target

/-- The body of the loop of `valuesToObject` for one field: the value stored
in `valueMap` under the name of the field, `none` when nothing is stored. -/
def fieldValue (dec : Decoder T) (values : List (Str × List Str)) (fieldName : Str) :
    Kind → Option FormValue
  | Kind.Chan | Kind.Func | Kind.Interface | Kind.Map | Kind.Struct | Kind.UnsafePointer => none
  | Kind.Slice | Kind.Array =>
    let arrayValues : List Str :=
      if !IsEmpty (Get values (dec.Underscore fieldName)) then
        valuesOf values (dec.Underscore fieldName)
      else []
    let arrayValues :=
      if !IsEmpty (Get values (dec.Underscore fieldName ++ "[]".toList)) then
        arrayValues ++ valuesOf values (dec.Underscore fieldName ++ "[]".toList)
      else arrayValues
    if arrayValues.length > 0 then some (FormValue.sequence arrayValues) else none
  | _ =>
    if !IsEmpty (Get values (dec.Underscore fieldName)) then
      some (FormValue.scalar (Get values (dec.Underscore fieldName)))
    else none

/-- The map `valueMap` that the loop of `valuesToObject` builds, as the list of
its entries in the order of the fields. -/
def valueMap (dec : Decoder T) (values : List (Str × List Str))
    (fields : List (Str × Kind)) : List (Str × FormValue) :=
  fields.filterMap (fun field =>
    (fieldValue dec values field.1 field.2).map (fun value => (field.1, value)))

/-- The index expression `valueMap[fieldName]`; `none` when the name is not a
key of the map. -/
def valueOf : List (Str × FormValue) → Str → Option FormValue
  | [], _ => none
  | (k, v) :: m, fieldName => if k = fieldName then some v else valueOf m fieldName

/-- The method `Context.valuesToObject`: the target after the call and the
text of the error. -/
def valuesToObject (dec : Decoder T) (values : List (Str × List Str)) (target : T) :
    T × Option Str :=
  dec.UnmarshalValues (valueMap dec values (inspectModel dec target)) target

/-- The method `Context.readJSON`. -/
def readJSON (dec : Decoder T) (body : Str) (target : T) : T × Option Str :=
  dec.Unmarshal body target

/-- The method `Context.readForm`. -/
def readForm (dec : Decoder T) (body : Str) (target : T) : T × Option Str :=
  match (dec.ParseQuery body).2 with
  | some err => (target, some err)
  | none => valuesToObject dec (dec.ParseQuery body).1 target

/-- The method `Context.ReadQueryParams`. -/
def ReadQueryParams (dec : Decoder T) (context : Context C) (target : T) : T × Option Str :=
  valuesToObject dec context.URLParameters target

/-- The error that `ReadObject` returns: the error of `Read` as it is, or an
error of `mime`, `url`, `json` or `errors.New` with its text. -/
inductive ObjectError where
  | Read (err : ReadError)
  | Other (text : Str)
  deriving DecidableEq, Repr

/-- The text of `errors.New("Unsupported contentType (%s) provided",
contentType)`. -/
def unsupportedMessage (contentType : Str) : Str :=
  "Unsupported contentType (".toList ++ contentType ++ ") provided".toList

/-- What a call of `ReadObject` leaves: the context and the target after the
call, the error returned and the log lines written. -/
structure ReadObjectResult (C T : Type) where
  context : Context C
  target : T
  err : Option ObjectError
  log : List LogLine

/-- The method `Context.ReadObject`. -/
def ReadObject (dec : Decoder T) (context : Context C) (target : T) :
    ReadObjectResult C T :=
  let r := Read context
  match r.err with
  | some err =>
    { context := r.context, target := target, err := some (ObjectError.Read err), log := r.log }
  | none =>
    let body := r.body.getD []
    let parsed := dec.ParseMediaType (Get r.context.Request.Header contentTypeHeader)
    match parsed.2 with
    | some err =>
      { context := SetError r.context (some (NewRestError ValidationError err none))
          StatusNotAcceptable,
        target := target, err := some (ObjectError.Other err), log := r.log }
    | none =>
      let decoded :=
        if parsed.1 = contentTypeForm then readForm dec body target
        else if parsed.1 = contentTypeJSON then readJSON dec body target
        else (target, some (unsupportedMessage parsed.1))
      match decoded.2 with
      | some err =>
        { context := SetError r.context (some (NewRestError ValidationError err none))
            StatusNotAcceptable,
          target := decoded.1, err := some (ObjectError.Other err), log := r.log }
      | none => { context := r.context, target := decoded.1, err := none, log := r.log }

/-! ## The decoder of the examples -/

/-- Modelled from the spec: the function `stringutil.Underscore` of the gadget
library, the snake case of the name of a field: an underscore before every
upper-case letter but the first character, and every letter in lower case. -/
def Underscore : Str → Str
  | [] => []
  | c :: rest =>
    c.toLower ::
      rest.foldr (fun ch acc => if ch.isUpper then '_' :: ch.toLower :: acc else ch :: acc) []

/-- The function `mime.ParseMediaType` on header values without parameters, as
the examples have them: the media type is the value up to the first `;`,
without the white space around it and in lower case, and the empty value gives
the error `mime: no media type`. -/
def parseMediaType (v : Str) : Str × Option Str :=
  if (TrimSpace (v.takeWhile (fun c => c != ';'))).map Char.toLower = [] then
    ([], some "mime: no media type".toList)
  else ((TrimSpace (v.takeWhile (fun c => c != ';'))).map Char.toLower, none)

/-- The struct `TestModel3` of the tests. -/
structure TestModel3 where
  FirstName : List Str
  LastName : Str
  deriving DecidableEq, Repr

/-- The kinds of the fields of `TestModel3`. -/
def fieldsTestModel3 : List (Str × Kind) :=
  [("FirstName".toList, Kind.Slice), ("LastName".toList, Kind.String)]

/-- The JSON round trip of `valuesToObject` on a `TestModel3`: a slice of
strings under `FirstName` and a string under `LastName` are assigned, a field
without an entry is left as it is, and an entry of the wrong type is an
error. -/
def unmarshalValuesTestModel3 (values : List (Str × FormValue)) (target : TestModel3) :
    TestModel3 × Option Str :=
  let first : List Str × Option Str :=
    match valueOf values "FirstName".toList with
    | some (FormValue.sequence vs) => (vs, none)
    | some (FormValue.scalar _) => (target.FirstName, some "json: cannot unmarshal string".toList)
    | none => (target.FirstName, none)
  let last : Str × Option Str :=
    match valueOf values "LastName".toList with
    | some (FormValue.scalar s) => (s, none)
    | some (FormValue.sequence _) => (target.LastName, some "json: cannot unmarshal array".toList)
    | none => (target.LastName, none)
  ({ FirstName := first.1, LastName := last.1 },
    match first.2 with
    | some err => some err
    | none => last.2)

/-- The function `json.Unmarshal` on the two bodies of the examples: the empty
object, which leaves the target as it is, and the body `asdf` of
`TestReadObject_withJSON_BadInput`, which is not JSON. The examples use no
other body, and this function rejects every other one. -/
def unmarshalTestModel3 (body : Str) (target : TestModel3) : TestModel3 × Option Str :=
  if body = [Char.ofNat 123, Char.ofNat 125] then (target, none)
  else (target, some "invalid character".toList)

/-- The decoder of the examples: the models of `mime.ParseMediaType`, of
`url.ParseQuery` and of `stringutil.Underscore`, for targets of type
`TestModel3`. -/
def testDecoder : Decoder TestModel3 :=
  { ParseMediaType := parseMediaType,
    ParseQuery := fun query =>
      ((ParseQuery query).1,
        if (ParseQuery query).2 then some "invalid URL escape".toList else none),
    Underscore := Underscore,
    Fields := fun _ => fieldsTestModel3,
    Unmarshal := unmarshalTestModel3,
    UnmarshalValues := unmarshalValuesTestModel3 }

/-- A context as the tests of `ReadObject` build it: a request with the header
given and a body that delivers the bytes given, all of them declared. -/
def contextWithBody (header : List (Str × List Str)) (body : Str) : Context Nat :=
  { (emptyContext : Context Nat) with
    Request := { emptyRequest with
      Method := MethodPost, Header := header,
      ContentLength := body.length, Body := { data := body, stop := IOError.EOF } } }

/-- The header of a request with the content type given. -/
def headerContentType (contentType : Str) : List (Str × List Str) :=
  [(contentTypeHeader, [contentType])]

/-- The empty `TestModel3`. -/
def emptyTestModel3 : TestModel3 := { FirstName := [], LastName := [] }

/-- A form body with an empty value after a value of the same key. -/
def bodyFormEmptySecond : Str := "first_name=a&first_name=".toList

/-! ## Structs as targets and the JSON round trip (`encoding/json`) -/

/-- The value of a field of a target, for the types of fields that this model
of `encoding/json` covers: `string`, `[]string`, an array `[n]string` as the
list of its `n` elements, and `[]int`. A slice has the capacity of its
length. -/
inductive GoValue where
  | str (s : Str)
  | strs (vs : List Str)
  | array (vs : List Str)
  | ints (ns : List Int)
  deriving DecidableEq, Repr

/-- The kind of the type of a value, `reflect.Type.Kind`. -/
def GoValue.kind : GoValue → Kind
  | GoValue.str _ => Kind.String
  | GoValue.strs _ => Kind.Slice
  | GoValue.array _ => Kind.Array
  | GoValue.ints _ => Kind.Slice

/-- What `reflect` tells of a field of a struct: its name, whether it is
exported, and the name in its `json` tag, `none` without such a tag. The tag
has no options, and a name in it is one that `encoding/json` takes as valid. -/
structure StructField where
  Name : Str
  Exported : Bool
  Tag : Option Str
  deriving DecidableEq, Repr

/-- A target of `ReadObject`, a pointer to a struct without embedded fields:
the fields of the struct in the order of their declaration, each with its
value. The names of the fields of a struct are distinct. -/
abbrev Struct := List (StructField × GoValue)

mutual
/-- A JSON value, as far as the errors of this package need it: `null`, a
string, an array and an object with its keys in order. -/
inductive JSON where
  | null
  | string (s : Str)
  | array (items : JSONList)
  | object (fields : JSONFields)
/-- The elements of a JSON array. -/
inductive JSONList where
  | nil
  | cons (head : JSON) (tail : JSONList)
/-- The keys and values of a JSON object. -/
inductive JSONFields where
  | nil
  | cons (key : Str) (value : JSON) (tail : JSONFields)
end

/-- The number of elements of a JSON array. -/
def JSONList.length : JSONList → Nat
  | JSONList.nil => 0
  | JSONList.cons _ tail => tail.length + 1

/-- The keys of the fields of a JSON object, in order. -/
def JSONFields.keys : JSONFields → List Str
  | JSONFields.nil => []
  | JSONFields.cons key _ tail => key :: tail.keys

/-- The value of the first field with the key given. -/
def JSONFields.get : JSONFields → Str → Option JSON
  | JSONFields.nil, _ => none
  | JSONFields.cons key value tail, k => if key = k then some value else tail.get k

/-- The keys of a JSON value that is an object. -/
def JSON.keys : JSON → Option (List Str)
  | JSON.object fields => some fields.keys
  | _ => none

/-- The value under a key of a JSON value that is an object. -/
def JSON.get : JSON → Str → Option JSON
  | JSON.object fields, k => fields.get k
  | _, _ => none

/-- The JSON value is an array. -/
def JSON.isArray : JSON → Bool
  | JSON.array _ => true
  | _ => false

/-- The JSON value is a string. -/
def JSON.isString : JSON → Bool
  | JSON.string _ => true
  | _ => false

mutual
/-- The text of a JSON value as `json.Marshal` writes it: without white space,
the strings escaped by `jsonString`. -/
def JSON.render : JSON → Str
  | JSON.null => "null".toList
  | JSON.string s => jsonString s
  | JSON.array items => jsonArray items.render
  | JSON.object fields => jsonObject fields.render
/-- The texts of the elements of an array. -/
def JSONList.render : JSONList → List Str
  | JSONList.nil => []
  | JSONList.cons head tail => head.render :: tail.render
/-- The keys of an object with the texts of their values. -/
def JSONFields.render : JSONFields → List (Str × Str)
  | JSONFields.nil => []
  | JSONFields.cons key value tail => (key, value.render) :: tail.render
end

/-- The JSON value of a `FieldError`, by the tags `code`, `message` and `field`
of the struct. -/
def fieldErrorJSON (e : FieldError) : JSON :=
  JSON.object
    (JSONFields.cons "code".toList (JSON.string e.Code)
      (JSONFields.cons "message".toList (JSON.string e.Message)
        (JSONFields.cons "field".toList (JSON.string e.Field) JSONFields.nil)))

/-- The JSON value that `json.Marshal` gives for a value of type `interface{}`
of the examples, as `marshalAny` gives its text. -/
def anyJSON : Option Any → Option JSON
  | none => some JSON.null
  | some (Any.str s) => some (JSON.string s)
  | some (Any.fieldError e) => some (fieldErrorJSON e)
  | some (Any.other _) => none

/-- The JSON values of the elements of a slice of details, in order. `item` is
`json.Marshal` on one element, `none` when it returns an error, which is then
the error of the whole. -/
def detailsJSON (item : Option Any → Option JSON) : List (Option Any) → Option JSONList
  | [] => some JSONList.nil
  | d :: ds =>
    match item d, detailsJSON item ds with
    | some x, some xs => some (JSONList.cons x xs)
    | _, _ => none

/-- The JSON value that `json.Marshal` gives for a `RestError`, by the
declaration of the struct in `error/model.go`: the fields in the order of the
declaration under the keys of their tags `code`, `message` and `details`, no
field omitted; the strings as JSON strings; the slice `Details` as `null` when
it is the `nil` slice and as an array of its elements otherwise, as the
documentation of `encoding/json` has it. -/
def restErrorJSON (item : Option Any → Option JSON) (e : RestError) : Option JSON :=
  match e.Details with
  | none =>
    some (JSON.object
      (JSONFields.cons "code".toList (JSON.string e.Code)
        (JSONFields.cons "message".toList (JSON.string e.Message)
          (JSONFields.cons "details".toList JSON.null JSONFields.nil))))
  | some ds =>
    (detailsJSON item ds).map (fun items =>
      JSON.object
        (JSONFields.cons "code".toList (JSON.string e.Code)
          (JSONFields.cons "message".toList (JSON.string e.Message)
            (JSONFields.cons "details".toList (JSON.array items) JSONFields.nil))))

/-- The error that `AddError` leaves on a fresh context for the field error of
`TestAddError`. -/
def errorWithDetail : RestError :=
  AddDetail (NewRestError ValidationError [] none)
    (some (Any.fieldError { Code := CannotBeBlank, Message := [], Field := "name".toList }))

/-! ## Routers reachable by registration -/

/-- A call that registers routes on a router: `AddRoute` with a route and a
controller, or `AddController` with a controller that is not `nil`. -/
inductive Registration (C : Type) where
  | route (route : Str) (controller : Option C)
  | controller (controller : C)

/-- The router after a sequence of calls of `AddRoute` and `AddController`. -/
def register (GetRoutes : C → List Str) : Router C → List (Registration C) → Router C
  | router, [] => router
  | router, Registration.route route controller :: rest =>
    register GetRoutes (AddRoute router route controller).1 rest
  | router, Registration.controller controller :: rest =>
    register GetRoutes (AddController GetRoutes router controller).1 rest

/-- The calls of `AddRoute` that the loop of `AddController` makes for the
routes that are left: one for each route up to the first that fails. -/
def controllerCalls (router : Router C) (controller : C) : List Str → List (Str × Option C)
  | [] => []
  | route :: routes =>
    match AddRoute router route (some controller) with
    | (router, none) => (route, some controller) :: controllerCalls router controller routes
    | (_, some _) => [(route, some controller)]

/-- The calls of `AddRoute` made by a sequence of registrations, in order. -/
def registrationCalls (GetRoutes : C → List Str) :
    Router C → List (Registration C) → List (Str × Option C)
  | _, [] => []
  | router, Registration.route route controller :: rest =>
    (route, controller) :: registrationCalls GetRoutes (AddRoute router route controller).1 rest
  | router, Registration.controller controller :: rest =>
    controllerCalls router controller (GetRoutes controller) ++
      registrationCalls GetRoutes (AddController GetRoutes router controller).1 rest

/-- The successfully registered routes of a sequence of `AddRoute` calls: the
route and the controller of every call that returns no error and has a
controller that is not `nil`, in order. -/
def registered (router : Router C) : List (Str × Option C) → List (Str × C)
  | [] => []
  | (route, controller) :: calls =>
    match (AddRoute router route controller).2, controller with
    | none, some c => (route, c) :: registered (AddRoute router route controller).1 calls
    | _, _ => registered (AddRoute router route controller).1 calls

/-! ## The lookup along the keys of a route -/

/-- The lookup of the path follows the keys: at each position the path segment
is the key of the child taken, or the key is `WildCard` and the node has no
child under the path segment, which are the two branches of `find`. -/
def followsKeys : RouteNode C → List Str → List Str → Bool
  | _, [], [] => true
  | node, key :: keys, p :: path =>
    match node.SubRoutes key with
    | some child =>
      (p == key || (key == WildCard && (node.SubRoutes p).isNone)) && followsKeys child keys path
    | none => false
  | _, _, _ => false

/-- The router of `a/*` and `a/b/d`: the node of `a` has the wildcard child
and the literal child `b`, which has no controller. -/
def routerStarLiteral : Router Nat :=
  AddRoutes (CreateRouter none) [("a/*".toList, some 1), ("a/b/d".toList, some 2)]

/-! ## Lemmas on the route tree -/

theorem Split_ne_nil (s : Str) (sep : Char) : Split s sep ≠ [] := by
  cases s with
  | nil => simp [Split]
  | cons c cs =>
    simp only [Split]
    split
    · simp
    · split <;> simp

theorem routeKey_not_brace (p : Str) : HasPrefix (routeKey p) DOpen = false := by
  unfold routeKey
  split
  · decide
  · simpa using ‹¬ HasPrefix p DOpen = true›

theorem insertRoute_cons {β : Type} (node : RouteNode C) (p : Str) (rest : List Str)
    (k : RouteNode C → RouteNode C × β) :
    insertRoute node (p :: rest) k =
      (setSubRoute node (routeKey p)
          (insertRoute ((node.SubRoutes (routeKey p)).getD (createNode (routeKey p))) rest k).1,
        (insertRoute ((node.SubRoutes (routeKey p)).getD (createNode (routeKey p))) rest k).2) := by
  have hv : (match node.SubRoutes (routeKey p) with
      | some v => v
      | none => createNode (routeKey p)) =
      (node.SubRoutes (routeKey p)).getD (createNode (routeKey p)) := by
    cases node.SubRoutes (routeKey p) <;> rfl
  cases rest with
  | nil => simp only [insertRoute, hv, List.length_nil, gt_iff_lt, lt_self_iff_false, if_false]
  | cons q rest =>
    rw [insertRoute]
    simp only [hv, List.length_cons, gt_iff_lt, Nat.zero_lt_succ, if_true]

theorem nodeAt_createNode_cons (value key : Str) (addr : List Str) :
    nodeAt (createNode value : RouteNode C) (key :: addr) = none := by
  simp [nodeAt, createNode]

theorem nodeAt_setSubRoute_cons (node child : RouteNode C) (key k : Str) (addr : List Str) :
    nodeAt (setSubRoute node key child) (k :: addr) =
      if k = key then nodeAt child addr else nodeAt node (k :: addr) := by
  by_cases h : k = key
  · simp [nodeAt, setSubRoute, h]
  · simp [nodeAt, setSubRoute, h]

theorem setSubRoute_same (node child : RouteNode C) (key : Str)
    (h : node.SubRoutes key = some child) : setSubRoute node key child = node := by
  cases node with
  | mk v subs t c =>
    simp only [setSubRoute, RouteNode.mk.injEq, true_and, and_true]
    funext k
    by_cases hk : k = key
    · subst hk; simpa using h.symm
    · simp [hk]

theorem controllerAt_nil (node : RouteNode C) : controllerAt node [] = node.Controller := rfl

theorem controllerAt_setSubRoute_cons (node child : RouteNode C) (key k : Str)
    (addr : List Str) :
    controllerAt (setSubRoute node key child) (k :: addr) =
      if k = key then controllerAt child addr else controllerAt node (k :: addr) := by
  unfold controllerAt
  rw [nodeAt_setSubRoute_cons]
  split <;> rfl

theorem controllerAt_createNode (value : Str) (addr : List Str) :
    controllerAt (createNode value : RouteNode C) addr = none := by
  cases addr with
  | nil => rfl
  | cons k addr => simp [controllerAt, nodeAt_createNode_cons]

theorem controllerAt_child (node : RouteNode C) (key : Str) (addr : List Str) :
    controllerAt ((node.SubRoutes key).getD (createNode key)) addr =
      controllerAt node (key :: addr) := by
  cases h : node.SubRoutes key with
  | none =>
    rw [Option.getD_none, controllerAt_createNode]
    simp [controllerAt, nodeAt, h]
  | some v => simp [controllerAt, nodeAt, h]

theorem controllerAt_bindController (route : Str) (c : Option C) (node : RouteNode C)
    (b : List Str) :
    controllerAt (bindController route c node).1 b =
      if b = [] ∧ (controllerAt node b).isNone = true then c else controllerAt node b := by
  cases b with
  | nil =>
    unfold bindController
    cases h : node.Controller <;> simp [controllerAt, nodeAt, h]
  | cons k bs =>
    unfold bindController
    cases h : node.Controller <;> simp [controllerAt, nodeAt, h]

/-- The controllers bound in the tree after an insertion: the position of the
route takes the new controller when it had none, every other position keeps
what it had. -/
theorem controllerAt_insertRoute (route : Str) (c : Option C) :
    ∀ (segs : List Str) (node : RouteNode C) (b : List Str),
      controllerAt (insertRoute node segs (bindController route c)).1 b =
        if b = segs.map routeKey ∧ (controllerAt node b).isNone = true then c
        else controllerAt node b
  | [], node, b => by
    simpa [insertRoute] using controllerAt_bindController route c node b
  | p :: rest, node, b => by
    rw [insertRoute_cons]
    cases b with
    | nil => simp [controllerAt, nodeAt, setSubRoute]
    | cons k bs =>
      rw [controllerAt_setSubRoute_cons]
      by_cases hk : k = routeKey p
      · subst hk
        rw [if_pos rfl, controllerAt_insertRoute route c rest, controllerAt_child]
        simp only [List.map_cons, List.cons.injEq, true_and]
      · rw [if_neg hk]
        have : ¬ (k :: bs = List.map routeKey (p :: rest)) := by
          intro h
          simp only [List.map_cons, List.cons.injEq] at h
          exact hk h.1
        rw [if_neg (fun h => this h.1)]

theorem templateAt_setSubRoute_cons (node child : RouteNode C) (key k : Str)
    (addr : List Str) :
    templateAt (setSubRoute node key child) (k :: addr) =
      if k = key then templateAt child addr else templateAt node (k :: addr) := by
  unfold templateAt
  rw [nodeAt_setSubRoute_cons]
  split <;> rfl

/-- The error of an insertion: a conflict that names the stored template when
the position of the route is bound, no error otherwise. -/
theorem insertRoute_error (route : Str) (c : Option C) :
    ∀ (segs : List Str) (node : RouteNode C),
      (insertRoute node segs (bindController route c)).2 =
        if (controllerAt node (segs.map routeKey)).isNone = true then none
        else some (RouteError.conflict route
          ((templateAt node (segs.map routeKey)).getD []))
  | [], node => by
    simp only [insertRoute, bindController, List.map_nil, controllerAt_nil]
    cases h : node.Controller <;> simp [templateAt, nodeAt]
  | p :: rest, node => by
    rw [insertRoute_cons]
    simp only [List.map_cons]
    rw [insertRoute_error route c rest, controllerAt_child]
    cases h : node.SubRoutes (routeKey p) with
    | none => simp [controllerAt, nodeAt, h]
    | some v => simp [templateAt, nodeAt, h]

/-- An insertion at a bound position leaves the tree as it was. -/
theorem insertRoute_bound (route : Str) (c : Option C) :
    ∀ (segs : List Str) (node : RouteNode C),
      (controllerAt node (segs.map routeKey)).isSome = true →
      (insertRoute node segs (bindController route c)).1 = node
  | [], node, h => by
    simp only [List.map_nil, controllerAt_nil] at h
    simp only [insertRoute, bindController]
    cases hc : node.Controller with
    | none => simp [hc] at h
    | some x => simp
  | p :: rest, node, h => by
    rw [insertRoute_cons]
    simp only [List.map_cons] at h
    cases hs : node.SubRoutes (routeKey p) with
    | none => simp [controllerAt, nodeAt, hs] at h
    | some v =>
      have hv : (controllerAt v (rest.map routeKey)).isSome = true := by
        simpa [controllerAt, nodeAt, hs] using h
      simp only [Option.getD_some]
      rw [insertRoute_bound route c rest v hv]
      exact setSubRoute_same node v (routeKey p) hs

/-- The template of a bound position is not changed by an insertion. -/
theorem templateAt_insertRoute_bound (route : Str) (c : Option C) :
    ∀ (segs : List Str) (node : RouteNode C) (b : List Str),
      (controllerAt node b).isSome = true →
      templateAt (insertRoute node segs (bindController route c)).1 b = templateAt node b
  | [], node, b, h => by
    simp only [insertRoute, bindController]
    cases b with
    | nil =>
      simp only [controllerAt_nil] at h
      cases hc : node.Controller with
      | none => simp [hc] at h
      | some x => simp
    | cons k bs => split <;> simp [templateAt, nodeAt]
  | p :: rest, node, b, h => by
    rw [insertRoute_cons]
    cases b with
    | nil => simp [templateAt, nodeAt, setSubRoute]
    | cons k bs =>
      rw [templateAt_setSubRoute_cons]
      by_cases hk : k = routeKey p
      · subst hk
        rw [if_pos rfl]
        cases hs : node.SubRoutes (routeKey p) with
        | none => simp [controllerAt, nodeAt, hs] at h
        | some v =>
          have hv : (controllerAt v bs).isSome = true := by
            simpa [controllerAt, nodeAt, hs] using h
          simp only [Option.getD_some]
          rw [templateAt_insertRoute_bound route c rest v bs hv]
          simp [templateAt, nodeAt, hs]
      · rw [if_neg hk]

/-- The template at the position of the route after an insertion at an unbound
position is the route. -/
theorem templateAt_insertRoute_self (route : Str) (c : Option C) :
    ∀ (segs : List Str) (node : RouteNode C),
      (controllerAt node (segs.map routeKey)).isNone = true →
      templateAt (insertRoute node segs (bindController route c)).1 (segs.map routeKey) =
        some route
  | [], node, h => by
    simp only [List.map_nil, controllerAt_nil] at h
    simp [insertRoute, bindController, h, templateAt, nodeAt]
  | p :: rest, node, h => by
    rw [insertRoute_cons]
    simp only [List.map_cons] at h ⊢
    rw [templateAt_setSubRoute_cons, if_pos rfl]
    apply templateAt_insertRoute_self route c rest
    rw [controllerAt_child]
    exact h

/-- The positions that hold a node after an insertion: those that held one
before and the prefixes of the position of the route. -/
theorem nodeAt_insertRoute_isSome (route : Str) (c : Option C) :
    ∀ (segs : List Str) (node : RouteNode C) (b : List Str),
      (nodeAt (insertRoute node segs (bindController route c)).1 b).isSome =
        ((nodeAt node b).isSome || b.isPrefixOf (segs.map routeKey))
  | [], node, b => by
    simp only [insertRoute, bindController]
    cases b with
    | nil => simp [nodeAt]
    | cons k bs => split <;> simp [nodeAt]
  | p :: rest, node, b => by
    rw [insertRoute_cons]
    cases b with
    | nil => simp [nodeAt]
    | cons k bs =>
      rw [nodeAt_setSubRoute_cons]
      by_cases hk : k = routeKey p
      · subst hk
        rw [if_pos rfl, nodeAt_insertRoute_isSome route c rest]
        cases hs : node.SubRoutes (routeKey p) with
        | none =>
          cases bs with
          | nil => simp [nodeAt, hs]
          | cons k2 bs2 => simp [nodeAt, hs, createNode]
        | some v => simp [nodeAt, hs]
      · rw [if_neg hk]
        simp [List.isPrefixOf, hk]

/-! ## Lemmas on `AddRoute` -/

theorem validRoute_iff (route : Str) :
    validRoute route = true ↔ ∀ seg ∈ Split (TrimSpace route) SlashChar, seg ≠ [] := by
  unfold validRoute Clean
  rw [decide_eq_true_iff, List.filter_length_eq_length]
  simp

theorem AddRoute_invalid (router : Router C) (route : Str) (c : Option C)
    (h : validRoute route = false) :
    AddRoute router route c = (router, some (RouteError.invalidFormat (TrimSpace route))) := by
  unfold validRoute at h
  simp only [decide_eq_false_iff_not] at h
  simp only [AddRoute, ne_eq, h, not_false_eq_true, if_true]

theorem AddRoute_valid (router : Router C) (route : Str) (c : Option C)
    (h : validRoute route = true) :
    AddRoute router route c =
      ({ RouteTree := (insertRoute router.RouteTree (Split (TrimSpace route) SlashChar)
            (bindController (TrimSpace route) c)).1,
         RegisteredRoutes := router.RegisteredRoutes ++ [TrimSpace route] },
       (insertRoute router.RouteTree (Split (TrimSpace route) SlashChar)
            (bindController (TrimSpace route) c)).2) := by
  unfold validRoute at h
  simp only [decide_eq_true_iff] at h
  simp only [AddRoute, ne_eq, h, not_true_eq_false, if_false]

/-- The controllers bound after `AddRoute`: the position of a well-formed route
takes the controller when it had none, every other position keeps what it
had. -/
theorem controllerAt_AddRoute (router : Router C) (route : Str) (c : Option C)
    (b : List Str) :
    controllerAt (AddRoute router route c).1.RouteTree b =
      if validRoute route = true ∧ b = routeAddr route ∧
          (controllerAt router.RouteTree b).isNone = true then c
      else controllerAt router.RouteTree b := by
  cases hv : validRoute route with
  | false => simp [AddRoute_invalid router route c hv]
  | true =>
    rw [AddRoute_valid router route c hv]
    simp only [controllerAt_insertRoute, routeAddr, true_and]

/-- The error of `AddRoute`. -/
theorem AddRoute_error (router : Router C) (route : Str) (c : Option C) :
    (AddRoute router route c).2 =
      if validRoute route = true then
        if (controllerAt router.RouteTree (routeAddr route)).isNone = true then none
        else some (RouteError.conflict (TrimSpace route)
          ((templateAt router.RouteTree (routeAddr route)).getD []))
      else some (RouteError.invalidFormat (TrimSpace route)) := by
  cases hv : validRoute route with
  | false => simp [AddRoute_invalid router route c hv]
  | true =>
    rw [AddRoute_valid router route c hv]
    simp only [insertRoute_error, routeAddr, if_true]

/-- A call of `AddRoute` that does not bind leaves the tree as it was. -/
theorem AddRoute_tree_of_error (router : Router C) (route : Str) (c : Option C)
    (h : (AddRoute router route c).2 ≠ none) :
    (AddRoute router route c).1.RouteTree = router.RouteTree := by
  cases hv : validRoute route with
  | false => simp [AddRoute_invalid router route c hv]
  | true =>
    rw [AddRoute_error, hv] at h
    simp only [if_true] at h
    rw [AddRoute_valid router route c hv]
    apply insertRoute_bound
    cases hc : controllerAt router.RouteTree (routeAddr route) with
    | none => simp [hc] at h
    | some x => simpa [routeAddr] using congrArg Option.isSome hc

theorem templateAt_AddRoute_bound (router : Router C) (route : Str) (c : Option C)
    (b : List Str) (h : (controllerAt router.RouteTree b).isSome = true) :
    templateAt (AddRoute router route c).1.RouteTree b = templateAt router.RouteTree b := by
  cases hv : validRoute route with
  | false => simp [AddRoute_invalid router route c hv]
  | true =>
    rw [AddRoute_valid router route c hv]
    exact templateAt_insertRoute_bound _ c _ _ b h

theorem controllerAt_AddRoute_bound (router : Router C) (route : Str) (c : Option C)
    (b : List Str) (h : (controllerAt router.RouteTree b).isSome = true) :
    controllerAt (AddRoute router route c).1.RouteTree b = controllerAt router.RouteTree b := by
  rw [controllerAt_AddRoute]
  cases hc : controllerAt router.RouteTree b with
  | none => simp [hc] at h
  | some x => simp

theorem controllerAt_AddRoutes_bound (calls : List (Str × Option C)) :
    ∀ (router : Router C) (b : List Str),
      (controllerAt router.RouteTree b).isSome = true →
      controllerAt (AddRoutes router calls).RouteTree b = controllerAt router.RouteTree b ∧
      templateAt (AddRoutes router calls).RouteTree b = templateAt router.RouteTree b := by
  induction calls with
  | nil => intro router b _; exact ⟨rfl, rfl⟩
  | cons call calls ih =>
    intro router b h
    obtain ⟨route, c⟩ := call
    have h1 := controllerAt_AddRoute_bound router route c b h
    have h2 := templateAt_AddRoute_bound router route c b h
    have h3 := ih (AddRoute router route c).1 b (by rw [h1]; exact h)
    simp only [AddRoutes]
    exact ⟨h3.1.trans h1, h3.2.trans h2⟩

theorem templateAt_AddRoute_self (router : Router C) (route : Str) (c : Option C)
    (hv : validRoute route = true)
    (h : (controllerAt router.RouteTree (routeAddr route)).isNone = true) :
    templateAt (AddRoute router route c).1.RouteTree (routeAddr route) =
      some (TrimSpace route) := by
  rw [AddRoute_valid router route c hv]
  exact templateAt_insertRoute_self _ c _ _ h

theorem routeAddr_ne_nil (route : Str) : routeAddr route ≠ [] := by
  unfold routeAddr
  intro h
  exact Split_ne_nil _ _ (List.map_eq_nil_iff.mp h)

theorem controllerAt_CreateRouter_routeAddr (rc : Option C) (route : Str) :
    controllerAt (CreateRouter rc).RouteTree (routeAddr route) = none := by
  cases h : routeAddr route with
  | nil => exact absurd h (routeAddr_ne_nil route)
  | cons k addr => simp [controllerAt, nodeAt, CreateRouter, createNode]

theorem KeysClean_child (t v : RouteNode C) (key : Str) (h : KeysClean t)
    (hs : t.SubRoutes key = some v) : KeysClean v := by
  intro b hb k hk
  apply h (key :: b) _ k (List.mem_cons_of_mem _ hk)
  simpa [nodeAt, hs] using hb

theorem KeysClean_absent (t : RouteNode C) (key : Str) (h : KeysClean t)
    (hk : HasPrefix key DOpen = true) : t.SubRoutes key = none := by
  cases hs : t.SubRoutes key with
  | none => rfl
  | some v =>
    have := h [key] (by simp [nodeAt, hs]) key (List.mem_singleton_self key)
    rw [hk] at this
    exact absurd this (by decide)

theorem KeysClean_CreateRouter (rc : Option C) : KeysClean (CreateRouter rc).RouteTree := by
  intro b hb k hk
  cases b with
  | nil => simp at hk
  | cons k2 bs => simp [nodeAt, CreateRouter, createNode] at hb

theorem KeysClean_AddRoute (router : Router C) (route : Str) (c : Option C)
    (h : KeysClean router.RouteTree) : KeysClean (AddRoute router route c).1.RouteTree := by
  cases hv : validRoute route with
  | false => simpa [AddRoute_invalid router route c hv] using h
  | true =>
    rw [AddRoute_valid router route c hv]
    intro b hb k hk
    simp only [nodeAt_insertRoute_isSome, Bool.or_eq_true] at hb
    rcases hb with hb | hb
    · exact h b hb k hk
    · have hpre := List.isPrefixOf_iff_prefix.mp hb
      have hmem := hpre.subset hk
      obtain ⟨seg, _, rfl⟩ := List.mem_map.mp hmem
      exact routeKey_not_brace seg

theorem KeysClean_AddRoutes (calls : List (Str × Option C)) :
    ∀ router : Router C, KeysClean router.RouteTree →
      KeysClean (AddRoutes router calls).RouteTree := by
  induction calls with
  | nil => intro router h; exact h
  | cons call calls ih =>
    intro router h
    exact ih _ (KeysClean_AddRoute router call.1 call.2 h)

/-- In a tree without keys that start with `DOpen`, the lookup of the segments
of a route reaches the node at the position of the route. -/
theorem find_of_nodeAt :
    ∀ (segs : List Str) (t n : RouteNode C), KeysClean t →
      nodeAt t (segs.map routeKey) = some n → find t segs = some n
  | [], t, n, _, h => by simpa [nodeAt, find] using h
  | p :: rest, t, n, hk, h => by
    simp only [List.map_cons, nodeAt] at h
    cases hs : t.SubRoutes (routeKey p) with
    | none => simp [hs] at h
    | some v =>
      simp only [hs] at h
      have ih := find_of_nodeAt rest v n (KeysClean_child t v _ hk hs) h
      by_cases hp : HasPrefix p DOpen = true
      · have habs := KeysClean_absent t p hk hp
        have hw : routeKey p = WildCard := by simp [routeKey, hp]
        rw [hw] at hs
        simp only [find, habs, hs]
        exact ih
      · have hw : routeKey p = p := by simp [routeKey, hp]
        rw [hw] at hs
        simp only [find, hs]
        exact ih

theorem FindRouteForPath_of_find (router : Router C) (path : Str) (n : RouteNode C) (c : C)
    (hp : path ≠ []) (hf : find router.RouteTree (Split path SlashChar) = some n)
    (hc : n.Controller = some c) : FindRouteForPath router path = (some n, none) := by
  simp [FindRouteForPath, hp, hf, hc]

theorem TrimSpace_ne_nil_of_valid (route : Str) (h : validRoute route = true) :
    TrimSpace route ≠ [] := by
  intro hnil
  have := (validRoute_iff route).mp h [] (by rw [hnil]; simp [Split])
  exact this rfl

theorem binding_AddRoutes_of_mem (route : Str) (c : C) (hv : validRoute route = true)
    (calls : List (Str × Option C)) :
    ∀ router : Router C,
      (calls.map (fun call => routeAddr call.1)).Nodup →
      (∀ call ∈ calls, (controllerAt router.RouteTree (routeAddr call.1)).isNone = true) →
      (route, some c) ∈ calls →
      controllerAt (AddRoutes router calls).RouteTree (routeAddr route) = some c ∧
      templateAt (AddRoutes router calls).RouteTree (routeAddr route) =
        some (TrimSpace route) := by
  induction calls with
  | nil => intro _ _ _ hm; simp at hm
  | cons call calls ih =>
    intro router hnd hfree hm
    obtain ⟨route0, c0⟩ := call
    simp only [List.map_cons, List.nodup_cons] at hnd
    simp only [AddRoutes]
    rcases List.mem_cons.mp hm with heq | hin
    · obtain ⟨rfl, rfl⟩ := Prod.mk.inj heq
      have hnone := hfree (route, some c) (List.mem_cons_self _ _)
      have h1 : controllerAt (AddRoute router route (some c)).1.RouteTree (routeAddr route)
          = some c := by
        rw [controllerAt_AddRoute]; simp [hv, hnone]
      have h2 := templateAt_AddRoute_self router route (some c) hv hnone
      have h3 := controllerAt_AddRoutes_bound calls (AddRoute router route (some c)).1
        (routeAddr route) (by rw [h1]; rfl)
      exact ⟨h3.1.trans h1, h3.2.trans h2⟩
    · apply ih _ hnd.2 _ hin
      intro call hcall
      rw [controllerAt_AddRoute]
      have hne : routeAddr call.1 ≠ routeAddr route0 := by
        intro he
        apply hnd.1
        rw [← he]
        exact List.mem_map.mpr ⟨call, hcall, rfl⟩
      simp only [hne, false_and, and_false, if_false]
      exact hfree call (List.mem_cons_of_mem _ hcall)

/-! ## Properties of the router -/

/-- C1: on a fresh router (with any root controller), after any sequence of
`AddRoute` calls in which no two routes have the same normalized segment
sequence, looking up the route string of any call whose route passed the shape
check of `AddRoute` (so that the call recorded it) and whose controller is `c`
returns, without error, a node whose controller is `c` and whose template is
that route string. -/
theorem find_registered_route (rc : Option C) (calls : List (Str × Option C))
    (hnodup : (calls.map (fun call => routeAddr call.1)).Nodup)
    (route : Str) (c : C) (hmem : (route, some c) ∈ calls)
    (hvalid : validRoute route = true) :
    ∃ node : RouteNode C,
      FindRouteForPath (AddRoutes (CreateRouter rc) calls) (TrimSpace route) = (some node, none) ∧
      node.Controller = some c ∧ node.TemplateRoute = TrimSpace route := by
  have hb := binding_AddRoutes_of_mem route c hvalid calls (CreateRouter rc) hnodup
    (fun call _ => by rw [controllerAt_CreateRouter_routeAddr]; rfl) hmem
  obtain ⟨hc, ht⟩ := hb
  cases hn : nodeAt (AddRoutes (CreateRouter rc) calls).RouteTree (routeAddr route) with
  | none => simp [controllerAt, hn] at hc
  | some node =>
    have hc2 : node.Controller = some c := by simpa [controllerAt, hn] using hc
    have ht2 : node.TemplateRoute = TrimSpace route := by simpa [templateAt, hn] using ht
    have hf := find_of_nodeAt (Split (TrimSpace route) SlashChar) _ node
      (KeysClean_AddRoutes calls _ (KeysClean_CreateRouter rc)) hn
    exact ⟨node, FindRouteForPath_of_find _ _ node c (TrimSpace_ne_nil_of_valid route hvalid)
      hf hc2, hc2, ht2⟩

/-- Witness of C1: the routes `bar/baz`, `foo/{{id}}` and `foo/bar`,
looked up at ` foo/bar`. -/
theorem find_registered_route_witness :
    ∃ node : RouteNode Nat,
      FindRouteForPath (AddRoutes (CreateRouter none)
          [("bar/baz".toList, some 1), ("foo/\x7b\x7bid\x7d\x7d".toList, some 2),
           (" foo/bar".toList, some 3)]) (TrimSpace " foo/bar".toList) = (some node, none) ∧
      node.Controller = some 3 ∧ node.TemplateRoute = TrimSpace " foo/bar".toList :=
  find_registered_route none _ (by decide) " foo/bar".toList 3 (by decide) (by decide)

theorem Split_append_sep (sep : Char) (rest : Str) :
    ∀ z : Str, sep ∉ z → Split (z ++ sep :: rest) sep = z :: Split rest sep
  | [], _ => by simp [Split]
  | c :: z, h => by
    have hc : c ≠ sep := fun e => h (by simp [e])
    have hz : sep ∉ z := fun e => h (List.mem_cons_of_mem _ e)
    simp [Split, hc, Split_append_sep sep rest z hz]

theorem boundTo_of_AddRoute (router : Router C) (route : Str) (c : C)
    (h : (AddRoute router route (some c)).2 = none) :
    boundTo (AddRoute router route (some c)).1 route c := by
  unfold boundTo
  rw [AddRoute_error] at h
  cases hv : validRoute route with
  | false => simp [hv] at h
  | true =>
    cases hn : (controllerAt router.RouteTree (routeAddr route)).isNone with
    | false => simp [hv, hn] at h
    | true => rw [controllerAt_AddRoute]; simp [hv, hn]

theorem boundTo_AddRoutes (router : Router C) (calls : List (Str × Option C)) (route : Str)
    (c : C) (h : boundTo router route c) : boundTo (AddRoutes router calls) route c := by
  unfold boundTo at h ⊢
  rw [(controllerAt_AddRoutes_bound calls router _ (by rw [h]; rfl)).1]
  exact h

theorem find_exact_and_wild (t : RouteNode C) (a b c z : Str) (X Y : C)
    (hX : controllerAt t [a, b, c] = some X) (hY : controllerAt t [a, WildCard, c] = some Y)
    (hlit : (nodeAt t [a, z]).isNone = true) :
    (∃ n : RouteNode C, find t [a, b, c] = some n ∧ n.Controller = some X) ∧
    (∃ n : RouteNode C, find t [a, z, c] = some n ∧ n.Controller = some Y) := by
  cases h1 : t.SubRoutes a with
  | none => simp [controllerAt, nodeAt, h1] at hX
  | some na =>
    cases h2 : na.SubRoutes b with
    | none => simp [controllerAt, nodeAt, h1, h2] at hX
    | some nb =>
      cases h3 : nb.SubRoutes c with
      | none => simp [controllerAt, nodeAt, h1, h2, h3] at hX
      | some nX =>
        cases h4 : na.SubRoutes WildCard with
        | none => simp [controllerAt, nodeAt, h1, h4] at hY
        | some nw =>
          cases h5 : nw.SubRoutes c with
          | none => simp [controllerAt, nodeAt, h1, h4, h5] at hY
          | some nY =>
            have hcX : nX.Controller = some X := by
              simpa [controllerAt, nodeAt, h1, h2, h3] using hX
            have hcY : nY.Controller = some Y := by
              simpa [controllerAt, nodeAt, h1, h4, h5] using hY
            have h6 : na.SubRoutes z = none := by
              cases h6 : na.SubRoutes z with
              | none => rfl
              | some nz => simp [nodeAt, h1, h6] at hlit
            exact ⟨⟨nX, by simp [find, h1, h2, h3], hcX⟩,
              ⟨nY, by simp [find, h1, h6, h4, h5], hcY⟩⟩

/-- C2, as the code has it: on every router on which `a/b/c` is bound to `X`
and `a/{{w}}/c` to `Y`, looking up `a/b/c` returns the node bound to `X`, and
looking up `a/z/c` returns the node bound to `Y` for every segment `z` for
which the node of `a` has no child under the key `z`. -/
theorem exact_beats_wildcard (router : Router C) (X Y : C) (z : Str)
    (hX : boundTo router "a/b/c".toList X)
    (hY : boundTo router "a/\x7b\x7bw\x7d\x7d/c".toList Y)
    (hz : SlashChar ∉ z)
    (hlit : (nodeAt router.RouteTree ["a".toList, z]).isNone = true) :
    (∃ node : RouteNode C,
      FindRouteForPath router "a/b/c".toList = (some node, none) ∧
      node.Controller = some X) ∧
    (∃ node : RouteNode C,
      FindRouteForPath router ("a/".toList ++ z ++ "/c".toList) = (some node, none) ∧
      node.Controller = some Y) := by
  have ha1 : routeAddr "a/b/c".toList = ["a".toList, "b".toList, "c".toList] := by decide
  have ha2 : routeAddr "a/\x7b\x7bw\x7d\x7d/c".toList = ["a".toList, WildCard, "c".toList] := by
    decide
  have hs1 : Split "a/b/c".toList SlashChar = ["a".toList, "b".toList, "c".toList] := by decide
  have hs2 : Split ("a/".toList ++ z ++ "/c".toList) SlashChar = ["a".toList, z, "c".toList] := by
    have h0 : "a/".toList ++ z ++ "/c".toList = "a".toList ++ SlashChar :: (z ++ SlashChar :: "c".toList) := by
      simp [SlashChar]
    rw [h0, Split_append_sep SlashChar _ "a".toList (by decide), Split_append_sep SlashChar _ z hz]
    rfl
  unfold boundTo at hX hY
  rw [ha1] at hX
  rw [ha2] at hY
  obtain ⟨⟨nX, hfX, hcX⟩, ⟨nY, hfY, hcY⟩⟩ :=
    find_exact_and_wild router.RouteTree _ _ _ z X Y hX hY hlit
  refine ⟨⟨nX, ?_, hcX⟩, ⟨nY, ?_, hcY⟩⟩
  · apply FindRouteForPath_of_find _ _ nX X (by decide) _ hcX
    rw [hs1]
    exact hfX
  · apply FindRouteForPath_of_find _ _ nY Y (by simp) _ hcY
    rw [hs2]
    exact hfY

/-- Witness of C2: the router with `a/{{w}}/c` and then `a/b/c`, looked up at
`a/b/c` and at `a/z/c`. -/
theorem exact_beats_wildcard_witness :
    (∃ node : RouteNode Nat,
      FindRouteForPath routerWildExact "a/b/c".toList = (some node, none) ∧
      node.Controller = some 1) ∧
    (∃ node : RouteNode Nat,
      FindRouteForPath routerWildExact ("a/".toList ++ "z".toList ++ "/c".toList) =
        (some node, none) ∧
      node.Controller = some 2) :=
  exact_beats_wildcard routerWildExact 1 2 "z".toList (by decide) (by decide) (by decide)
    (by decide)

/-- Counterexample to C2 as stated: the three calls that register `a/b/c`,
`a/{{w}}/c` and `a/z/d` on a fresh router return no error, `a/b/c` is bound to
1 and `a/{{w}}/c` to 2, the segment `z` differs from `b`, and the lookup of
`a/z/c` returns no node and the error. -/
theorem exact_beats_wildcard_counterexample :
    AddRoutesErrors (CreateRouter none) callsExactWildOther = [none, none, none] ∧
    boundTo routerExactWildOther "a/b/c".toList 1 ∧
    boundTo routerExactWildOther "a/\x7b\x7bw\x7d\x7d/c".toList 2 ∧
    "z".toList ≠ "b".toList ∧
    (FindRouteForPath routerExactWildOther "a/z/c".toList).1.isNone = true ∧
    (FindRouteForPath routerExactWildOther "a/z/c".toList).2 =
      some (RouteError.noRoute "a/z/c".toList) := by
  decide

theorem FindRouteForPath_error_none_iff (router : Router C) (path : Str) :
    (FindRouteForPath router path).2 = none ↔
      (((if path = [] then some router.RouteTree
          else find router.RouteTree (Split path SlashChar)).bind
        (fun n => n.Controller)).isSome = true) := by
  simp only [FindRouteForPath]
  generalize (if path = [] then some router.RouteTree
      else find router.RouteTree (Split path SlashChar)) = x
  cases x with
  | none => simp
  | some n => cases h : n.Controller <;> simp [h]

theorem routeKey_eq_or (t q : Str) :
    (q = routeKey t ∨ routeKey t = WildCard) ↔ segmentAccepts t q := by
  unfold segmentAccepts routeKey
  by_cases h : HasPrefix t DOpen = true
  · simp [h]
  · simp [h]
    tauto

/-- The lookups that succeed in the tree made by one insertion below a node
that has neither children nor controller. -/
theorem find_single_insert (route : Str) (c : C) :
    ∀ (segs : List Str) (node : RouteNode C) (path : List Str),
      (∀ k, node.SubRoutes k = none) → node.Controller = none →
      ((((find (insertRoute node segs (bindController route (some c))).1 path).bind
          (fun n => n.Controller)).isSome = true) ↔ List.Forall₂ segmentAccepts segs path)
  | [], node, path, hs, hc => by
    cases path with
    | nil => simp [insertRoute, bindController, hc, find]
    | cons q qs => simp [insertRoute, bindController, hc, find, hs]
  | t :: rest, node, path, hs, hc => by
    rw [insertRoute_cons, hs (routeKey t), Option.getD_none]
    cases path with
    | nil => simp [find, setSubRoute, hc]
    | cons q qs =>
      have ih := find_single_insert route c rest (createNode (routeKey t)) qs
        (fun _ => rfl) rfl
      rw [List.forall₂_cons, ← ih, ← routeKey_eq_or]
      by_cases h1 : q = routeKey t
      · simp [find, setSubRoute, h1]
      · by_cases h2 : routeKey t = WildCard
        · have h3 : ¬ q = WildCard := fun e => h1 (e.trans h2.symm)
          simp [find, setSubRoute, h3, hs, h2]
        · have h3 : ¬ WildCard = routeKey t := fun e => h2 e.symm
          simp [find, setSubRoute, h1, hs, h2, h3]

theorem AddRoute_fresh_valid (rc : Option C) (route : Str) (c : Option C)
    (h : (AddRoute (CreateRouter rc) route c).2 = none) : validRoute route = true := by
  cases hv : validRoute route with
  | true => rfl
  | false => rw [AddRoute_invalid _ route c hv] at h; simp at h

/-- C3, as the code has it: on a fresh router with no root controller and one
successfully registered route with segments `t1..tn`, the lookup of `p`
succeeds if and only if `p` is not the empty string and `p` splits on `/` into
`n` segments `p1..pn` such that at every position `ti` starts with `{{`, or
`ti` is `*`, or `pi = ti`. -/
theorem single_route_lookup (route : Str) (c : C) (path : Str)
    (hok : (AddRoute (CreateRouter none) route (some c)).2 = none) :
    (FindRouteForPath (AddRoute (CreateRouter none) route (some c)).1 path).2 = none ↔
      (path ≠ [] ∧
        List.Forall₂ segmentAccepts (Split (TrimSpace route) SlashChar)
          (Split path SlashChar)) := by
  have hv := AddRoute_fresh_valid none route (some c) hok
  rw [FindRouteForPath_error_none_iff, AddRoute_valid _ route _ hv]
  by_cases hp : path = []
  · subst hp
    have hroot : (insertRoute (CreateRouter (none : Option C)).RouteTree
        (Split (TrimSpace route) SlashChar)
        (bindController (TrimSpace route) (some c))).1.Controller = none := by
      have := controllerAt_insertRoute (TrimSpace route) (some c)
        (Split (TrimSpace route) SlashChar) (CreateRouter (none : Option C)).RouteTree []
      rw [controllerAt_nil] at this
      rw [this, if_neg]
      · rfl
      · intro h
        exact Split_ne_nil _ _ (List.map_eq_nil_iff.mp h.1.symm)
    simp [hroot]
  · simp only [hp, if_false, ne_eq, not_false_eq_true, true_and]
    exact find_single_insert (TrimSpace route) c _ _ _ (fun _ => rfl) rfl

/-- Witness of C3: the route `foo/{{baz}}/bar` and the path
`foo/whatever/bar`. -/
theorem single_route_lookup_witness :
    (FindRouteForPath (AddRoute (CreateRouter (none : Option Nat))
        "foo/\x7b\x7bbaz\x7d\x7d/bar".toList (some 7)).1 "foo/whatever/bar".toList).2 = none :=
  (single_route_lookup "foo/\x7b\x7bbaz\x7d\x7d/bar".toList 7 "foo/whatever/bar".toList
    (by decide)).mpr (by decide)

/-- Counterexample to C3 as stated. The route `a/*` has two literal segments
and the path `a/b` differs from it at the second, yet the lookup succeeds; the
same holds for the route `a/{{x`; the route `{{id}}` is one placeholder and the
empty path splits into one segment, yet the lookup fails. In each case the
lookup succeeds and the condition of the spec fails, or the reverse. -/
theorem single_route_lookup_counterexample :
    ((AddRoute (CreateRouter (none : Option Nat)) "a/*".toList (some 1)).2 = none ∧
      (FindRouteForPath (AddRoute (CreateRouter (none : Option Nat)) "a/*".toList
        (some 1)).1 "a/b".toList).2 = none ∧
      ¬ List.Forall₂ specAccepts (Split "a/*".toList SlashChar)
        (Split "a/b".toList SlashChar)) ∧
    ((AddRoute (CreateRouter (none : Option Nat)) "a/\x7b\x7bx".toList (some 1)).2 = none ∧
      (FindRouteForPath (AddRoute (CreateRouter (none : Option Nat)) "a/\x7b\x7bx".toList
        (some 1)).1 "a/b".toList).2 = none ∧
      ¬ List.Forall₂ specAccepts (Split "a/\x7b\x7bx".toList SlashChar)
        (Split "a/b".toList SlashChar)) ∧
    ((AddRoute (CreateRouter (none : Option Nat)) "\x7b\x7bid\x7d\x7d".toList (some 1)).2
        = none ∧
      (FindRouteForPath (AddRoute (CreateRouter (none : Option Nat))
        "\x7b\x7bid\x7d\x7d".toList (some 1)).1 []).2 = some (RouteError.noRoute []) ∧
      List.Forall₂ specAccepts (Split "\x7b\x7bid\x7d\x7d".toList SlashChar)
        (Split [] SlashChar)) := by
  decide

theorem binding_of_AddRoute_ok (router : Router C) (route : Str) (c : C)
    (mid : List (Str × Option C)) (hok : (AddRoute router route (some c)).2 = none) :
    validRoute route = true ∧
    controllerAt (AddRoutes (AddRoute router route (some c)).1 mid).RouteTree (routeAddr route)
      = some c ∧
    templateAt (AddRoutes (AddRoute router route (some c)).1 mid).RouteTree (routeAddr route)
      = some (TrimSpace route) := by
  have hb := boundTo_of_AddRoute router route c hok
  unfold boundTo at hb
  rw [AddRoute_error] at hok
  cases hv : validRoute route with
  | false => simp [hv] at hok
  | true =>
    cases hn : (controllerAt router.RouteTree (routeAddr route)).isNone with
    | false => simp [hv, hn] at hok
    | true =>
      have ht := templateAt_AddRoute_self router route (some c) hv hn
      have hp := controllerAt_AddRoutes_bound mid (AddRoute router route (some c)).1
        (routeAddr route) (by rw [hb]; rfl)
      exact ⟨rfl, hp.1.trans hb, hp.2.trans ht⟩

/-- C4: for every router, route string and pair of controllers, if
`AddRoute(route, c1)` succeeds then a following `AddRoute(route, c2)`, directly
or after any other `AddRoute` calls, returns the conflict error that names the
route, and the route tree after the failed call is the tree before it; the node
of the route carries `c1` and the route as its template. -/
theorem second_registration_conflicts (router : Router C) (route : Str) (c1 c2 : C)
    (mid : List (Str × Option C))
    (hok : (AddRoute router route (some c1)).2 = none) :
    (AddRoute (AddRoutes (AddRoute router route (some c1)).1 mid) route (some c2)).2 =
      some (RouteError.conflict (TrimSpace route) (TrimSpace route)) ∧
    (AddRoute (AddRoutes (AddRoute router route (some c1)).1 mid) route (some c2)).1.RouteTree =
      (AddRoutes (AddRoute router route (some c1)).1 mid).RouteTree ∧
    controllerAt
      (AddRoute (AddRoutes (AddRoute router route (some c1)).1 mid) route (some c2)).1.RouteTree
      (routeAddr route) = some c1 ∧
    templateAt
      (AddRoute (AddRoutes (AddRoute router route (some c1)).1 mid) route (some c2)).1.RouteTree
      (routeAddr route) = some (TrimSpace route) := by
  obtain ⟨hv, hc, ht⟩ := binding_of_AddRoute_ok router route c1 mid hok
  have herr : (AddRoute (AddRoutes (AddRoute router route (some c1)).1 mid) route (some c2)).2 =
      some (RouteError.conflict (TrimSpace route) (TrimSpace route)) := by
    rw [AddRoute_error, hc, ht]
    simp [hv]
  have htree := AddRoute_tree_of_error
    (AddRoutes (AddRoute router route (some c1)).1 mid) route (some c2) (by rw [herr]; simp)
  refine ⟨herr, htree, ?_, ?_⟩
  · rw [htree]; exact hc
  · rw [htree]; exact ht

/-- Witness of C4: the route `route/{{id}}/something` registered twice on a
fresh router, with the route `other` registered in between. -/
theorem second_registration_conflicts_witness :
    (AddRoute (AddRoutes (AddRoute (CreateRouter (none : Option Nat))
        "route/\x7b\x7bid\x7d\x7d/something".toList (some 1)).1 [("other".toList, some 3)])
        "route/\x7b\x7bid\x7d\x7d/something".toList (some 2)).2 =
      some (RouteError.conflict (TrimSpace "route/\x7b\x7bid\x7d\x7d/something".toList)
        (TrimSpace "route/\x7b\x7bid\x7d\x7d/something".toList)) ∧
    (AddRoute (AddRoutes (AddRoute (CreateRouter (none : Option Nat))
        "route/\x7b\x7bid\x7d\x7d/something".toList (some 1)).1 [("other".toList, some 3)])
        "route/\x7b\x7bid\x7d\x7d/something".toList (some 2)).1.RouteTree =
      (AddRoutes (AddRoute (CreateRouter (none : Option Nat))
        "route/\x7b\x7bid\x7d\x7d/something".toList (some 1)).1
        [("other".toList, some 3)]).RouteTree ∧
    controllerAt
      (AddRoute (AddRoutes (AddRoute (CreateRouter (none : Option Nat))
        "route/\x7b\x7bid\x7d\x7d/something".toList (some 1)).1 [("other".toList, some 3)])
        "route/\x7b\x7bid\x7d\x7d/something".toList (some 2)).1.RouteTree
      (routeAddr "route/\x7b\x7bid\x7d\x7d/something".toList) = some 1 ∧
    templateAt
      (AddRoute (AddRoutes (AddRoute (CreateRouter (none : Option Nat))
        "route/\x7b\x7bid\x7d\x7d/something".toList (some 1)).1 [("other".toList, some 3)])
        "route/\x7b\x7bid\x7d\x7d/something".toList (some 2)).1.RouteTree
      (routeAddr "route/\x7b\x7bid\x7d\x7d/something".toList) =
      some (TrimSpace "route/\x7b\x7bid\x7d\x7d/something".toList) :=
  second_registration_conflicts (CreateRouter none)
    "route/\x7b\x7bid\x7d\x7d/something".toList 1 2 [("other".toList, some 3)] (by decide)

/-! ### The shape check of `AddRoute` -/

theorem IsSpace_SlashChar : IsSpace SlashChar = false := by decide

theorem mem_Split_dropWhile (p : Char → Bool) (sep : Char) (hp : p sep = false) :
    ∀ s : Str, [] ∈ Split s sep → [] ∈ Split (s.dropWhile p) sep
  | [], h => by simpa using h
  | c :: cs, h => by
    by_cases hc : p c = true
    · have hne : c ≠ sep := by
        intro e
        rw [e, hp] at hc
        exact absurd hc (by decide)
      rw [List.dropWhile_cons_of_pos hc]
      apply mem_Split_dropWhile p sep hp cs
      simp only [Split, hne, if_false] at h
      cases hs : Split cs sep with
      | nil => exact absurd hs (Split_ne_nil cs sep)
      | cons seg segs =>
        rw [hs] at h
        simp only [List.mem_cons] at h ⊢
        rcases h with h | h
        · exact absurd h.symm (List.cons_ne_nil _ _)
        · exact Or.inr h
    · rw [List.dropWhile_cons_of_neg hc]
      exact h

theorem Split_cons_sep (sep : Char) (cs : Str) : Split (sep :: cs) sep = [] :: Split cs sep := by
  simp [Split]

theorem Split_cons_ne (sep c : Char) (cs seg : Str) (segs : List Str) (hc : c ≠ sep)
    (hs : Split cs sep = seg :: segs) : Split (c :: cs) sep = (c :: seg) :: segs := by
  simp [Split, hc, hs]

theorem Split_concat (sep c : Char) (hc : c ≠ sep) :
    ∀ s : Str, Split (s ++ [c]) sep =
      (Split s sep).dropLast ++ [((Split s sep).getLast?).getD [] ++ [c]]
  | [] => by simp [Split, hc]
  | d :: s => by
    have ih := Split_concat sep c hc s
    have e : (d :: s) ++ [c] = d :: (s ++ [c]) := rfl
    cases hs : Split s sep with
    | nil => exact absurd hs (Split_ne_nil s sep)
    | cons seg segs =>
      rw [hs] at ih
      rw [e]
      by_cases hd : d = sep
      · subst hd
        rw [Split_cons_sep, Split_cons_sep, ih, hs]
        cases segs with
        | nil => simp
        | cons t ts => simp [List.getLast?_cons_cons]
      · cases segs with
        | nil =>
          have ih2 : Split (s ++ [c]) sep = (seg ++ [c]) :: [] := by simpa using ih
          rw [Split_cons_ne sep d _ _ _ hd ih2, Split_cons_ne sep d _ _ _ hd hs]
          simp
        | cons t ts =>
          have ih2 : Split (s ++ [c]) sep =
              seg :: ((t :: ts).dropLast ++ [((t :: ts).getLast?).getD [] ++ [c]]) := by
            simpa [List.getLast?_cons_cons] using ih
          rw [Split_cons_ne sep d _ _ _ hd ih2, Split_cons_ne sep d _ _ _ hd hs]
          simp [List.getLast?_cons_cons]

theorem mem_Split_of_concat (sep c : Char) (hc : c ≠ sep) (s : Str)
    (h : [] ∈ Split (s ++ [c]) sep) : [] ∈ Split s sep := by
  rw [Split_concat sep c hc s] at h
  simp only [List.mem_append, List.mem_singleton] at h
  rcases h with h | h
  · exact List.mem_of_mem_dropLast h
  · exact absurd h.symm (by simp)

theorem mem_Split_rdropWhile (p : Char → Bool) (sep : Char) (hp : p sep = false) (s : Str) :
    [] ∈ Split s sep → [] ∈ Split (s.rdropWhile p) sep := by
  induction s using List.reverseRecOn with
  | nil => intro h; simpa using h
  | append_singleton s c ih =>
    intro h
    by_cases hc : p c = true
    · have hne : c ≠ sep := by
        intro e
        rw [e, hp] at hc
        exact absurd hc (by decide)
      rw [List.rdropWhile_concat_pos p s c hc]
      exact ih (mem_Split_of_concat sep c hne s h)
    · rw [List.rdropWhile_concat_neg p s c hc]
      exact h

theorem TrimSpace_eq (s : Str) : TrimSpace s = (s.dropWhile IsSpace).rdropWhile IsSpace := rfl

theorem mem_Split_TrimSpace (s : Str) (h : [] ∈ Split s SlashChar) :
    [] ∈ Split (TrimSpace s) SlashChar := by
  rw [TrimSpace_eq]
  exact mem_Split_rdropWhile _ _ IsSpace_SlashChar _
    (mem_Split_dropWhile _ _ IsSpace_SlashChar _ h)

theorem TrimSpace_blank (s : Str) (h : ∀ ch ∈ s, IsSpace ch = true) : TrimSpace s = [] := by
  have : s.dropWhile IsSpace = [] := by
    rw [List.dropWhile_eq_nil_iff]
    exact h
  rw [TrimSpace_eq, this]
  rfl

/-- C5: for every router and controller, and every route string that is empty
or blank (all its characters are white space), or whose split on `/` has an
empty segment, before or after the white space at its ends is trimmed (a
leading, trailing or doubled slash, or ` / `), `AddRoute` returns the format
error and the router, and so its route tree, is as it was before the call. -/
theorem malformed_route_rejected (router : Router C) (route : Str) (c : Option C)
    (h : (∀ ch ∈ route, IsSpace ch = true) ∨ [] ∈ Split route SlashChar ∨
      [] ∈ Split (TrimSpace route) SlashChar) :
    AddRoute router route c =
      (router, some (RouteError.invalidFormat (TrimSpace route))) := by
  apply AddRoute_invalid
  have hempty : [] ∈ Split (TrimSpace route) SlashChar := by
    rcases h with h | h | h
    · rw [TrimSpace_blank route h]; simp [Split]
    · exact mem_Split_TrimSpace route h
    · exact h
  cases hv : validRoute route with
  | false => rfl
  | true => exact absurd rfl ((validRoute_iff route).mp hv [] hempty)

/-- Witness of C5: the route ` / ` on a fresh router. -/
theorem malformed_route_rejected_witness :
    AddRoute (CreateRouter (none : Option Nat)) " / ".toList (some 1) =
      (CreateRouter none, some (RouteError.invalidFormat (TrimSpace " / ".toList))) :=
  malformed_route_rejected (CreateRouter none) " / ".toList (some 1)
    (Or.inr (Or.inr (by decide)))

theorem routeKey_eq_of_shape (s t : Str)
    (h : (HasPrefix s DOpen = true ∧ HasPrefix t DOpen = true) ∨ s = t) :
    routeKey t = routeKey s := by
  rcases h with ⟨hs, ht⟩ | h
  · simp [routeKey, hs, ht]
  · rw [h]

theorem shape_map_routeKey (l1 l2 : List Str)
    (h : List.Forall₂
      (fun s t => (HasPrefix s DOpen = true ∧ HasPrefix t DOpen = true) ∨ s = t) l1 l2) :
    l2.map routeKey = l1.map routeKey := by
  induction h with
  | nil => rfl
  | cons h _ ih => simp only [List.map_cons, ih, routeKey_eq_of_shape _ _ h]

theorem shape_nonempty :
    ∀ (l1 l2 : List Str),
      List.Forall₂
        (fun s t => (HasPrefix s DOpen = true ∧ HasPrefix t DOpen = true) ∨ s = t) l1 l2 →
      (∀ s ∈ l1, s ≠ []) → ∀ t ∈ l2, t ≠ []
  | [], l2, h, _ => by
    rw [List.forall₂_nil_left_iff] at h
    intro t ht
    simp [h] at ht
  | s :: ss, [], h, _ => by
    intro t ht
    simp at ht
  | s :: ss, t :: ts, h, hv => by
    rw [List.forall₂_cons] at h
    intro seg hseg
    rcases List.mem_cons.mp hseg with he | hin
    · subst he
      rcases h.1 with ⟨_, ht2⟩ | h1
      · intro hnil
        rw [hnil] at ht2
        exact absurd ht2 (by decide)
      · rw [← h1]
        exact hv s (List.mem_cons_self _ _)
    · exact shape_nonempty ss ts h.2 (fun x hx => hv x (List.mem_cons_of_mem _ hx)) seg hin

/-- C6: for every router and every two routes with the same number of
segments such that at every position either both segments are placeholders
(they start with `{{`, whatever the name) or the two segments are equal, if
`AddRoute` of the first succeeds then `AddRoute` of the second, directly or
after any other `AddRoute` calls, returns the conflict error that names the
template of the first route. -/
theorem wildcard_names_collapse (router : Router C) (route1 route2 : Str) (c1 c2 : C)
    (mid : List (Str × Option C))
    (hok : (AddRoute router route1 (some c1)).2 = none)
    (hshape : List.Forall₂
      (fun s t => (HasPrefix s DOpen = true ∧ HasPrefix t DOpen = true) ∨ s = t)
      (Split (TrimSpace route1) SlashChar) (Split (TrimSpace route2) SlashChar)) :
    (AddRoute (AddRoutes (AddRoute router route1 (some c1)).1 mid) route2 (some c2)).2 =
      some (RouteError.conflict (TrimSpace route2) (TrimSpace route1)) := by
  obtain ⟨hv, hc, ht⟩ := binding_of_AddRoute_ok router route1 c1 mid hok
  have haddr : routeAddr route2 = routeAddr route1 := shape_map_routeKey _ _ hshape
  have hv2 : validRoute route2 = true := by
    rw [validRoute_iff] at hv ⊢
    exact shape_nonempty _ _ hshape hv
  rw [AddRoute_error, haddr, hc, ht]
  simp [hv2]

/-- Witness of C6: the routes `foo/{{a}}` and `foo/{{b}}` on a fresh router. -/
theorem wildcard_names_collapse_witness :
    (AddRoute (AddRoutes (AddRoute (CreateRouter (none : Option Nat))
        "foo/\x7b\x7ba\x7d\x7d".toList (some 1)).1 []) "foo/\x7b\x7bb\x7d\x7d".toList (some 2)).2 =
      some (RouteError.conflict (TrimSpace "foo/\x7b\x7bb\x7d\x7d".toList)
        (TrimSpace "foo/\x7b\x7ba\x7d\x7d".toList)) :=
  wildcard_names_collapse (CreateRouter none) "foo/\x7b\x7ba\x7d\x7d".toList
    "foo/\x7b\x7bb\x7d\x7d".toList 1 2 [] (by decide) (by decide)

/-- The lookup of a list of segments returns the node at a position of the
tree with one key for each segment, the segment itself or the wild card. -/
theorem find_some_addr :
    ∀ (segs : List Str) (t node : RouteNode C),
      find t segs = some node →
      ∃ addr : List Str, nodeAt t addr = some node ∧
        List.Forall₂ (fun key p => key = p ∨ key = WildCard) addr segs
  | [], t, node, h => by
    refine ⟨[], ?_, List.Forall₂.nil⟩
    simpa [find, nodeAt] using h
  | p :: rest, t, node, h => by
    simp only [find] at h
    cases h1 : t.SubRoutes p with
    | some sub =>
      rw [h1] at h
      obtain ⟨addr, ha, hf⟩ := find_some_addr rest sub node h
      exact ⟨p :: addr, by simp [nodeAt, h1, ha], List.Forall₂.cons (Or.inl rfl) hf⟩
    | none =>
      rw [h1] at h
      cases h2 : t.SubRoutes WildCard with
      | some sub =>
        rw [h2] at h
        obtain ⟨addr, ha, hf⟩ := find_some_addr rest sub node h
        exact ⟨WildCard :: addr, by simp [nodeAt, h2, ha], List.Forall₂.cons (Or.inr rfl) hf⟩
      | none =>
        rw [h2] at h
        simp at h

/-- C7: for every router and non-empty path, `FindRouteForPath` returns
without error exactly when the descent consumed every segment of the path, one
key of the tree (the segment or the wild card) for each, and the node reached,
which is the node returned, has a controller. With `route/*/something` and
`route/awef/something` registered the path `does/not/exist` returns an error;
with only `route/*/something` registered so do `route/foo` and `route/foo/`. -/
theorem no_partial_match (router : Router C) (path : Str) (hp : path ≠ []) :
    ((FindRouteForPath router path).2 = none ↔
      ∃ (addr : List Str) (node : RouteNode C),
        List.Forall₂ (fun key p => key = p ∨ key = WildCard) addr (Split path SlashChar) ∧
        nodeAt router.RouteTree addr = some node ∧
        find router.RouteTree (Split path SlashChar) = some node ∧
        (FindRouteForPath router path).1 = some node ∧
        node.Controller.isSome = true) ∧
    (FindRouteForPath routerStarAwef "does/not/exist".toList).2 =
      some (RouteError.noRoute "does/not/exist".toList) ∧
    (FindRouteForPath routerStar "route/foo".toList).2 =
      some (RouteError.noRoute "route/foo".toList) ∧
    (FindRouteForPath routerStar "route/foo/".toList).2 =
      some (RouteError.noRoute "route/foo/".toList) := by
  refine ⟨?_, by decide, by decide, by decide⟩
  rw [FindRouteForPath_error_none_iff]
  simp only [hp, if_false]
  constructor
  · intro h
    cases hf : find router.RouteTree (Split path SlashChar) with
    | none => simp [hf] at h
    | some node =>
      obtain ⟨addr, ha, hfa⟩ := find_some_addr _ _ node hf
      have hc : node.Controller.isSome = true := by simpa [hf] using h
      refine ⟨addr, node, hfa, ha, rfl, ?_, hc⟩
      cases hcc : node.Controller with
      | none => simp [hcc] at hc
      | some c => rw [FindRouteForPath_of_find router path node c hp hf hcc]
  · rintro ⟨addr, node, _, _, hf, _, hc⟩
    simpa [hf] using hc

/-- Witness of C7: the path `route/awef/something` on the router of
`TestFindControllerNoRoute`. -/
theorem no_partial_match_witness :
    ∃ (addr : List Str) (node : RouteNode Nat),
      List.Forall₂ (fun key p => key = p ∨ key = WildCard) addr
        (Split "route/awef/something".toList SlashChar) ∧
      nodeAt routerStarAwef.RouteTree addr = some node ∧
      find routerStarAwef.RouteTree (Split "route/awef/something".toList SlashChar) =
        some node ∧
      (FindRouteForPath routerStarAwef "route/awef/something".toList).1 = some node ∧
      node.Controller.isSome = true :=
  (no_partial_match routerStarAwef "route/awef/something".toList (by decide)).1.mp (by decide)

theorem insertRoute_root {β : Type} (node : RouteNode C) (segs : List Str)
    (k : RouteNode C → RouteNode C × β) (h : segs ≠ []) :
    (insertRoute node segs k).1.Value = node.Value ∧
    (insertRoute node segs k).1.TemplateRoute = node.TemplateRoute ∧
    (insertRoute node segs k).1.Controller = node.Controller := by
  cases segs with
  | nil => exact absurd rfl h
  | cons p rest => rw [insertRoute_cons]; exact ⟨rfl, rfl, rfl⟩

theorem AddRoute_root (router : Router C) (route : Str) (c : Option C) :
    (AddRoute router route c).1.RouteTree.Value = router.RouteTree.Value ∧
    (AddRoute router route c).1.RouteTree.TemplateRoute = router.RouteTree.TemplateRoute ∧
    (AddRoute router route c).1.RouteTree.Controller = router.RouteTree.Controller := by
  cases hv : validRoute route with
  | false => simp [AddRoute_invalid router route c hv]
  | true =>
    rw [AddRoute_valid router route c hv]
    exact insertRoute_root _ _ _ (Split_ne_nil _ _)

theorem AddRoutes_root (calls : List (Str × Option C)) :
    ∀ router : Router C,
      (AddRoutes router calls).RouteTree.Value = router.RouteTree.Value ∧
      (AddRoutes router calls).RouteTree.TemplateRoute = router.RouteTree.TemplateRoute ∧
      (AddRoutes router calls).RouteTree.Controller = router.RouteTree.Controller := by
  induction calls with
  | nil => intro router; exact ⟨rfl, rfl, rfl⟩
  | cons call calls ih =>
    intro router
    obtain ⟨h1, h2, h3⟩ := ih (AddRoute router call.1 call.2).1
    obtain ⟨g1, g2, g3⟩ := AddRoute_root router call.1 call.2
    exact ⟨h1.trans g1, h2.trans g2, h3.trans g3⟩

/-- C8: on every router made by `CreateRouter` and any sequence of `AddRoute`
calls, the lookup of the empty path returns the root node of the router, with
an error exactly when the router was created with no root controller; the root
node still has the value and the template `/` and the root controller given to
`CreateRouter`. -/
theorem empty_path_returns_root (rc : Option C) (calls : List (Str × Option C)) :
    FindRouteForPath (AddRoutes (CreateRouter rc) calls) [] =
      (some (AddRoutes (CreateRouter rc) calls).RouteTree,
        if rc.isNone = true then some (RouteError.noRoute []) else none) ∧
    (AddRoutes (CreateRouter rc) calls).RouteTree.Controller = rc ∧
    (AddRoutes (CreateRouter rc) calls).RouteTree.Value = Slash ∧
    (AddRoutes (CreateRouter rc) calls).RouteTree.TemplateRoute = Slash := by
  obtain ⟨h1, h2, h3⟩ := AddRoutes_root calls (CreateRouter rc)
  have hc : (AddRoutes (CreateRouter rc) calls).RouteTree.Controller = rc := h3
  refine ⟨?_, hc, h1, h2⟩
  simp only [FindRouteForPath, if_true, hc]
  cases rc <;> rfl

/-! ## Properties of the request context -/

/-- C9: `SetResponse(model, status)` returns false exactly when the context
already has an error, and then the context after the call is the context before
it; when no error is set it returns true and the context after the call holds
that model and that status, has no error, and differs from the context before
in the model and the status only. -/
theorem SetResponse_spec (context : Context C) (model : Option Any) (status : Int) :
    ((SetResponse context model status).2 = false ↔ HasError context = true) ∧
    (HasError context = true → (SetResponse context model status).1 = context) ∧
    (HasError context = false →
      (SetResponse context model status).2 = true ∧
      (SetResponse context model status).1.Model = model ∧
      Status (SetResponse context model status).1 = status ∧
      (SetResponse context model status).1.Error = none ∧
      HasError (SetResponse context model status).1 = false ∧
      (SetResponse context model status).1 =
        { context with responseStatus := status, Model := model }) := by
  cases h : HasError context with
  | true => simp [SetResponse, h]
  | false =>
    have he : context.Error = none := by simpa [HasError] using h
    simp [SetResponse, h, Status, HasError, he]

/-- Witness of C9: `SetResponse` on the context of `TestSetError`, which has an
error, leaves it as it was. -/
theorem SetResponse_spec_witness :
    (SetResponse contextWithError (some (Any.str "model".toList)) 200).1 = contextWithError :=
  (SetResponse_spec contextWithError (some (Any.str "model".toList)) 200).2.1 (by decide)

/-- C10, as the code has it: the model slot is written by `SetResponse` only,
and only when the context has no error, so that the context has no error right
after a `SetResponse` that changed the model; `SetError` and `AddError` leave
the model slot as it is. After `SetResponse(m, s)` on a context without error
followed by `SetError(e, s2)` the context holds the error `e`, the status `s2`
and still the model `m`. -/
theorem model_slot_writes (context : Context C) (m : Option Any) (s : Int)
    (e : Option RestError) (s2 : Int) (fe : FieldError) :
    (SetError context e s2).Model = context.Model ∧
    (AddError context fe).Model = context.Model ∧
    ((SetResponse context m s).1.Model ≠ context.Model →
      HasError context = false ∧ HasError (SetResponse context m s).1 = false) ∧
    (HasError context = false →
      (SetError (SetResponse context m s).1 e s2).Model = m ∧
      (SetError (SetResponse context m s).1 e s2).Error = e ∧
      Status (SetError (SetResponse context m s).1 e s2) = s2) := by
  refine ⟨rfl, ?_, ?_, ?_⟩
  · unfold AddError
    cases h : HasError context with
    | true =>
      have : ∃ x, context.Error = some x := by
        cases hc : context.Error with
        | none => simp [HasError, hc] at h
        | some x => exact ⟨x, rfl⟩
      obtain ⟨x, hx⟩ := this
      simp [hx]
    | false => simp [SetError]
  · intro hne
    cases h : HasError context with
    | true => simp [SetResponse, h] at hne
    | false =>
      have he : context.Error = none := by simpa [HasError] using h
      simp [SetResponse, HasError, he]
  · intro h
    simp [SetResponse, h, SetError, Status]

/-- Witness of C10: a model and then an error set on the fresh context. -/
theorem model_slot_writes_witness :
    (SetError (SetResponse (emptyContext : Context Nat) (some (Any.str "model".toList)) 200).1
        (some (NewRestError MethodNotAllowed [] none)) 405).Model =
      some (Any.str "model".toList) ∧
    (SetError (SetResponse (emptyContext : Context Nat) (some (Any.str "model".toList)) 200).1
        (some (NewRestError MethodNotAllowed [] none)) 405).Error =
      some (NewRestError MethodNotAllowed [] none) ∧
    Status (SetError (SetResponse (emptyContext : Context Nat)
        (some (Any.str "model".toList)) 200).1
        (some (NewRestError MethodNotAllowed [] none)) 405) = 405 :=
  (model_slot_writes (emptyContext : Context Nat) (some (Any.str "model".toList)) 200
    (some (NewRestError MethodNotAllowed [] none)) 405
    { Code := CannotBeBlank, Message := [], Field := "name".toList }).2.2.2 (by decide)

/-- Counterexample to C10 as stated: after `SetResponse("model", 200)` and
`SetError(e, 405)` on the fresh context, which is a state reachable from the
fresh context, the model slot and the error slot are both set, and the model
slot still holds the model. -/
theorem model_error_exclusive_counterexample :
    (SetResponse (emptyContext : Context Nat) (some (Any.str "model".toList)) 200).2 = true ∧
    (SetError (SetResponse (emptyContext : Context Nat) (some (Any.str "model".toList)) 200).1
        (some (NewRestError MethodNotAllowed [] none)) 405).Model.isSome = true ∧
    (SetError (SetResponse (emptyContext : Context Nat) (some (Any.str "model".toList)) 200).1
        (some (NewRestError MethodNotAllowed [] none)) 405).Error.isSome = true ∧
    (SetError (SetResponse (emptyContext : Context Nat) (some (Any.str "model".toList)) 200).1
        (some (NewRestError MethodNotAllowed [] none)) 405).Model =
      some (Any.str "model".toList) := by
  decide

theorem Detemplate_example :
    Detemplate "foo/\x7b\x7bid\x7d\x7d".toList "foo/bar".toList = ([("id".toList, "bar".toList)], false) := by
  decide

theorem cleanPath_example :
    cleanPath { emptyRequest with RequestURI := "/foo/bar/?awef=qwer".toList } = "foo/bar".toList := by
  decide

theorem Read_cached (context : Context C) (h : context.bodyRead = true) :
    Read context =
      { context := context, body := some context.Body, err := none, log := [] } := by
  simp [Read, h]

/-! ## Lemmas on `CreateContext` -/

theorem FindRouteForPath_controller (router : Router C) (path : Str) (node : RouteNode C)
    (h : FindRouteForPath router path = (some node, none)) :
    ∃ c : C, node.Controller = some c := by
  simp only [FindRouteForPath] at h
  generalize (if path = [] then some router.RouteTree
      else find router.RouteTree (Split path SlashChar)) = x at h
  cases x with
  | none => simp at h
  | some n =>
    cases hc : n.Controller with
    | none => simp [hc] at h
    | some c =>
      simp only [hc, Option.isNone_some, Bool.false_eq_true, if_false, Prod.mk.injEq,
        Option.some.injEq, and_true] at h
      exact ⟨c, by rw [← h]; exact hc⟩

theorem FindRouteForPath_node_of_no_error (router : Router C) (path : Str)
    (h : (FindRouteForPath router path).2 = none) :
    ∃ node : RouteNode C, FindRouteForPath router path = (some node, none) := by
  simp only [FindRouteForPath] at h ⊢
  generalize (if path = [] then some router.RouteTree
      else find router.RouteTree (Split path SlashChar)) = x at h ⊢
  cases x with
  | none => simp at h
  | some n =>
    cases hc : n.Controller with
    | none => simp [hc] at h
    | some c => exact ⟨n, by simp [hc]⟩

/-- The first stage: a query that does not parse ends `CreateContext`. -/
theorem CreateContext_malformed (env : Env C) (request : Request) (router : Router C)
    (hq : (env.ParseQuery request.URL.RawQuery).2 = true) :
    CreateContext env request router =
      (SetError (parsedContext env request)
        (some (NewRestError MalformedURL (malformedURLMessage request) none))
        StatusBadRequest, []) := by
  simp [CreateContext, hq]

/-- The second stage: a path that `FindRouteForPath` does not resolve ends
`CreateContext`. -/
theorem CreateContext_not_found (env : Env C) (request : Request) (router : Router C)
    (hq : (env.ParseQuery request.URL.RawQuery).2 = false)
    (hr : (FindRouteForPath router (cleanPath request)).2 ≠ none) :
    CreateContext env request router =
      (SetError { parsedContext env request with
          Route := (FindRouteForPath router (cleanPath request)).1 }
        (some (NewRestError InvalidRoute [] none)) StatusBadRequest, []) := by
  simp only [CreateContext, hq, Bool.false_eq_true, if_false]
  cases hf : FindRouteForPath router (cleanPath request) with
  | mk route err =>
    cases err with
    | none => simp [hf] at hr
    | some e => cases route <;> rfl

/-- The later stages: what `CreateContext` returns when the query parses and
the path resolves to a node with the controller `c`. -/
theorem CreateContext_found (env : Env C) (request : Request) (router : Router C)
    (node : RouteNode C) (c : C)
    (hq : (env.ParseQuery request.URL.RawQuery).2 = false)
    (hr : FindRouteForPath router (cleanPath request) = (some node, none))
    (hc : node.Controller = some c) :
    CreateContext env request router =
      if (!IsWhiteSpace (cleanPath request) &&
          (env.Detemplate node.TemplateRoute (cleanPath request)).2) = true then
        (SetError (routedContext env request node) (some (NewRestError InvalidRoute [] none))
          StatusInternalServerError, [])
      else if MethodOptions ≠ request.Method then
        (if (!(env.Authenticate c (routedContext env request node)).2) = true then
            SetError (env.Authenticate c (routedContext env request node)).1
              (some (NewRestError AuthenticationFailed InvalidCredentialsErrorMessage none))
              StatusUnauthorized
          else (env.Authenticate c (routedContext env request node)).1,
          [(c, Call.Authenticate (env.Authenticate c (routedContext env request node)).2)])
      else (routedContext env request node, []) := by
  simp only [CreateContext, hq, Bool.false_eq_true, if_false, hr, hc]

/-- The calls made by `CreateContext` are calls of `Authenticate`, at most
one. -/
theorem CreateContext_calls (env : Env C) (request : Request) (router : Router C) :
    (CreateContext env request router).2 = [] ∨
    ∃ (c : C) (b : Bool), (CreateContext env request router).2 = [(c, Call.Authenticate b)] := by
  cases hq : (env.ParseQuery request.URL.RawQuery).2 with
  | true => left; rw [CreateContext_malformed env request router hq]
  | false =>
    cases hf : (FindRouteForPath router (cleanPath request)).2 with
    | some e =>
      left
      rw [CreateContext_not_found env request router hq (by rw [hf]; simp)]
    | none =>
      obtain ⟨node, hn⟩ := FindRouteForPath_node_of_no_error router _ hf
      obtain ⟨c, hc⟩ := FindRouteForPath_controller router _ node hn
      rw [CreateContext_found env request router node c hq hn hc]
      split
      · left; rfl
      · split
        · right; exact ⟨c, _, rfl⟩
        · left; rfl

/-! ## Properties of the life of a request -/

/-- C11: for every context, with or without an earlier error or model, every
error `e` (also `nil`) and every status `s`, after `SetError(e, s)` the error
of the context is `e`, `Status()` is `s`, `HasError()` is true exactly when `e`
is not `nil`, and nothing else in the context has changed. -/
theorem SetError_last_writer (context : Context C) (e : Option RestError) (s : Int) :
    (SetError context e s).Error = e ∧
    Status (SetError context e s) = s ∧
    (e.isSome = true → HasError (SetError context e s) = true) ∧
    HasError (SetError context e s) = e.isSome ∧
    SetError context e s = { context with responseStatus := s, Error := e } :=
  ⟨rfl, rfl, fun h => h, rfl, rfl⟩

/-- Witness of C11: an error set over an earlier error and over a model. -/
theorem SetError_last_writer_witness :
    HasError (SetError (SetResponse contextWithError (some (Any.str "model".toList)) 200).1
      (some (NewRestError InvalidRoute [] none)) 400) = true :=
  (SetError_last_writer (SetResponse contextWithError (some (Any.str "model".toList)) 200).1
    (some (NewRestError InvalidRoute [] none)) 400).2.2.1 rfl

/-- C12: for every request and router, and whatever the controllers do, if the
context built by `CreateContext` has an error then `ServeHTTP` hands that
context, with that error and status, to `CompleteRequest` and calls no verb
method: the calls made are those of `CreateContext`, which are calls of
`Authenticate`. -/
theorem error_context_not_dispatched (env : Env C) (request : Request) (router : Router C)
    (h : HasError (CreateContext env request router).1 = true) :
    dispatch env request router = some (CreateContext env request router) ∧
    (∀ x ∈ (CreateContext env request router).2, ∃ b : Bool, x.2 = Call.Authenticate b) := by
  constructor
  · simp [dispatch, h]
  · intro x hx
    rcases CreateContext_calls env request router with h0 | ⟨c, b, h1⟩
    · rw [h0] at hx; simp at hx
    · rw [h1] at hx
      simp only [List.mem_singleton] at hx
      exact ⟨b, by rw [hx]⟩

/-- Witness of C12: the request `GET /foo` on the router with only a root
controller, whose context has the error of an invalid route. -/
theorem error_context_not_dispatched_witness :
    dispatch (testEnv true) (testRequest MethodGet "/foo".toList []) routerRootOnly =
      some (CreateContext (testEnv true) (testRequest MethodGet "/foo".toList [])
        routerRootOnly) ∧
    (∀ x ∈ (CreateContext (testEnv true) (testRequest MethodGet "/foo".toList [])
        routerRootOnly).2, ∃ b : Bool, x.2 = Call.Authenticate b) :=
  error_context_not_dispatched (testEnv true) (testRequest MethodGet "/foo".toList [])
    routerRootOnly (by decide)

/-- Counterexample to C13 as written: the controller 0 never authenticates,
the method is `GET`, and the path resolves to a route of that controller, yet
the context has no authentication error and `Authenticate` is not called. The
request `GET /?%zzzzz` resolves to the root route and gets the error
`malformed-url` with status 400, since its query string does not decode; the
request `GET /foo/bar` resolves to the route `foo/{{id}}{{id2}}` and gets the
error `invalid-route` with status 500, since de-templating fails. -/
theorem authentication_failed_counterexample :
    (∀ (c : Nat) (context : Context Nat), ((testEnv false).Authenticate c context).2 = false) ∧
    ((testRequest MethodGet "/?%zzzzz".toList "%zzzzz".toList).Method ≠ MethodOptions ∧
      ((FindRouteForPath routerRootOnly
        (cleanPath (testRequest MethodGet "/?%zzzzz".toList "%zzzzz".toList))).1.bind
          (fun n => n.Controller),
        (FindRouteForPath routerRootOnly
          (cleanPath (testRequest MethodGet "/?%zzzzz".toList "%zzzzz".toList))).2) =
        (some 0, none) ∧
      ((CreateContext (testEnv false) (testRequest MethodGet "/?%zzzzz".toList "%zzzzz".toList)
          routerRootOnly).1.Error.map (fun e => e.Code),
        Status (CreateContext (testEnv false)
          (testRequest MethodGet "/?%zzzzz".toList "%zzzzz".toList) routerRootOnly).1,
        (CreateContext (testEnv false) (testRequest MethodGet "/?%zzzzz".toList "%zzzzz".toList)
          routerRootOnly).2) = (some MalformedURL, 400, [])) ∧
    ((testRequest MethodGet "/foo/bar".toList []).Method ≠ MethodOptions ∧
      ((FindRouteForPath routerFused
        (cleanPath (testRequest MethodGet "/foo/bar".toList []))).1.bind
          (fun n => n.Controller),
        (FindRouteForPath routerFused
          (cleanPath (testRequest MethodGet "/foo/bar".toList []))).2) = (some 0, none) ∧
      ((CreateContext (testEnv false) (testRequest MethodGet "/foo/bar".toList [])
          routerFused).1.Error,
        Status (CreateContext (testEnv false) (testRequest MethodGet "/foo/bar".toList [])
          routerFused).1,
        (CreateContext (testEnv false) (testRequest MethodGet "/foo/bar".toList [])
          routerFused).2) = (some (NewRestError InvalidRoute [] none), 500, [])) ∧
    MalformedURL ≠ AuthenticationFailed ∧ InvalidRoute ≠ AuthenticationFailed := by
  refine ⟨fun _ _ => rfl, ?_, ?_, ?_, ?_⟩ <;> decide

/-- C13, amended: for every request whose method is not `OPTIONS`, whose query
string decodes and whose cleaned path resolves to a route, when de-templating
the template of the route returns no error (or the cleaned path is blank, so
that de-templating is not run) and the `Authenticate` of the controller of the
route returns false on the context built so far, `CreateContext` calls that
`Authenticate`, once, and no other method, and returns the context that
`Authenticate` left with the error of code `authentication-failed` and message
`Invalid Credentials` and the status 401; the context has an error, so
`ServeHTTP` calls no verb method. -/
theorem authentication_failed (env : Env C) (request : Request) (router : Router C)
    (node : RouteNode C) (c : C)
    (hm : request.Method ≠ MethodOptions)
    (hq : (env.ParseQuery request.URL.RawQuery).2 = false)
    (hr : FindRouteForPath router (cleanPath request) = (some node, none))
    (hc : node.Controller = some c)
    (hd : IsWhiteSpace (cleanPath request) = true ∨
      (env.Detemplate node.TemplateRoute (cleanPath request)).2 = false)
    (ha : (env.Authenticate c (routedContext env request node)).2 = false) :
    (CreateContext env request router).2 = [(c, Call.Authenticate false)] ∧
    (CreateContext env request router).1 =
      SetError (env.Authenticate c (routedContext env request node)).1
        (some (NewRestError AuthenticationFailed InvalidCredentialsErrorMessage none))
        StatusUnauthorized ∧
    (CreateContext env request router).1.Error =
      some (NewRestError AuthenticationFailed InvalidCredentialsErrorMessage none) ∧
    Status (CreateContext env request router).1 = StatusUnauthorized ∧
    HasError (CreateContext env request router).1 = true ∧
    dispatch env request router = some (CreateContext env request router) := by
  have hcreate : CreateContext env request router =
      (SetError (env.Authenticate c (routedContext env request node)).1
        (some (NewRestError AuthenticationFailed InvalidCredentialsErrorMessage none))
        StatusUnauthorized, [(c, Call.Authenticate false)]) := by
    rw [CreateContext_found env request router node c hq hr hc]
    have hd2 : (!IsWhiteSpace (cleanPath request) &&
        (env.Detemplate node.TemplateRoute (cleanPath request)).2) = false := by
      rcases hd with hd | hd <;> simp [hd]
    rw [hd2, if_neg (by simp), if_pos (fun e => hm e.symm), ha]
    rfl
  have herr : HasError (CreateContext env request router).1 = true := by
    rw [hcreate]
    rfl
  refine ⟨?_, ?_, ?_, ?_, herr, ?_⟩
  · rw [hcreate]
  · rw [hcreate]
  · rw [hcreate]
    rfl
  · rw [hcreate]
    rfl
  · simp [dispatch, herr]

/-- Witness of C13: the request `GET /` on the router whose root controller
does not authenticate, as in `TestCreateContextWithFailingAuth`. -/
theorem authentication_failed_witness :
    (CreateContext (testEnv false) (testRequest MethodGet "/".toList []) routerRootOnly).2 =
      [(0, Call.Authenticate false)] ∧
    (CreateContext (testEnv false) (testRequest MethodGet "/".toList []) routerRootOnly).1.Error =
      some (NewRestError AuthenticationFailed InvalidCredentialsErrorMessage none) ∧
    Status (CreateContext (testEnv false) (testRequest MethodGet "/".toList [])
      routerRootOnly).1 = StatusUnauthorized ∧
    dispatch (testEnv false) (testRequest MethodGet "/".toList []) routerRootOnly =
      some (CreateContext (testEnv false) (testRequest MethodGet "/".toList [])
        routerRootOnly) :=
  have h := authentication_failed (testEnv false) (testRequest MethodGet "/".toList [])
    routerRootOnly routerRootOnly.RouteTree 0 (by decide) (by decide) (by rfl) (by rfl)
    (Or.inl (by decide)) (by rfl)
  ⟨h.1, h.2.2.1, h.2.2.2.1, h.2.2.2.2.2⟩

theorem parsedContext_Request (env : Env C) (request : Request) :
    (parsedContext env request).Request = request := rfl

theorem routedContext_fields (env : Env C) (request : Request) (node : RouteNode C) :
    (routedContext env request node).Request = request ∧
    (routedContext env request node).Route = some node ∧
    (routedContext env request node).Error = none ∧
    (routedContext env request node).URLParameters = (env.ParseQuery request.URL.RawQuery).1 :=
  ⟨rfl, rfl, rfl, rfl⟩

/-- The codes of the errors that `CreateContext` sets before authentication
differ from the code of the authentication error. -/
theorem codes_ne :
    MalformedURL ≠ AuthenticationFailed ∧ InvalidRoute ≠ AuthenticationFailed := by
  decide

/-- C14, as the code has it: for every `OPTIONS` request `CreateContext` calls
no `Authenticate` and sets no authentication error, whatever the controller;
and when the query string of the request decodes, its path resolves to a route
and de-templating the route returns no error, `CreateContext` returns the
context without error and `ServeHTTP` calls the `Options` handler of the
controller of the route, and no other method. -/
theorem options_bypasses_authentication (env : Env C) (request : Request) (router : Router C)
    (hm : request.Method = MethodOptions) :
    (CreateContext env request router).2 = [] ∧
    (∀ e : RestError, (CreateContext env request router).1.Error = some e →
      e.Code ≠ AuthenticationFailed) ∧
    (∀ (node : RouteNode C) (c : C),
      (env.ParseQuery request.URL.RawQuery).2 = false →
      FindRouteForPath router (cleanPath request) = (some node, none) →
      node.Controller = some c →
      (IsWhiteSpace (cleanPath request) = true ∨
        (env.Detemplate node.TemplateRoute (cleanPath request)).2 = false) →
      CreateContext env request router = (routedContext env request node, []) ∧
      dispatch env request router =
        some (env.Options c (routedContext env request node), [(c, Call.Options)])) := by
  have hfound : ∀ (node : RouteNode C) (c : C),
      (env.ParseQuery request.URL.RawQuery).2 = false →
      FindRouteForPath router (cleanPath request) = (some node, none) →
      node.Controller = some c →
      CreateContext env request router =
        if (!IsWhiteSpace (cleanPath request) &&
            (env.Detemplate node.TemplateRoute (cleanPath request)).2) = true then
          (SetError (routedContext env request node) (some (NewRestError InvalidRoute [] none))
            StatusInternalServerError, [])
        else (routedContext env request node, []) := by
    intro node c hq hn hc
    rw [CreateContext_found env request router node c hq hn hc]
    simp [hm]
  refine ⟨?_, ?_, ?_⟩
  · cases hq : (env.ParseQuery request.URL.RawQuery).2 with
    | true => rw [CreateContext_malformed env request router hq]
    | false =>
      cases hf : (FindRouteForPath router (cleanPath request)).2 with
      | some e => rw [CreateContext_not_found env request router hq (by rw [hf]; simp)]
      | none =>
        obtain ⟨node, hn⟩ := FindRouteForPath_node_of_no_error router _ hf
        obtain ⟨c, hc⟩ := FindRouteForPath_controller router _ node hn
        rw [hfound node c hq hn hc]
        split <;> rfl
  · intro e he
    cases hq : (env.ParseQuery request.URL.RawQuery).2 with
    | true =>
      rw [CreateContext_malformed env request router hq] at he
      simp only [SetError, Option.some.injEq] at he
      rw [← he]
      exact codes_ne.1
    | false =>
      cases hf : (FindRouteForPath router (cleanPath request)).2 with
      | some e2 =>
        rw [CreateContext_not_found env request router hq (by rw [hf]; simp)] at he
        simp only [SetError, Option.some.injEq] at he
        rw [← he]
        exact codes_ne.2
      | none =>
        obtain ⟨node, hn⟩ := FindRouteForPath_node_of_no_error router _ hf
        obtain ⟨c, hc⟩ := FindRouteForPath_controller router _ node hn
        rw [hfound node c hq hn hc] at he
        split at he
        · simp only [SetError, Option.some.injEq] at he
          rw [← he]
          exact codes_ne.2
        · simp [routedContext, parsedContext, emptyContext] at he
  · intro node c hq hn hc hd
    have hcreate : CreateContext env request router = (routedContext env request node, []) := by
      rw [hfound node c hq hn hc]
      rcases hd with hd | hd <;> simp [hd]
    refine ⟨hcreate, ?_⟩
    simp only [dispatch, hcreate, HasError, (routedContext_fields env request node).2.2.1,
      (routedContext_fields env request node).1, hm]
    have h1 : MethodOptions ≠ MethodGet := by decide
    have h2 : MethodOptions ≠ MethodPost := by decide
    have h3 : MethodOptions ≠ MethodPut := by decide
    have h4 : MethodOptions ≠ MethodPatch := by decide
    have h5 : MethodOptions ≠ MethodDelete := by decide
    simp [invoke, (routedContext_fields env request node).2.1, hc, h1, h2, h3, h4, h5]

/-- Witness of C14: the request `OPTIONS /` on the router whose root
controller never authenticates. -/
theorem options_bypasses_authentication_witness :
    CreateContext (testEnv false) (testRequest MethodOptions "/".toList []) routerRootOnly =
      (routedContext (testEnv false) (testRequest MethodOptions "/".toList [])
        routerRootOnly.RouteTree, []) ∧
    dispatch (testEnv false) (testRequest MethodOptions "/".toList []) routerRootOnly =
      some ((testEnv false).Options 0
        (routedContext (testEnv false) (testRequest MethodOptions "/".toList [])
          routerRootOnly.RouteTree), [(0, Call.Options)]) :=
  (options_bypasses_authentication (testEnv false) (testRequest MethodOptions "/".toList [])
    routerRootOnly rfl).2.2 routerRootOnly.RouteTree 0 (by decide) (by rfl) (by rfl)
    (Or.inl (by decide))

/-- Counterexample to C14 as stated: the request `OPTIONS /foo/bar` resolves
to the route `foo/{{id}}{{id2}}`, and the request `OPTIONS /?%zzzzz` to the
root route, yet `ServeHTTP` calls no handler for either: the context has the
error of the failed de-templating, or of the query that does not decode. -/
theorem options_bypasses_authentication_counterexample :
    ((FindRouteForPath routerFused
        (cleanPath (testRequest MethodOptions "/foo/bar".toList []))).2 = none ∧
      (dispatch (testEnv false) (testRequest MethodOptions "/foo/bar".toList [])
        routerFused).map (fun r => (r.1.Error, r.1.responseStatus, r.2)) =
        some (some (NewRestError InvalidRoute [] none), 500, [])) ∧
    ((FindRouteForPath routerRootOnly
        (cleanPath (testRequest MethodOptions "/?%zzzzz".toList "%zzzzz".toList))).2 = none ∧
      (dispatch (testEnv false) (testRequest MethodOptions "/?%zzzzz".toList "%zzzzz".toList)
        routerRootOnly).map (fun r => (r.1.Error.map (fun e => e.Code), r.1.responseStatus, r.2)) =
        some (some MalformedURL, 400, [])) := by
  decide

/-- C15, as the code has it: for every request whose cleaned path resolves to
no bound route, `CreateContext` calls no `Authenticate` and returns a context
with status 400 whose error has the code `invalid-route` when the query string
of the request decodes, and the code `malformed-url` when it does not. -/
theorem unresolved_path_invalid_route (env : Env C) (request : Request) (router : Router C)
    (hr : (FindRouteForPath router (cleanPath request)).2 ≠ none) :
    (CreateContext env request router).2 = [] ∧
    Status (CreateContext env request router).1 = StatusBadRequest ∧
    ((env.ParseQuery request.URL.RawQuery).2 = false →
      (CreateContext env request router).1.Error = some (NewRestError InvalidRoute [] none)) ∧
    ((env.ParseQuery request.URL.RawQuery).2 = true →
      (CreateContext env request router).1.Error =
        some (NewRestError MalformedURL (malformedURLMessage request) none)) := by
  cases hq : (env.ParseQuery request.URL.RawQuery).2 with
  | true =>
    rw [CreateContext_malformed env request router hq]
    exact ⟨rfl, rfl, fun h => absurd h (by simp), fun _ => rfl⟩
  | false =>
    rw [CreateContext_not_found env request router hq hr]
    exact ⟨rfl, rfl, fun _ => rfl, fun h => absurd h (by simp)⟩

/-- Witness of C15: the requests `GET /foo` on the router with only a root
controller and `GET /does/not/exist` on the router with the route
`foo/{{id}}`. -/
theorem unresolved_path_invalid_route_witness :
    ((CreateContext (testEnv true) (testRequest MethodGet "/foo".toList [])
        routerRootOnly).1.Error = some (NewRestError InvalidRoute [] none) ∧
      Status (CreateContext (testEnv true) (testRequest MethodGet "/foo".toList [])
        routerRootOnly).1 = StatusBadRequest ∧
      (CreateContext (testEnv true) (testRequest MethodGet "/foo".toList [])
        routerRootOnly).2 = []) ∧
    (CreateContext (testEnv true) (testRequest MethodGet "/does/not/exist".toList [])
        routerFooId).1.Error = some (NewRestError InvalidRoute [] none) :=
  ⟨⟨(unresolved_path_invalid_route (testEnv true) (testRequest MethodGet "/foo".toList [])
        routerRootOnly (by decide)).2.2.1 (by decide),
      (unresolved_path_invalid_route (testEnv true) (testRequest MethodGet "/foo".toList [])
        routerRootOnly (by decide)).2.1,
      (unresolved_path_invalid_route (testEnv true) (testRequest MethodGet "/foo".toList [])
        routerRootOnly (by decide)).1⟩,
    (unresolved_path_invalid_route (testEnv true)
      (testRequest MethodGet "/does/not/exist".toList []) routerFooId (by decide)).2.2.1
      (by decide)⟩

/-- Counterexample to C15 as stated: the cleaned path of the request
`GET /foo?%zzzzz` resolves to no bound route on the router with only a root
controller, and the error of the context has the code `malformed-url`, not
`invalid-route`. -/
theorem unresolved_path_invalid_route_counterexample :
    (FindRouteForPath routerRootOnly
      (cleanPath (testRequest MethodGet "/foo?%zzzzz".toList "%zzzzz".toList))).2 ≠ none ∧
    (CreateContext (testEnv true) (testRequest MethodGet "/foo?%zzzzz".toList "%zzzzz".toList)
      routerRootOnly).1.Error.map (fun e => e.Code) = some MalformedURL ∧
    MalformedURL ≠ InvalidRoute := by
  decide

/-- C16, as the code has it, with `Detemplate` as the spec describes it: for
every request whose query string decodes and whose cleaned path is not blank
and resolves to a route whose stored template has a segment with malformed
placeholder syntax, `CreateContext` returns a context with the error code
`invalid-route` and the status 500, not 400, and calls no `Authenticate`. -/
theorem malformed_template_error (env : Env C) (request : Request) (router : Router C)
    (node : RouteNode C)
    (hD : env.Detemplate = Detemplate)
    (hq : (env.ParseQuery request.URL.RawQuery).2 = false)
    (hr : FindRouteForPath router (cleanPath request) = (some node, none))
    (hb : IsWhiteSpace (cleanPath request) = false)
    (hmal : (Split node.TemplateRoute SlashChar).any malformedSegment = true) :
    (CreateContext env request router).1.Error = some (NewRestError InvalidRoute [] none) ∧
    Status (CreateContext env request router).1 = StatusInternalServerError ∧
    Status (CreateContext env request router).1 ≠ StatusBadRequest ∧
    (CreateContext env request router).2 = [] := by
  obtain ⟨c, hc⟩ := FindRouteForPath_controller router _ node hr
  have hd : (env.Detemplate node.TemplateRoute (cleanPath request)).2 = true := by
    rw [hD]
    simp only [Detemplate, hmal, if_true]
  have hcond : (!IsWhiteSpace (cleanPath request) &&
      (env.Detemplate node.TemplateRoute (cleanPath request)).2) = true := by
    simp [hb, hd]
  rw [CreateContext_found env request router node c hq hr hc, if_pos hcond]
  refine ⟨rfl, rfl, ?_, rfl⟩
  show StatusInternalServerError ≠ StatusBadRequest
  decide

/-- Witness of C16: the request `GET /foo/bar` on the router with the route
`foo/{{id}}{{id2}}`, as in `TestCreateContextBadTemplate`, with a controller
that does not authenticate. -/
theorem malformed_template_error_witness :
    (CreateContext (testEnv false) (testRequest MethodGet "/foo/bar".toList [])
      routerFused).1.Error = some (NewRestError InvalidRoute [] none) ∧
    Status (CreateContext (testEnv false) (testRequest MethodGet "/foo/bar".toList [])
      routerFused).1 = StatusInternalServerError ∧
    Status (CreateContext (testEnv false) (testRequest MethodGet "/foo/bar".toList [])
      routerFused).1 ≠ StatusBadRequest ∧
    (CreateContext (testEnv false) (testRequest MethodGet "/foo/bar".toList [])
      routerFused).2 = [] :=
  malformed_template_error (testEnv false) (testRequest MethodGet "/foo/bar".toList [])
    routerFused
    (((find routerFused.RouteTree ["foo".toList, "bar".toList]).getD routerFused.RouteTree))
    rfl (by decide) (by rfl) (by decide) (by decide)

/-- Counterexample to C16 as stated: the path of the request
`GET /foo/bar?%zzzzz` resolves to the route `foo/{{id}}{{id2}}` and the context
has the error code `malformed-url` with the status 400; the path of the request
whose URI is a tab resolves to the route `{{a}}{{b}}`, is blank, and the
context has no error and `Authenticate` was called. -/
theorem malformed_template_error_counterexample :
    ((FindRouteForPath routerFused
        (cleanPath (testRequest MethodGet "/foo/bar?%zzzzz".toList "%zzzzz".toList))).1.map
        (fun n => n.TemplateRoute) =
        some "foo/\x7b\x7bid\x7d\x7d\x7b\x7bid2\x7d\x7d".toList ∧
      (CreateContext (testEnv true)
        (testRequest MethodGet "/foo/bar?%zzzzz".toList "%zzzzz".toList) routerFused).1.Error.map
        (fun e => e.Code) = some MalformedURL ∧
      (CreateContext (testEnv true)
        (testRequest MethodGet "/foo/bar?%zzzzz".toList "%zzzzz".toList)
        routerFused).1.responseStatus = 400) ∧
    ((FindRouteForPath routerFusedOnly
        (cleanPath (testRequest MethodGet "\t".toList []))).1.map (fun n => n.TemplateRoute) =
        some "\x7b\x7ba\x7d\x7d\x7b\x7bb\x7d\x7d".toList ∧
      (CreateContext (testEnv true) (testRequest MethodGet "\t".toList [])
        routerFusedOnly).1.Error = none ∧
      (CreateContext (testEnv true) (testRequest MethodGet "\t".toList [])
        routerFusedOnly).2 = [(0, Call.Authenticate true)]) := by
  decide

theorem dropLast_dropLast_append_pair (l : Str) (a b : Char) :
    ((l ++ [a, b]).dropLast).dropLast = l := by
  have h : l ++ [a, b] = (l ++ [a]) ++ [b] := by simp
  rw [h, List.dropLast_concat, List.dropLast_concat]

theorem placeholderName_wellformed (name : Str)
    (h : name.all (fun c => c != '{' && c != '}') = true) :
    placeholderName (DOpen ++ name ++ DClose) = some name := by
  have h1 : HasPrefix (DOpen ++ name ++ DClose) DOpen = true := by
    simp [HasPrefix, DOpen, List.isPrefixOf]
  have h2 : DClose.isSuffixOf (DOpen ++ name ++ DClose) = true := by
    rw [List.isSuffixOf_iff_suffix]
    exact List.suffix_append _ _
  have h3 : 4 ≤ (DOpen ++ name ++ DClose).length := by
    simp [DOpen, DClose]
  have h4 : (((DOpen ++ name ++ DClose).drop 2).dropLast).dropLast = name := by
    have : (DOpen ++ name ++ DClose).drop 2 = name ++ ['}', '}'] := by
      simp [DOpen, DClose]
    rw [this]
    exact dropLast_dropLast_append_pair name '}' '}'
  unfold placeholderName
  rw [h4, h1, h2, h, decide_eq_true h3]
  rfl

theorem mapGet_mapSet_self (key value : Str) :
    ∀ m : List (Str × Str), mapGet (mapSet m key value) key = some value
  | [] => by simp [mapSet, mapGet]
  | (k, v) :: m => by
    by_cases h : k = key
    · simp [mapSet, mapGet, h]
    · simp [mapSet, mapGet, h, mapGet_mapSet_self key value m]

theorem mapGet_mapSet_ne (key value other : Str) (hne : other ≠ key) :
    ∀ m : List (Str × Str), mapGet (mapSet m key value) other = mapGet m other
  | [] => by simp [mapSet, mapGet, Ne.symm hne]
  | (k, v) :: m => by
    by_cases h : k = key
    · subst h
      simp [mapSet, mapGet, Ne.symm hne]
    · by_cases h2 : k = other
      · subst h2
        simp [mapSet, mapGet, h]
      · simp [mapSet, mapGet, h, h2, mapGet_mapSet_ne key value other hne m]

theorem keys_mapSet (key value : Str) :
    ∀ m : List (Str × Str),
      (mapSet m key value).map Prod.fst =
        if key ∈ m.map Prod.fst then m.map Prod.fst else m.map Prod.fst ++ [key]
  | [] => by simp [mapSet]
  | (k, v) :: m => by
    by_cases h : k = key
    · subst h
      simp [mapSet]
    · have ih := keys_mapSet key value m
      simp only [mapSet, h, if_false, List.map_cons, ih, List.mem_cons, Ne.symm h, false_or]
      split <;> simp

theorem nodup_keys_mapSet (key value : Str) (m : List (Str × Str))
    (h : (m.map Prod.fst).Nodup) : ((mapSet m key value).map Prod.fst).Nodup := by
  rw [keys_mapSet]
  split
  · exact h
  · rename_i hk
    rw [List.nodup_append]
    refine ⟨h, List.nodup_singleton _, ?_⟩
    intro a ha hb
    simp only [List.mem_singleton] at hb
    subst hb
    exact hk ha

theorem nodup_keys_detemplateMap :
    ∀ (ts ps : List Str) (m : List (Str × Str)), (m.map Prod.fst).Nodup →
      ((detemplateMap m ts ps).map Prod.fst).Nodup
  | [], _, m, h => by simpa [detemplateMap] using h
  | _ :: _, [], m, h => by simpa [detemplateMap] using h
  | t :: ts, p :: ps, m, h => by
    simp only [detemplateMap]
    cases placeholderName t with
    | none => exact nodup_keys_detemplateMap ts ps m h
    | some name => exact nodup_keys_detemplateMap ts ps _ (nodup_keys_mapSet name p m h)

theorem mapGet_detemplateMap_frame (name : Str) :
    ∀ (ts ps : List Str) (m : List (Str × Str)),
      (∀ (M : Nat) (t : Str), ts[M]? = some t → placeholderName t ≠ some name) →
      mapGet (detemplateMap m ts ps) name = mapGet m name
  | [], _, m, _ => by simp [detemplateMap]
  | _ :: _, [], m, _ => by simp [detemplateMap]
  | t :: ts, p :: ps, m, h => by
    have htail : ∀ (M : Nat) (t2 : Str), ts[M]? = some t2 → placeholderName t2 ≠ some name :=
      fun M t2 ht => h (M + 1) t2 (by simpa using ht)
    have hhead := h 0 t (by simp)
    simp only [detemplateMap]
    cases hn : placeholderName t with
    | none => exact mapGet_detemplateMap_frame name ts ps m htail
    | some n0 =>
      have hne : name ≠ n0 := by
        intro e
        rw [hn, e] at hhead
        exact hhead rfl
      simp only []
      rw [mapGet_detemplateMap_frame name ts ps _ htail, mapGet_mapSet_ne n0 p name hne]

theorem mapGet_detemplateMap (name v : Str) :
    ∀ (ts ps : List Str) (m : List (Str × Str)) (N : Nat) (t : Str),
      ts[N]? = some t → placeholderName t = some name → ps[N]? = some v →
      (∀ (M : Nat) (t2 : Str), M ≠ N → ts[M]? = some t2 → placeholderName t2 ≠ some name) →
      mapGet (detemplateMap m ts ps) name = some v
  | [], _, _, _, _, h, _, _, _ => by simp at h
  | _ :: _, [], _, _, _, _, _, h, _ => by simp at h
  | t0 :: ts, p0 :: ps, m, 0, t, ht, hn, hp, hother => by
    simp only [List.getElem?_cons_zero, Option.some.injEq] at ht hp
    subst ht
    subst hp
    have htail : ∀ (M : Nat) (t2 : Str), ts[M]? = some t2 → placeholderName t2 ≠ some name :=
      fun M t2 ht2 => hother (M + 1) t2 (by simp) (by simpa using ht2)
    simp only [detemplateMap, hn]
    rw [mapGet_detemplateMap_frame name ts ps _ htail, mapGet_mapSet_self]
  | t0 :: ts, p0 :: ps, m, N + 1, t, ht, hn, hp, hother => by
    simp only [List.getElem?_cons_succ] at ht hp
    have htail : ∀ (M : Nat) (t2 : Str), M ≠ N → ts[M]? = some t2 →
        placeholderName t2 ≠ some name :=
      fun M t2 hM ht2 => hother (M + 1) t2 (by simpa using hM) (by simpa using ht2)
    simp only [detemplateMap]
    cases placeholderName t0 with
    | none => exact mapGet_detemplateMap name v ts ps m N t ht hn hp htail
    | some n0 => exact mapGet_detemplateMap name v ts ps _ N t ht hn hp htail

theorem sep_not_mem_Split (sep : Char) :
    ∀ (s : Str) (seg : Str), seg ∈ Split s sep → sep ∉ seg
  | [], seg, h => by
    simp only [Split, List.mem_singleton] at h
    rw [h]
    simp
  | c :: cs, seg, h => by
    by_cases hc : c = sep
    · subst hc
      rw [Split_cons_sep] at h
      rcases List.mem_cons.mp h with h | h
      · rw [h]; simp
      · exact sep_not_mem_Split c cs seg h
    · cases hs : Split cs sep with
      | nil => exact absurd hs (Split_ne_nil cs sep)
      | cons seg0 segs =>
        rw [Split_cons_ne sep c cs seg0 segs hc hs] at h
        rcases List.mem_cons.mp h with h | h
        · rw [h]
          intro hmem
          rcases List.mem_cons.mp hmem with e | e
          · exact hc e.symm
          · exact sep_not_mem_Split sep cs seg0 (by rw [hs]; exact List.mem_cons_self _ _) e
        · exact sep_not_mem_Split sep cs seg (by rw [hs]; exact List.mem_cons_of_mem _ h)

theorem mem_of_mem_Trim (s cutset : Str) (c : Char) (h : c ∈ Trim s cutset) : c ∈ s := by
  unfold Trim at h
  rw [List.mem_reverse] at h
  have h2 := (List.dropWhile_sublist _).subset h
  rw [List.mem_reverse] at h2
  exact (List.dropWhile_sublist _).subset h2

/-- The query string is not part of the cleaned path: the cleaned path has no
question mark. -/
theorem cleanPath_no_query (request : Request) : '?' ∉ cleanPath request := by
  intro h
  have h1 := mem_of_mem_Trim _ _ _ h
  cases hs : Split request.RequestURI '?' with
  | nil => exact absurd hs (Split_ne_nil _ _)
  | cons seg segs =>
    rw [hs] at h1
    exact sep_not_mem_Split '?' request.RequestURI seg (by rw [hs]; exact List.mem_cons_self _ _) h1

/-- Counterexample to C17 as written. The cleaned path of the request
`GET /foo/bar?%zzzzz` matches the registered route `foo/{{id}}`, and the
context has no URI parameter and the error code `malformed-url`. The cleaned
path of the request whose URI is a tab matches the registered route `{{id}}`,
is blank, and the context has no URI parameter. The cleaned path of the request
`GET /x/y` matches the registered route `{{a}}/{{b}}{{c}}`, whose first segment
is a placeholder, and the context has no URI parameter and the status 500. The
cleaned path of the request `GET /a/b` matches the registered route
`{{id}}/{{id}}`, whose segment 0 is the placeholder `{{id}}`, and the map, which
holds one value for a name, does not map `id` to segment 0 of the path, `a`.
The request `GET /foo/bar/?awef=qwer` matches the registered route
`foo/{{id}}`, and with a controller whose `Authenticate` empties the maps and
sets an error before it accepts, the context returned has no URI parameter,
no query parameter, and an error. -/
theorem uri_parameters_positional_counterexample :
    ((FindRouteForPath routerFooId
        (cleanPath (testRequest MethodGet "/foo/bar?%zzzzz".toList "%zzzzz".toList))).1.map
        (fun n => n.TemplateRoute) = some "foo/\x7b\x7bid\x7d\x7d".toList ∧
      (CreateContext (testEnv true)
        (testRequest MethodGet "/foo/bar?%zzzzz".toList "%zzzzz".toList)
        routerFooId).1.URIParameters = [] ∧
      (CreateContext (testEnv true)
        (testRequest MethodGet "/foo/bar?%zzzzz".toList "%zzzzz".toList)
        routerFooId).1.Error.map (fun e => e.Code) = some MalformedURL) ∧
    ((FindRouteForPath routerIdOnly
        (cleanPath (testRequest MethodGet "\t".toList []))).1.map
        (fun n => n.TemplateRoute) = some "\x7b\x7bid\x7d\x7d".toList ∧
      (CreateContext (testEnv true) (testRequest MethodGet "\t".toList [])
        routerIdOnly).1.URIParameters = [] ∧
      (CreateContext (testEnv true) (testRequest MethodGet "\t".toList [])
        routerIdOnly).1.Error = none) ∧
    ((FindRouteForPath routerSiblingFused
        (cleanPath (testRequest MethodGet "/x/y".toList []))).1.map
        (fun n => n.TemplateRoute) =
        some "\x7b\x7ba\x7d\x7d/\x7b\x7bb\x7d\x7d\x7b\x7bc\x7d\x7d".toList ∧
      (CreateContext (testEnv true) (testRequest MethodGet "/x/y".toList [])
        routerSiblingFused).1.URIParameters = [] ∧
      (CreateContext (testEnv true) (testRequest MethodGet "/x/y".toList [])
        routerSiblingFused).1.responseStatus = 500) ∧
    ((FindRouteForPath routerIdTwice
        (cleanPath (testRequest MethodGet "/a/b".toList []))).1.map
        (fun n => n.TemplateRoute) =
        some "\x7b\x7bid\x7d\x7d/\x7b\x7bid\x7d\x7d".toList ∧
      (Split "\x7b\x7bid\x7d\x7d/\x7b\x7bid\x7d\x7d".toList SlashChar)[0]? =
        some "\x7b\x7bid\x7d\x7d".toList ∧
      (Split (cleanPath (testRequest MethodGet "/a/b".toList [])) SlashChar)[0]? =
        some "a".toList ∧
      (CreateContext (testEnv true) (testRequest MethodGet "/a/b".toList [])
        routerIdTwice).1.Error = none ∧
      mapGet (CreateContext (testEnv true) (testRequest MethodGet "/a/b".toList [])
        routerIdTwice).1.URIParameters "id".toList ≠ some "a".toList) ∧
    ((FindRouteForPath routerFooId
        (cleanPath (testRequest MethodGet "/foo/bar/?awef=qwer".toList
          "awef=qwer".toList))).1.map
        (fun n => n.TemplateRoute) = some "foo/\x7b\x7bid\x7d\x7d".toList ∧
      (CreateContext testEnvRewriting
        (testRequest MethodGet "/foo/bar/?awef=qwer".toList "awef=qwer".toList)
        routerFooId).2 = [(0, Call.Authenticate true)] ∧
      (CreateContext testEnvRewriting
        (testRequest MethodGet "/foo/bar/?awef=qwer".toList "awef=qwer".toList)
        routerFooId).1.URIParameters = [] ∧
      (CreateContext testEnvRewriting
        (testRequest MethodGet "/foo/bar/?awef=qwer".toList "awef=qwer".toList)
        routerFooId).1.URLParameters = [] ∧
      (CreateContext testEnvRewriting
        (testRequest MethodGet "/foo/bar/?awef=qwer".toList "awef=qwer".toList)
        routerFooId).1.Error.isSome = true) := by
  decide

/-- C17, amended, with `Detemplate` as the spec describes it: for every
request whose query string decodes and whose cleaned path is not blank and
resolves to a route whose stored template has no malformed segment, and whose
controller, when asked to authenticate, leaves the URI parameters, the query
parameters and the error of the context as they are, `CreateContext` returns a
context that holds the query parameters parsed from the query string and, as
URI parameters, the map written from the template of that route and the
segments of the cleaned path at the same positions, with one entry for a name:
each placeholder `{{name}}` at position N of the template, when no other
segment of the template is a placeholder of that name, maps `name` to segment N
of the cleaned path, which holds no part of the query string. The context has
no error when the method is `OPTIONS` or `Authenticate` accepts. -/
theorem uri_parameters_positional (env : Env C) (request : Request) (router : Router C)
    (node : RouteNode C) (c : C)
    (hD : env.Detemplate = Detemplate)
    (hq : (env.ParseQuery request.URL.RawQuery).2 = false)
    (hr : FindRouteForPath router (cleanPath request) = (some node, none))
    (hc : node.Controller = some c)
    (hb : IsWhiteSpace (cleanPath request) = false)
    (hwf : (Split node.TemplateRoute SlashChar).any malformedSegment = false)
    (hA : request.Method ≠ MethodOptions →
      (env.Authenticate c (routedContext env request node)).1.URIParameters =
        (routedContext env request node).URIParameters ∧
      (env.Authenticate c (routedContext env request node)).1.URLParameters =
        (routedContext env request node).URLParameters ∧
      (env.Authenticate c (routedContext env request node)).1.Error =
        (routedContext env request node).Error) :
    (CreateContext env request router).1.URLParameters =
      (env.ParseQuery request.URL.RawQuery).1 ∧
    (CreateContext env request router).1.URIParameters =
      detemplateMap [] (Split node.TemplateRoute SlashChar)
        (Split (cleanPath request) SlashChar) ∧
    ((CreateContext env request router).1.URIParameters.map Prod.fst).Nodup ∧
    (∀ (N : Nat) (name value : Str),
      (Split node.TemplateRoute SlashChar)[N]? = some (DOpen ++ name ++ DClose) →
      name.all (fun ch => ch != '{' && ch != '}') = true →
      (Split (cleanPath request) SlashChar)[N]? = some value →
      (∀ (M : Nat) (t : Str), M ≠ N → (Split node.TemplateRoute SlashChar)[M]? = some t →
        placeholderName t ≠ some name) →
      mapGet (CreateContext env request router).1.URIParameters name = some value) ∧
    '?' ∉ cleanPath request ∧
    ((request.Method = MethodOptions ∨
        (env.Authenticate c (routedContext env request node)).2 = true) →
      (CreateContext env request router).1.Error = none) := by
  have hd : env.Detemplate node.TemplateRoute (cleanPath request) =
      (detemplateMap [] (Split node.TemplateRoute SlashChar)
        (Split (cleanPath request) SlashChar), false) := by
    rw [hD]
    simp only [Detemplate, hwf, Bool.false_eq_true, if_false]
  have hcond : ¬ (!IsWhiteSpace (cleanPath request) &&
      (env.Detemplate node.TemplateRoute (cleanPath request)).2) = true := by
    simp [hd]
  have hU : (routedContext env request node).URIParameters =
      detemplateMap [] (Split node.TemplateRoute SlashChar)
        (Split (cleanPath request) SlashChar) := by
    simp [routedContext, hb, hd]
  have hcreate : (CreateContext env request router).1 = routedContext env request node ∨
      (request.Method ≠ MethodOptions ∧
        (env.Authenticate c (routedContext env request node)).2 = true ∧
        (CreateContext env request router).1 =
          (env.Authenticate c (routedContext env request node)).1) ∨
      (request.Method ≠ MethodOptions ∧
        (env.Authenticate c (routedContext env request node)).2 = false ∧
        (CreateContext env request router).1 =
          SetError (env.Authenticate c (routedContext env request node)).1
            (some (NewRestError AuthenticationFailed InvalidCredentialsErrorMessage none))
            StatusUnauthorized) := by
    rw [CreateContext_found env request router node c hq hr hc, if_neg hcond]
    by_cases hm : MethodOptions ≠ request.Method
    · rw [if_pos hm]
      cases hres : (env.Authenticate c (routedContext env request node)).2 with
      | true => right; left; exact ⟨fun e => hm e.symm, rfl, by simp⟩
      | false => right; right; exact ⟨fun e => hm e.symm, rfl, by simp⟩
    · rw [if_neg hm]
      left; rfl
  have hfields : (CreateContext env request router).1.URLParameters =
        (env.ParseQuery request.URL.RawQuery).1 ∧
      (CreateContext env request router).1.URIParameters =
        detemplateMap [] (Split node.TemplateRoute SlashChar)
          (Split (cleanPath request) SlashChar) := by
    rcases hcreate with h | ⟨hm, _, h⟩ | ⟨hm, _, h⟩
    · rw [h]; exact ⟨rfl, hU⟩
    · rw [h, (hA hm).1, (hA hm).2.1]; exact ⟨rfl, hU⟩
    · rw [h]
      show (env.Authenticate c (routedContext env request node)).1.URLParameters = _ ∧
        (env.Authenticate c (routedContext env request node)).1.URIParameters = _
      rw [(hA hm).1, (hA hm).2.1]; exact ⟨rfl, hU⟩
  refine ⟨hfields.1, hfields.2, ?_, ?_, cleanPath_no_query request, ?_⟩
  · rw [hfields.2]
    exact nodup_keys_detemplateMap _ _ [] List.nodup_nil
  · intro N name value ht hn hp hother
    rw [hfields.2]
    exact mapGet_detemplateMap name value _ _ [] N _ ht (placeholderName_wellformed name hn) hp
      hother
  · intro hok
    rcases hcreate with h | ⟨hm, _, h⟩ | ⟨hm, hfalse, _⟩
    · rw [h]; rfl
    · rw [h, (hA hm).2.2]; rfl
    · rcases hok with hok | hok
      · exact absurd hok hm
      · rw [hok] at hfalse; exact absurd hfalse (by simp)

/-- Witness of C17: the route `foo/{{id}}` and the request
`GET /foo/bar/?awef=qwer`, as in `TestCreateContextQueryStringNotInParameters`:
`id` is `bar`, `awef` is `qwer`, no error. -/
theorem uri_parameters_positional_witness :
    (CreateContext (testEnv true)
      (testRequest MethodGet "/foo/bar/?awef=qwer".toList "awef=qwer".toList)
      routerFooId).1.Error = none ∧
    (CreateContext (testEnv true)
      (testRequest MethodGet "/foo/bar/?awef=qwer".toList "awef=qwer".toList)
      routerFooId).1.URLParameters = [("awef".toList, ["qwer".toList])] ∧
    mapGet (CreateContext (testEnv true)
      (testRequest MethodGet "/foo/bar/?awef=qwer".toList "awef=qwer".toList)
      routerFooId).1.URIParameters "id".toList = some "bar".toList :=
  have h := uri_parameters_positional (testEnv true)
    (testRequest MethodGet "/foo/bar/?awef=qwer".toList "awef=qwer".toList) routerFooId
    ((find routerFooId.RouteTree ["foo".toList, "bar".toList]).getD routerFooId.RouteTree) 0
    rfl (by decide) (by rfl) (by rfl) (by decide) (by decide) (fun _ => ⟨rfl, rfl, rfl⟩)
  ⟨h.2.2.2.2.2 (Or.inr rfl), h.1,
    h.2.2.2.1 1 "id".toList "bar".toList (by decide) (by decide) (by decide) (by
      intro M t hM ht
      match M, hM, ht with
      | 0, _, ht =>
        have e : t = "foo".toList := by
          have h0 : (Split ((find routerFooId.RouteTree ["foo".toList, "bar".toList]).getD
              routerFooId.RouteTree).TemplateRoute SlashChar)[0]? = some "foo".toList := by
            decide
          rw [h0] at ht
          exact (Option.some.inj ht).symm
        rw [e]
        decide
      | 1, hM, _ => exact absurd rfl hM
      | M + 2, _, ht =>
        have h2 : (Split ((find routerFooId.RouteTree ["foo".toList, "bar".toList]).getD
            routerFooId.RouteTree).TemplateRoute SlashChar)[M + 2]? = none := by
          have hs : Split ((find routerFooId.RouteTree ["foo".toList, "bar".toList]).getD
              routerFooId.RouteTree).TemplateRoute SlashChar =
              ["foo".toList, "\x7b\x7bid\x7d\x7d".toList] := by decide
          rw [hs]
          rfl
        rw [h2] at ht
        exact absurd ht (by simp))⟩

theorem invoke_of_controller (method : C → Context C → Context C) (call : Call)
    (created : Context C × List (C × Call)) (c : C)
    (hc : created.1.Route.bind (fun n => n.Controller) = some c) :
    invoke method call created = some (method c created.1, created.2 ++ [(c, call)]) := by
  simp [invoke, hc]

/-- C18: for every request and router, whatever the controllers do, when the
context built by `CreateContext` has no error and its route holds the
controller `c`, `ServeHTTP` calls exactly one verb method of `c` after the
calls of `CreateContext` (which are calls of `Authenticate`), the one named
after the verb of the request among `GET`, `POST`, `PUT`, `PATCH`, `DELETE`
and `OPTIONS`, and hands the context that the method leaves to
`CompleteRequest`; for every other verb it calls no method and hands over the
context with the error `method-not-allowed` and the status 405. -/
theorem dispatch_by_verb (env : Env C) (request : Request) (router : Router C) (c : C)
    (he : HasError (CreateContext env request router).1 = false)
    (hc : (CreateContext env request router).1.Route.bind (fun n => n.Controller) = some c) :
    (∀ x ∈ (CreateContext env request router).2, ∃ b : Bool, x.2 = Call.Authenticate b) ∧
    ((CreateContext env request router).1.Request.Method = MethodGet →
      dispatch env request router =
        some (env.Get c (CreateContext env request router).1,
          (CreateContext env request router).2 ++ [(c, Call.Get)])) ∧
    ((CreateContext env request router).1.Request.Method = MethodPost →
      dispatch env request router =
        some (env.Post c (CreateContext env request router).1,
          (CreateContext env request router).2 ++ [(c, Call.Post)])) ∧
    ((CreateContext env request router).1.Request.Method = MethodPut →
      dispatch env request router =
        some (env.Put c (CreateContext env request router).1,
          (CreateContext env request router).2 ++ [(c, Call.Put)])) ∧
    ((CreateContext env request router).1.Request.Method = MethodPatch →
      dispatch env request router =
        some (env.Patch c (CreateContext env request router).1,
          (CreateContext env request router).2 ++ [(c, Call.Patch)])) ∧
    ((CreateContext env request router).1.Request.Method = MethodDelete →
      dispatch env request router =
        some (env.Delete c (CreateContext env request router).1,
          (CreateContext env request router).2 ++ [(c, Call.Delete)])) ∧
    ((CreateContext env request router).1.Request.Method = MethodOptions →
      dispatch env request router =
        some (env.Options c (CreateContext env request router).1,
          (CreateContext env request router).2 ++ [(c, Call.Options)])) ∧
    ((CreateContext env request router).1.Request.Method ∉
        [MethodGet, MethodPost, MethodPut, MethodPatch, MethodDelete, MethodOptions] →
      dispatch env request router =
        some (SetError (CreateContext env request router).1
          (some (NewRestError MethodNotAllowed [] none)) StatusMethodNotAllowed,
          (CreateContext env request router).2)) := by
  have hcalls : ∀ x ∈ (CreateContext env request router).2,
      ∃ b : Bool, x.2 = Call.Authenticate b := by
    intro x hx
    rcases CreateContext_calls env request router with h0 | ⟨c2, b, h1⟩
    · rw [h0] at hx; simp at hx
    · rw [h1] at hx
      simp only [List.mem_singleton] at hx
      exact ⟨b, by rw [hx]⟩
  have hinv := fun (method : C → Context C → Context C) (call : Call) =>
    invoke_of_controller method call (CreateContext env request router) c hc
  refine ⟨hcalls, ?_, ?_, ?_, ?_, ?_, ?_, ?_⟩
  · intro hm
    simp only [dispatch, he, hm, hinv]
    simp
  · intro hm
    have h1 : MethodPost ≠ MethodGet := by decide
    simp only [dispatch, he, hm, hinv]
    simp [h1]
  · intro hm
    have h1 : MethodPut ≠ MethodGet := by decide
    have h2 : MethodPut ≠ MethodPost := by decide
    simp only [dispatch, he, hm, hinv]
    simp [h1, h2]
  · intro hm
    have h1 : MethodPatch ≠ MethodGet := by decide
    have h2 : MethodPatch ≠ MethodPost := by decide
    have h3 : MethodPatch ≠ MethodPut := by decide
    simp only [dispatch, he, hm, hinv]
    simp [h1, h2, h3]
  · intro hm
    have h1 : MethodDelete ≠ MethodGet := by decide
    have h2 : MethodDelete ≠ MethodPost := by decide
    have h3 : MethodDelete ≠ MethodPut := by decide
    have h4 : MethodDelete ≠ MethodPatch := by decide
    simp only [dispatch, he, hm, hinv]
    simp [h1, h2, h3, h4]
  · intro hm
    have h1 : MethodOptions ≠ MethodGet := by decide
    have h2 : MethodOptions ≠ MethodPost := by decide
    have h3 : MethodOptions ≠ MethodPut := by decide
    have h4 : MethodOptions ≠ MethodPatch := by decide
    have h5 : MethodOptions ≠ MethodDelete := by decide
    simp only [dispatch, he, hm, hinv]
    simp [h1, h2, h3, h4, h5]
  · intro hm
    simp only [List.mem_cons, List.mem_singleton, List.not_mem_nil, or_false, not_or] at hm
    obtain ⟨h1, h2, h3, h4, h5, h6⟩ := hm
    simp [dispatch, he, h1, h2, h3, h4, h5, h6]

/-- Witness of C18: on the router with only a root controller the request
`GET /` calls the `Get` method of the root controller and the request `foo /`
calls none and gets the status 405, as in `TestServeHTTP`. -/
theorem dispatch_by_verb_witness :
    dispatch (testEnv true) (testRequest MethodGet "/".toList []) routerRootOnly =
      some ((testEnv true).Get 0
        (CreateContext (testEnv true) (testRequest MethodGet "/".toList []) routerRootOnly).1,
        (CreateContext (testEnv true) (testRequest MethodGet "/".toList []) routerRootOnly).2
          ++ [(0, Call.Get)]) ∧
    dispatch (testEnv true) (testRequest "foo".toList "/".toList []) routerRootOnly =
      some (SetError
        (CreateContext (testEnv true) (testRequest "foo".toList "/".toList [])
          routerRootOnly).1
        (some (NewRestError MethodNotAllowed [] none)) StatusMethodNotAllowed,
        (CreateContext (testEnv true) (testRequest "foo".toList "/".toList [])
          routerRootOnly).2) :=
  ⟨(dispatch_by_verb (testEnv true) (testRequest MethodGet "/".toList []) routerRootOnly 0
      (by decide) (by decide)).2.1 (by decide),
    (dispatch_by_verb (testEnv true) (testRequest "foo".toList "/".toList []) routerRootOnly 0
      (by decide) (by decide)).2.2.2.2.2.2.2 (by decide)⟩

/-! ## Properties of `Read` -/

/-- C19: for every context whose body has not been read and whose request
declares a content length of zero or less, `Read` returns the `nil` body with
the `NoContentError`, so not an empty body without error, logs nothing, and
leaves the context as it was: the body cache stays unset. -/
theorem Read_no_content (context : Context C) (h1 : context.bodyRead = false)
    (h2 : context.Request.ContentLength ≤ 0) :
    (Read context).body = none ∧
    (Read context).err = some (ReadError.NoContent [] []) ∧
    ¬ ((Read context).body = some [] ∧ (Read context).err = none) ∧
    (Read context).context = context ∧
    (Read context).context.bodyRead = false ∧
    (Read context).log = [] := by
  simp [Read, h1, h2]

/-- Witness of C19: the context of `TestReadEmpty`, with the request
`http.Request{}`. -/
theorem Read_no_content_witness :
    (Read (emptyContext : Context Nat)).body = none ∧
    (Read (emptyContext : Context Nat)).err = some (ReadError.NoContent [] []) ∧
    ¬ ((Read (emptyContext : Context Nat)).body = some [] ∧
      (Read (emptyContext : Context Nat)).err = none) ∧
    (Read (emptyContext : Context Nat)).context = emptyContext ∧
    (Read (emptyContext : Context Nat)).context.bodyRead = false ∧
    (Read (emptyContext : Context Nat)).log = [] :=
  Read_no_content emptyContext rfl (by decide)

/-- C20, as the code has it: for every context whose body has not been read
and whose body stream ends before the declared content length is reached,
`Read` returns the bytes read, filled with zero bytes up to the declared
length, and caches them; when at least one byte was read it logs the mismatch
and returns the error `io.ErrUnexpectedEOF` to the caller, and when no byte was
read it logs nothing and returns no error; a later `Read` returns the cached
body without error. -/
theorem short_read (context : Context C) (h1 : context.bodyRead = false)
    (h2 : (context.Request.Body.data.length : Int) < context.Request.ContentLength)
    (h3 : context.Request.Body.stop = IOError.EOF) :
    (Read context).body =
      some (context.Request.Body.data ++
        List.replicate (context.Request.ContentLength.toNat - context.Request.Body.data.length)
          (Char.ofNat 0)) ∧
    (Read context).context.Body =
      context.Request.Body.data ++
        List.replicate (context.Request.ContentLength.toNat - context.Request.Body.data.length)
          (Char.ofNat 0) ∧
    (Read context).context.bodyRead = true ∧
    (context.Request.Body.data ≠ [] →
      (Read context).err = some (ReadError.Reader IOError.ErrUnexpectedEOF) ∧
      (Read context).log =
        [{ URI := context.URI, RemoteAddr := context.Request.RemoteAddr,
           first := context.Request.Body.data.length,
           second := context.Request.ContentLength }]) ∧
    (context.Request.Body.data = [] →
      (Read context).err = none ∧ (Read context).log = []) ∧
    (Read (Read context).context).body = (Read context).body ∧
    (Read (Read context).context).err = none := by
  have hpos : ¬ context.Request.ContentLength ≤ 0 := by
    have : (0 : Int) ≤ (context.Request.Body.data.length : Int) := Int.natCast_nonneg _
    omega
  have hlen : ¬ context.Request.ContentLength.toNat ≤ context.Request.Body.data.length := by
    omega
  have hfull : ReadFull context.Request.Body context.Request.ContentLength.toNat =
      { buf := context.Request.Body.data ++
          List.replicate
            (context.Request.ContentLength.toNat - context.Request.Body.data.length)
            (Char.ofNat 0),
        n := context.Request.Body.data.length,
        err := some (if context.Request.Body.data ≠ [] then IOError.ErrUnexpectedEOF
          else IOError.EOF),
        rest := { context.Request.Body with data := [] } } := by
    simp only [ReadFull, hlen, if_false, h3, true_and]
  refine ⟨?_, ?_, ?_, ?_, ?_, ?_, ?_⟩
  · simp [Read, h1, hpos, hfull]
  · simp [Read, h1, hpos, hfull]
  · simp [Read, h1, hpos, hfull]
  · intro hne
    simp [Read, h1, hpos, hfull, hne]
  · intro hnil
    simp [Read, h1, hpos, hfull, hnil]
  · simp [Read, h1, hpos, hfull]
  · simp [Read, h1, hpos, hfull]

/-- Witness of C20: 5 bytes declared, the 3 bytes `foo` delivered. -/
theorem short_read_witness :
    (Read contextShortBody).err = some (ReadError.Reader IOError.ErrUnexpectedEOF) ∧
    (Read contextShortBody).log =
      [{ URI := contextShortBody.URI, RemoteAddr := contextShortBody.Request.RemoteAddr,
         first := contextShortBody.Request.Body.data.length,
         second := contextShortBody.Request.ContentLength }] :=
  (short_read contextShortBody rfl (by decide) rfl).2.2.2.1 (by decide)

/-- Counterexample to C20 as stated: with 5 bytes declared and the 3 bytes
`foo` delivered before the end of the stream, `Read` logs the mismatch and
returns the body with the error `io.ErrUnexpectedEOF`; with 5 bytes declared
and none delivered, `Read` returns no error and logs nothing. -/
theorem short_read_counterexample :
    ((Read contextShortBody).body =
        some ("foo".toList ++ [Char.ofNat 0, Char.ofNat 0]) ∧
      (Read contextShortBody).err = some (ReadError.Reader IOError.ErrUnexpectedEOF) ∧
      (Read contextShortBody).log.length = 1) ∧
    ((Read contextNoBody).err = none ∧ (Read contextNoBody).log = []) := by
  decide

/-- C21: for every context whose body has not been read and whose request
declares a positive content length, the first `Read` returns bytes `b`, and
after any number of later calls of `Read` the next `Read` returns `b` again
without error, writes no log line and leaves the context as the first `Read`
left it, the request stream included: the stream is not read again. -/
theorem body_read_once (context : Context C) (h1 : context.bodyRead = false)
    (h2 : 0 < context.Request.ContentLength) (n : Nat) :
    ∃ b : Str, (Read context).body = some b ∧
      Read ((fun c => (Read c).context)^[n] (Read context).context) =
        { context := (Read context).context, body := some b, err := none, log := [] } ∧
      (Read ((fun c => (Read c).context)^[n] (Read context).context)).context.Request.Body =
        (Read context).context.Request.Body := by
  have hpos : ¬ context.Request.ContentLength ≤ 0 := by omega
  have hread : (Read context).context.bodyRead = true := by simp [Read, h1, hpos]
  have hbody : (Read context).body = some (Read context).context.Body := by
    simp [Read, h1, hpos]
  have hfix : ∀ k : Nat,
      (fun c => (Read c).context)^[k] (Read context).context = (Read context).context := by
    intro k
    induction k with
    | zero => rfl
    | succ k ih =>
      rw [Function.iterate_succ_apply', ih]
      show (Read (Read context).context).context = _
      rw [Read_cached _ hread]
  refine ⟨(Read context).context.Body, hbody, ?_, ?_⟩
  · rw [hfix n, Read_cached _ hread]
  · rw [hfix n, Read_cached _ hread]

/-- Witness of C21: the context of `TestRead`; the
third `Read` after the first returns the bytes of the first. -/
theorem body_read_once_witness :
    ∃ b : Str, (Read contextFoo).body = some b ∧
      Read ((fun c => (Read c).context)^[2] (Read contextFoo).context) =
        { context := (Read contextFoo).context, body := some b, err := none, log := [] } ∧
      (Read ((fun c => (Read c).context)^[2]
        (Read contextFoo).context)).context.Request.Body =
        (Read contextFoo).context.Request.Body :=
  body_read_once contextFoo rfl (by decide) 2

/-! ## Properties of `AddError` -/

/-- C30: `AddError` on a context without an error leaves the context with a
`RestError` of code `validation-error`, empty message and details equal to
exactly the one field error, with status 400; on a context that already has an
error it appends the field error to the end of the details of that error and
keeps its code, its message and the status. In both cases the model slot and
the other fields stay as they were. -/
theorem AddError_spec (context : Context C) (err : FieldError) :
    (context.Error = none →
      AddError context err =
        { context with
          Error := some { Code := ValidationError, Message := [],
                          Details := some [some (Any.fieldError err)] },
          responseStatus := StatusBadRequest } ∧
      Status (AddError context err) = 400) ∧
    (∀ e : RestError, context.Error = some e →
      AddError context err =
        { context with
          Error := some { Code := e.Code, Message := e.Message,
                          Details := some (e.Details.getD [] ++ [some (Any.fieldError err)]) } } ∧
      Status (AddError context err) = Status context) := by
  constructor
  · intro h
    simp [AddError, HasError, h, SetError, NewRestError, AddDetail, Status, StatusBadRequest]
  · intro e h
    simp [AddError, HasError, h, AddDetail, Status]

/-- Witness of C30: the fresh context and the field error of `TestAddError`,
and the context of `TestSetError` with the same field error. -/
theorem AddError_spec_witness :
    (AddError (emptyContext : Context Nat)
        { Code := CannotBeBlank, Message := [], Field := "name".toList }).Error =
      some { Code := ValidationError, Message := [],
             Details := some [some (Any.fieldError
               { Code := CannotBeBlank, Message := [], Field := "name".toList })] } ∧
    Status (AddError contextWithError
        { Code := CannotBeBlank, Message := [], Field := "name".toList }) =
      Status contextWithError := by
  have h1 := (AddError_spec (emptyContext : Context Nat)
    { Code := CannotBeBlank, Message := [], Field := "name".toList }).1 rfl
  have h2 := (AddError_spec contextWithError
    { Code := CannotBeBlank, Message := [], Field := "name".toList }).2
      (NewRestError MethodNotAllowed [] none) rfl
  exact ⟨by rw [h1.1], h2.2⟩
/-! ## Properties of the registration log and of `AddController` -/

/-- C28, as the code has it: `AddRoute` appends the route string, with the
white space around it trimmed, to the log `RegisteredRoutes` exactly when the
route passes the shape check, that is when the call returns with success or
with a conflict error; on a format error the router, and so the log, is left
as it was. The error of the call is one of these two kinds and is returned to
the caller. -/
theorem AddRoute_log (router : Router C) (route : Str) (c : Option C) :
    ((AddRoute router route c).2 = none →
      (AddRoute router route c).1.RegisteredRoutes =
        router.RegisteredRoutes ++ [TrimSpace route]) ∧
    (∀ template : Str,
      (AddRoute router route c).2 = some (RouteError.conflict (TrimSpace route) template) →
      (AddRoute router route c).1.RegisteredRoutes =
        router.RegisteredRoutes ++ [TrimSpace route]) ∧
    ((AddRoute router route c).2 = some (RouteError.invalidFormat (TrimSpace route)) →
      (AddRoute router route c).1 = router) ∧
    ((AddRoute router route c).2 = none ∨
      (∃ template : Str,
        (AddRoute router route c).2 = some (RouteError.conflict (TrimSpace route) template)) ∨
      (AddRoute router route c).2 = some (RouteError.invalidFormat (TrimSpace route))) := by
  cases hv : validRoute route with
  | false => simp [AddRoute_invalid router route c hv]
  | true =>
    have he := AddRoute_error router route c
    rw [hv] at he
    simp only [if_true] at he
    have hl : (AddRoute router route c).1.RegisteredRoutes =
        router.RegisteredRoutes ++ [TrimSpace route] := by
      rw [AddRoute_valid router route c hv]
    refine ⟨fun _ => hl, fun _ _ => hl, ?_, ?_⟩
    · intro h
      rw [he] at h
      split at h <;> simp at h
    · rw [he]
      split
      · exact Or.inl rfl
      · exact Or.inr (Or.inl ⟨_, rfl⟩)

/-- Witness of C28: on the router with the routes `a/b/c`, `a/{{w}}/c` and
`a/x/y`, a second registration of `a/b/c` returns a conflict error and is
recorded in the log. -/
theorem AddRoute_log_witness :
    (AddRoute routerExactWildOther "a/b/c".toList (some 7)).1.RegisteredRoutes =
      routerExactWildOther.RegisteredRoutes ++ [TrimSpace "a/b/c".toList] :=
  (AddRoute_log routerExactWildOther "a/b/c".toList (some 7)).2.1 "a/b/c".toList (by decide)

/-- Counterexample to C28 as stated: on a fresh router the route `/route`
gives a format error and the log stays empty, so the route is not appended;
and the route ` foo ` is recorded as `foo`, not as the string passed. -/
theorem AddRoute_log_counterexample :
    ((AddRoute (CreateRouter (none : Option Nat)) "/route".toList (some 1)).2 =
        some (RouteError.invalidFormat "/route".toList) ∧
      (AddRoute (CreateRouter (none : Option Nat)) "/route".toList (some 1)).1.RegisteredRoutes
        = [] ∧
      (AddRoute (CreateRouter (none : Option Nat)) "/route".toList (some 1)).1.RegisteredRoutes
        ≠ (CreateRouter (none : Option Nat)).RegisteredRoutes ++ ["/route".toList]) ∧
    ((AddRoute (CreateRouter (none : Option Nat)) " foo ".toList (some 1)).2 = none ∧
      (AddRoute (CreateRouter (none : Option Nat)) " foo ".toList (some 1)).1.RegisteredRoutes
        = ["foo".toList] ∧
      (AddRoute (CreateRouter (none : Option Nat)) " foo ".toList (some 1)).1.RegisteredRoutes
        ≠ (CreateRouter (none : Option Nat)).RegisteredRoutes ++ [" foo ".toList]) := by
  decide

theorem addControllerRoutes_append (c : C) (pre rest : List Str) :
    ∀ router : Router C,
      (∀ e ∈ AddRoutesErrors router (pre.map (fun r => (r, some c))), e = none) →
      addControllerRoutes router c (pre ++ rest) =
        addControllerRoutes (AddRoutes router (pre.map (fun r => (r, some c)))) c rest := by
  induction pre with
  | nil => intro router _; rfl
  | cons p pre ih =>
    intro router h
    simp only [List.map_cons, AddRoutesErrors, List.mem_cons, forall_eq_or_imp] at h
    obtain ⟨h1, h2⟩ := h
    simp only [List.cons_append, addControllerRoutes, List.map_cons, AddRoutes]
    rw [← ih _ h2]
    cases hr : AddRoute router p (some c) with
    | mk r e =>
      rw [hr] at h1
      simp only at h1
      subst h1
      rfl

theorem boundTo_AddRoutes_of_ok (c : C) (pre : List Str) :
    ∀ router : Router C,
      (∀ e ∈ AddRoutesErrors router (pre.map (fun r => (r, some c))), e = none) →
      ∀ p ∈ pre, boundTo (AddRoutes router (pre.map (fun r => (r, some c)))) p c := by
  induction pre with
  | nil => intro _ _ p hp; simp at hp
  | cons q pre ih =>
    intro router h p hp
    simp only [List.map_cons, AddRoutesErrors, List.mem_cons, forall_eq_or_imp] at h
    obtain ⟨h1, h2⟩ := h
    simp only [List.map_cons, AddRoutes]
    rcases List.mem_cons.mp hp with rfl | hin
    · exact boundTo_AddRoutes _ _ _ _ (boundTo_of_AddRoute router p c h1)
    · exact ih _ h2 p hin

/-- C29: `AddController` adds the routes that `GetRoutes` returns, in order,
each with the controller. When every `AddRoute` succeeds, which includes the
empty route list, it returns `nil`, the router is the one after all the calls,
and every route is bound to the controller. When the routes before some route
succeed and that route fails, it returns the error of that route, the router
is the one right after the failing call, so no later route is attempted, the
failing call leaves the route tree as the routes before it made it, and every
route before it is still bound to the controller. -/
theorem AddController_first_failure (GetRoutes : C → List Str) (router : Router C)
    (controller : C) :
    ((∀ e ∈ AddRoutesErrors router
          ((GetRoutes controller).map (fun r => (r, some controller))), e = none) →
      AddController GetRoutes router controller =
        (AddRoutes router ((GetRoutes controller).map (fun r => (r, some controller))), none) ∧
      ∀ route ∈ GetRoutes controller,
        boundTo (AddController GetRoutes router controller).1 route controller) ∧
    (GetRoutes controller = [] → AddController GetRoutes router controller = (router, none)) ∧
    (∀ (pre post : List Str) (route : Str) (err : RouteError),
      GetRoutes controller = pre ++ route :: post →
      (∀ e ∈ AddRoutesErrors router (pre.map (fun r => (r, some controller))), e = none) →
      (AddRoute (AddRoutes router (pre.map (fun r => (r, some controller)))) route
        (some controller)).2 = some err →
      AddController GetRoutes router controller =
        ((AddRoute (AddRoutes router (pre.map (fun r => (r, some controller)))) route
          (some controller)).1, some err) ∧
      (AddController GetRoutes router controller).1.RouteTree =
        (AddRoutes router (pre.map (fun r => (r, some controller)))).RouteTree ∧
      ∀ p ∈ pre, boundTo (AddController GetRoutes router controller).1 p controller) := by
  refine ⟨?_, ?_, ?_⟩
  · intro h
    have e1 : AddController GetRoutes router controller =
        (AddRoutes router ((GetRoutes controller).map (fun r => (r, some controller))),
          none) := by
      have := addControllerRoutes_append controller (GetRoutes controller) [] router h
      rw [List.append_nil] at this
      unfold AddController
      rw [this]
      rfl
    refine ⟨e1, ?_⟩
    rw [e1]
    exact boundTo_AddRoutes_of_ok controller _ router h
  · intro h
    unfold AddController
    rw [h]
    rfl
  · intro pre post route err hroutes hpre hfail
    have e1 : AddController GetRoutes router controller =
        ((AddRoute (AddRoutes router (pre.map (fun r => (r, some controller)))) route
          (some controller)).1, some err) := by
      unfold AddController
      rw [hroutes, addControllerRoutes_append controller pre _ router hpre]
      simp only [addControllerRoutes]
      cases hr : AddRoute (AddRoutes router (pre.map (fun r => (r, some controller)))) route
          (some controller) with
      | mk r e =>
        rw [hr] at hfail
        simp only at hfail
        subst hfail
        rfl
    have e2 := AddRoute_tree_of_error
      (AddRoutes router (pre.map (fun r => (r, some controller)))) route (some controller)
      (by rw [hfail]; simp)
    refine ⟨e1, ?_, ?_⟩
    · rw [e1]; exact e2
    · intro p hp
      have hb := boundTo_AddRoutes_of_ok controller pre router hpre p hp
      unfold boundTo at hb ⊢
      rw [e1]
      show controllerAt (AddRoute _ route (some controller)).1.RouteTree _ = _
      rw [e2]
      exact hb

/-- Witness of C29: the routes `a`, `b//c`, `d` on a fresh router: the error
is the format error of `b//c`, and `a` stays bound. -/
theorem AddController_first_failure_witness :
    (AddController routesWithBadSecond (CreateRouter none) 1).2 =
      some (RouteError.invalidFormat "b//c".toList) ∧
    ∀ p ∈ ["a".toList], boundTo (AddController routesWithBadSecond (CreateRouter none) 1).1 p 1 :=
  have h := (AddController_first_failure routesWithBadSecond (CreateRouter none) 1).2.2
    ["a".toList] ["d".toList] "b//c".toList (RouteError.invalidFormat "b//c".toList)
    rfl (by decide) (by decide)
  ⟨by rw [h.1], h.2.2⟩

/-! ## Properties of `CompleteRequest` -/

/-- C25: when the response header `Content-Type` is not set, `CompleteRequest`
does not panic, adds the content type `application/json`, and writes the
status `Status()` of the context and a JSON body: the encoding `b` of the
error whenever an error is set and can be encoded, whatever the model slot
holds, and the encoding `b` of the model when no error is set and the model
can be encoded. The other fields of the context stay as they were. -/
theorem CompleteRequest_json (enc : Encoder) (context : Context C)
    (h : Get context.Response.header contentTypeHeader = []) :
    (∀ (e : RestError) (b : Str), context.Error = some e → enc.MarshalError e = some b →
      CompleteRequest enc context =
        some ({ context with
                Response :=
                  { header := valuesAdd context.Response.header contentTypeHeader contentTypeJSON,
                    statuses := context.Response.statuses ++ [Status context],
                    written := context.Response.written ++ [b] } },
              accessLog context (some context.Body))) ∧
    (∀ b : Str, context.Error = none → enc.Marshal context.Model = some b →
      CompleteRequest enc context =
        some ({ context with
                Response :=
                  { header := valuesAdd context.Response.header contentTypeHeader contentTypeJSON,
                    statuses := context.Response.statuses ++ [Status context],
                    written := context.Response.written ++ [b] } },
              accessLog context (some context.Body))) := by
  constructor
  · intro e b he hb
    simp only [CompleteRequest, h, if_true, completeRequestJSON, he, hb, Status,
      ResponseWriter.Add, ResponseWriter.WriteHeader, ResponseWriter.Write, accessLog]
  · intro b he hb
    simp only [CompleteRequest, h, if_true, completeRequestJSON, he, hb, Status,
      ResponseWriter.Add, ResponseWriter.WriteHeader, ResponseWriter.Write, accessLog]

/-- Witness of C25: the model `OK` with status 200 gives the body `"OK"` and
the status 200, as in `TestCompleteRequestResponse`; the error `testing` with
status 418 gives the encoding of that error and the status 418, as in
`TestCompleteRequestError`. -/
theorem CompleteRequest_json_witness :
    (CompleteRequest testEncoder contextOK).map
        (fun done => (done.1.Response.written, done.1.Response.statuses)) =
      some ([[Quote, 'O', 'K', Quote]], [200]) ∧
    (CompleteRequest testEncoder contextTeapot).map
        (fun done => (done.1.Response.written, done.1.Response.statuses)) =
      some ([(marshalRestError (NewRestError "testing".toList [] none)).getD []], [418]) := by
  have h1 := (CompleteRequest_json testEncoder contextOK (by decide)).2
    [Quote, 'O', 'K', Quote] (by decide) (by decide)
  have h2 := (CompleteRequest_json testEncoder contextTeapot (by decide)).1
    (NewRestError "testing".toList [] none)
    ((marshalRestError (NewRestError "testing".toList [] none)).getD []) (by decide) (by decide)
  rw [h1, h2]
  exact ⟨by decide, by decide⟩

/-- C26: when the response header `Content-Type` is not set and the encoding
of the response fails, be it of the error that is set or, with no error set,
of the model, `CompleteRequest` writes the status 500, whatever status was set
before, and as the body the encoding of the `RestError` with code
`system-error`, empty message and `nil` details; that error and the status 500
are then the error and the status of the context. -/
theorem CompleteRequest_marshal_failure (enc : Encoder) (context : Context C)
    (h : Get context.Response.header contentTypeHeader = [])
    (hfail : (∃ e : RestError, context.Error = some e ∧ enc.MarshalError e = none) ∨
      (context.Error = none ∧ enc.Marshal context.Model = none)) :
    systemError = { Code := "system-error".toList, Message := [], Details := none } ∧
    ∃ (done : Context C) (log : List AccessLine),
      CompleteRequest enc context = some (done, log) ∧
      (∀ b : Str, enc.MarshalError systemError = some b →
        done.Response.written = context.Response.written ++ [b]) ∧
      done.Response.statuses = context.Response.statuses ++ [500] ∧
      done.Error = some systemError ∧
      Status done = 500 ∧
      done.Model = context.Model := by
  refine ⟨rfl, ?_⟩
  have hc : CompleteRequest enc context =
      some ((completeRequestJSON enc context).1, (completeRequestJSON enc context).2) := by
    simp only [CompleteRequest, h, if_true]
  refine ⟨_, _, hc, ?_⟩
  rcases hfail with ⟨e, he, hm⟩ | ⟨he, hm⟩
  · refine ⟨?_, ?_, ?_, ?_, ?_⟩
    · intro b hb
      simp [completeRequestJSON, he, hm, hb, SetError, ResponseWriter.Add,
        ResponseWriter.WriteHeader, ResponseWriter.Write]
    all_goals simp [completeRequestJSON, he, hm, SetError, Status, StatusInternalServerError,
      ResponseWriter.Add, ResponseWriter.WriteHeader, ResponseWriter.Write]
  · refine ⟨?_, ?_, ?_, ?_, ?_⟩
    · intro b hb
      simp [completeRequestJSON, he, hm, hb, SetError, ResponseWriter.Add,
        ResponseWriter.WriteHeader, ResponseWriter.Write]
    all_goals simp [completeRequestJSON, he, hm, SetError, Status, StatusInternalServerError,
      ResponseWriter.Add, ResponseWriter.WriteHeader, ResponseWriter.Write]

/-- Witness of C26: the error with the detail `math.Inf(1)` and status 418 of
`TestCompleteRequestErrorCannotMarshall`, with the encoder of the examples: the
body written is the encoding of the `system-error` and the status is 500. -/
theorem CompleteRequest_marshal_failure_witness :
    ∃ (done : Context Nat) (log : List AccessLine),
      CompleteRequest testEncoder contextTeapotInf = some (done, log) ∧
      done.Response.written =
        ["\x7b\"code\":\"system-error\",\"message\":\"\",\"details\":null\x7d".toList] ∧
      done.Response.statuses = [500] ∧
      done.Error = some systemError := by
  obtain ⟨done, log, h1, h2, h3, h4, _⟩ :=
    (CompleteRequest_marshal_failure testEncoder contextTeapotInf (by decide)
      (Or.inl ⟨AddDetail (NewRestError "testing".toList [] none) (some (Any.other 0)),
        by decide, by decide⟩)).2
  exact ⟨done, log, h1, h2 _ (by decide), h3, h4⟩

/-- C27: when the response header `Content-Type` is set, `CompleteRequest`
leaves the header as it is and writes the status of the context and a body
without JSON encoding: the message of the error when an error is set, and
otherwise the model when it is a string, or the empty body when the model is
`nil`. With no error and a model that is not a string it panics. -/
theorem CompleteRequest_plain (enc : Encoder) (context : Context C)
    (h : Get context.Response.header contentTypeHeader ≠ []) :
    (∀ e : RestError, context.Error = some e →
      CompleteRequest enc context =
        some ({ context with
                Response :=
                  { header := context.Response.header,
                    statuses := context.Response.statuses ++ [Status context],
                    written := context.Response.written ++ [e.Message] } },
              accessLog context none)) ∧
    (∀ s : Str, context.Error = none → context.Model = some (Any.str s) →
      CompleteRequest enc context =
        some ({ context with
                Response :=
                  { header := context.Response.header,
                    statuses := context.Response.statuses ++ [Status context],
                    written := context.Response.written ++ [s] } },
              accessLog context none)) ∧
    (context.Error = none → context.Model = none →
      CompleteRequest enc context =
        some ({ context with
                Response :=
                  { header := context.Response.header,
                    statuses := context.Response.statuses ++ [Status context],
                    written := context.Response.written ++ [[]] } },
              accessLog context none)) ∧
    (∀ m : Any, context.Error = none → context.Model = some m → (∀ s : Str, m ≠ Any.str s) →
      CompleteRequest enc context = none) := by
  refine ⟨?_, ?_, ?_, ?_⟩
  · intro e he
    simp only [CompleteRequest, h, if_false, plainBody, he, Option.map_some', Status,
      ResponseWriter.WriteHeader, ResponseWriter.Write]
  · intro s he hm
    simp only [CompleteRequest, h, if_false, plainBody, he, hm, Option.map_some', Status,
      ResponseWriter.WriteHeader, ResponseWriter.Write]
  · intro he hm
    simp only [CompleteRequest, h, if_false, plainBody, he, hm, Option.map_some', Status,
      ResponseWriter.WriteHeader, ResponseWriter.Write]
  · intro m he hm hs
    cases m with
    | str s => exact absurd rfl (hs s)
    | fieldError e => simp only [CompleteRequest, h, if_false, plainBody, he, hm, Option.map_none']
    | other id => simp only [CompleteRequest, h, if_false, plainBody, he, hm, Option.map_none']

/-- Witness of C27: with the content type `text/html` set, a string model is
written as it is with status 200, the message `no` of an error set after it is
written with status 418, and without a model the empty body is written. -/
theorem CompleteRequest_plain_witness :
    (CompleteRequest testEncoder contextHTML).map
        (fun done => (done.1.Response.written, done.1.Response.statuses)) =
      some (["<html></html>".toList], [200]) ∧
    (CompleteRequest testEncoder contextHTMLError).map
        (fun done => (done.1.Response.written, done.1.Response.statuses)) =
      some (["no".toList], [418]) ∧
    (CompleteRequest testEncoder contextHTMLEmpty).map
        (fun done => (done.1.Response.written, done.1.Response.statuses)) =
      some ([[]], [204]) := by
  have h1 := (CompleteRequest_plain testEncoder contextHTML (by decide)).2.1
    "<html></html>".toList (by decide) (by decide)
  have h2 := (CompleteRequest_plain testEncoder contextHTMLError (by decide)).1
    (NewRestError "testing".toList "no".toList none) (by decide)
  have h3 := (CompleteRequest_plain testEncoder contextHTMLEmpty (by decide)).2.2.1
    (by decide) (by decide)
  rw [h1, h2, h3]
  exact ⟨by decide, by decide, by decide⟩

/-! ## Properties of `ReadObject` -/

theorem ReadObject_of_read_error (dec : Decoder T) (context : Context C) (target : T)
    (err : ReadError) (h : (Read context).err = some err) :
    ReadObject dec context target =
      { context := (Read context).context, target := target,
        err := some (ObjectError.Read err), log := (Read context).log } := by
  simp only [ReadObject, h]

/-- C22: when `Read` gives the body without error and `ReadObject` then fails,
it returns the error and the context carries a `RestError` of code
`validation-error`, with the text of the returned error as message, and status
406. The failure is one of these: `mime.ParseMediaType` fails on the header
`Content-Type`, which it does when the header is missing; the media type is
neither `application/x-www-form-urlencoded` nor `application/json`; decoding
the form body fails; decoding the JSON body fails. Each of them makes
`ReadObject` fail with its error, and when `ReadObject` does not fail it leaves
the context as `Read` left it. -/
theorem ReadObject_failure (dec : Decoder T) (context : Context C) (target : T)
    (hread : (Read context).err = none) :
    (∀ e : ObjectError, (ReadObject dec context target).err = some e →
      ∃ text : Str, e = ObjectError.Other text ∧
        (ReadObject dec context target).context =
          SetError (Read context).context (some (NewRestError ValidationError text none))
            StatusNotAcceptable ∧
        (ReadObject dec context target).context.Error =
          some { Code := ValidationError, Message := text, Details := none } ∧
        HasError (ReadObject dec context target).context = true ∧
        Status (ReadObject dec context target).context = 406) ∧
    ((ReadObject dec context target).err = none →
      (ReadObject dec context target).context = (Read context).context) ∧
    (∀ text : Str,
      (dec.ParseMediaType (Get (Read context).context.Request.Header contentTypeHeader)).2 =
        some text →
      (ReadObject dec context target).err = some (ObjectError.Other text)) ∧
    (∀ contentType : Str,
      dec.ParseMediaType (Get (Read context).context.Request.Header contentTypeHeader) =
        (contentType, none) →
      (contentType ≠ contentTypeForm → contentType ≠ contentTypeJSON →
        (ReadObject dec context target).err =
          some (ObjectError.Other (unsupportedMessage contentType))) ∧
      (∀ text : Str, contentType = contentTypeForm →
        (readForm dec ((Read context).body.getD []) target).2 = some text →
        (ReadObject dec context target).err = some (ObjectError.Other text)) ∧
      (∀ text : Str, contentType = contentTypeJSON →
        (readJSON dec ((Read context).body.getD []) target).2 = some text →
        (ReadObject dec context target).err = some (ObjectError.Other text))) := by
  refine ⟨?_, ?_, ?_, ?_⟩
  · intro e he
    simp only [ReadObject, hread] at he ⊢
    split at he
    · rename_i text hp
      simp only [Option.some.injEq] at he
      refine ⟨text, he.symm, ?_⟩
      simp [hp, SetError, NewRestError, HasError, Status, StatusNotAcceptable]
    · rename_i hp
      split at he
      · rename_i text hd
        simp only [Option.some.injEq] at he
        refine ⟨text, he.symm, ?_⟩
        simp [hp, hd, SetError, NewRestError, HasError, Status, StatusNotAcceptable]
      · simp at he
  · intro he
    simp only [ReadObject, hread] at he ⊢
    split at he
    · simp at he
    · rename_i hp
      split at he
      · simp at he
      · rename_i hd
        simp [hp, hd]
  · intro text hp
    simp only [ReadObject, hread, hp]
  · intro contentType hp
    refine ⟨?_, ?_, ?_⟩
    · intro h1 h2
      simp only [ReadObject, hread, hp, h1, h2, if_false]
    · intro text h1 hd
      subst h1
      simp only [ReadObject, hread, hp, if_true, hd]
    · intro text h1 hd
      subst h1
      have hne : contentTypeJSON ≠ contentTypeForm := by decide
      simp only [ReadObject, hread, hp, hne, if_false, if_true, hd]

/-- Witness of C22: the request of `TestReadObject_withJSON_BadInput`, with the
body `asdf` and no header `Content-Type`; the same body with the content types
`text/plain` and `application/json`; and the form body `%zz`. -/
theorem ReadObject_failure_witness :
    (∃ text : Str, ObjectError.Other "mime: no media type".toList = ObjectError.Other text ∧
      (ReadObject testDecoder (contextWithBody [] "asdf".toList) emptyTestModel3).context =
        SetError (Read (contextWithBody [] "asdf".toList)).context
          (some (NewRestError ValidationError text none)) StatusNotAcceptable ∧
      (ReadObject testDecoder (contextWithBody [] "asdf".toList) emptyTestModel3).context.Error =
        some { Code := ValidationError, Message := text, Details := none } ∧
      HasError (ReadObject testDecoder (contextWithBody [] "asdf".toList)
        emptyTestModel3).context = true ∧
      Status (ReadObject testDecoder (contextWithBody [] "asdf".toList)
        emptyTestModel3).context = 406) ∧
    (ReadObject testDecoder (contextWithBody (headerContentType "text/plain".toList)
        "asdf".toList) emptyTestModel3).err =
      some (ObjectError.Other (unsupportedMessage "text/plain".toList)) ∧
    (ReadObject testDecoder (contextWithBody (headerContentType contentTypeForm)
        "%zz".toList) emptyTestModel3).err =
      some (ObjectError.Other "invalid URL escape".toList) ∧
    (ReadObject testDecoder (contextWithBody (headerContentType contentTypeJSON)
        "asdf".toList) emptyTestModel3).err =
      some (ObjectError.Other "invalid character".toList) :=
  ⟨(ReadObject_failure testDecoder (contextWithBody [] "asdf".toList) emptyTestModel3
      (by decide)).1 (ObjectError.Other "mime: no media type".toList) (by decide),
    ((ReadObject_failure testDecoder (contextWithBody (headerContentType "text/plain".toList)
      "asdf".toList) emptyTestModel3 (by decide)).2.2.2 "text/plain".toList (by decide)).1
      (by decide) (by decide),
    ((ReadObject_failure testDecoder (contextWithBody (headerContentType contentTypeForm)
      "%zz".toList) emptyTestModel3 (by decide)).2.2.2 contentTypeForm (by decide)).2.1
      "invalid URL escape".toList rfl (by decide),
    ((ReadObject_failure testDecoder (contextWithBody (headerContentType contentTypeJSON)
      "asdf".toList) emptyTestModel3 (by decide)).2.2.2 contentTypeJSON (by decide)).2.2
      "invalid character".toList rfl (by decide)⟩
/-! ## Properties of the decoding of forms -/

/-- C24: a field of a scalar kind whose key has no value or the empty value
first is handed nothing by the decoding of a form, so it is left unassigned;
but a field of a slice type does receive an empty string from an empty form
value that follows a non-empty value of the same key: the body
`first_name=a&first_name=` decoded into the field `FirstName` of a `TestModel3`
gives `a` followed by the empty string. -/
theorem form_empty_values :
    (∀ (T : Type) (dec : Decoder T) (values : List (Str × List Str)) (F : Str) (kind : Kind),
      kind ∉ [Kind.Chan, Kind.Func, Kind.Interface, Kind.Map, Kind.Struct, Kind.UnsafePointer,
        Kind.Slice, Kind.Array] →
      Get values (dec.Underscore F) = [] → fieldValue dec values F kind = none) ∧
    valueOf (valueMap testDecoder (ParseQuery bodyFormEmptySecond).1 fieldsTestModel3)
        "FirstName".toList =
      some (FormValue.sequence ["a".toList, []]) ∧
    (ReadObject testDecoder (contextWithBody (headerContentType contentTypeForm)
        bodyFormEmptySecond) emptyTestModel3).err = none ∧
    (ReadObject testDecoder (contextWithBody (headerContentType contentTypeForm)
        bodyFormEmptySecond) emptyTestModel3).target =
      { FirstName := ["a".toList, []], LastName := [] } := by
  refine ⟨?_, by decide, by decide, by decide⟩
  intro T dec values F kind hk hget
  cases kind <;> simp [fieldValue, hget, IsEmpty] at hk ⊢

/-! ## Further lemmas on the route tree -/

theorem nodeAt_AddRoute_isSome (router : Router C) (route : Str) (c : Option C)
    (b : List Str) :
    (nodeAt (AddRoute router route c).1.RouteTree b).isSome =
      ((nodeAt router.RouteTree b).isSome ||
        (validRoute route && b.isPrefixOf (routeAddr route))) := by
  cases hv : validRoute route with
  | false => simp [AddRoute_invalid router route c hv]
  | true =>
    rw [AddRoute_valid router route c hv]
    simp only [nodeAt_insertRoute_isSome, routeAddr, Bool.true_and]

theorem nodeAt_CreateRouter_cons (rc : Option C) (k : Str) (b : List Str) :
    nodeAt (CreateRouter rc).RouteTree (k :: b) = none := rfl

theorem AddRoute_ok_of_unbound (router : Router C) (route : Str) (c : Option C)
    (hv : validRoute route = true)
    (hn : controllerAt router.RouteTree (routeAddr route) = none) :
    (AddRoute router route c).2 = none := by
  rw [AddRoute_error, hv, hn]
  rfl

theorem find_via_wild (t : RouteNode C) (a z c : Str) (Y : C)
    (hY : controllerAt t [a, WildCard, c] = some Y)
    (hlit : (nodeAt t [a, z]).isNone = true) :
    ∃ n : RouteNode C, find t [a, z, c] = some n ∧ nodeAt t [a, WildCard, c] = some n ∧
      n.Controller = some Y := by
  cases h1 : t.SubRoutes a with
  | none => simp [controllerAt, nodeAt, h1] at hY
  | some na =>
    cases h4 : na.SubRoutes WildCard with
    | none => simp [controllerAt, nodeAt, h1, h4] at hY
    | some nw =>
      cases h5 : nw.SubRoutes c with
      | none => simp [controllerAt, nodeAt, h1, h4, h5] at hY
      | some nY =>
        have hcY : nY.Controller = some Y := by
          simpa [controllerAt, nodeAt, h1, h4, h5] using hY
        have h6 : na.SubRoutes z = none := by
          cases h6 : na.SubRoutes z with
          | none => rfl
          | some nz => simp [nodeAt, h1, h6] at hlit
        exact ⟨nY, by simp [find, h1, h6, h4, h5], by simp [nodeAt, h1, h4, h5], hcY⟩

theorem find_literal_commit (t : RouteNode C) (a b c : Str)
    (h1 : (nodeAt t [a, b]).isSome = true)
    (h2 : (nodeAt t [a, b, c]).isNone = true)
    (h3 : (nodeAt t [a, b, WildCard]).isNone = true) :
    find t [a, b, c] = none := by
  cases ha : t.SubRoutes a with
  | none => simp [nodeAt, ha] at h1
  | some na =>
    cases hb : na.SubRoutes b with
    | none => simp [nodeAt, ha, hb] at h1
    | some nb =>
      have hc : nb.SubRoutes c = none := by
        cases hc : nb.SubRoutes c with
        | none => rfl
        | some x => simp [nodeAt, ha, hb, hc] at h2
      have hw : nb.SubRoutes WildCard = none := by
        cases hw : nb.SubRoutes WildCard with
        | none => rfl
        | some x => simp [nodeAt, ha, hb, hw] at h3
      simp [find, ha, hb, hc, hw]

theorem FindRouteForPath_of_find_none (router : Router C) (path : Str) (hp : path ≠ [])
    (hf : find router.RouteTree (Split path SlashChar) = none) :
    FindRouteForPath router path = (none, some (RouteError.noRoute path)) := by
  simp only [FindRouteForPath, hp, if_false, hf]

/-! ## Frame of `AddRoute` -/

/-- C38: for every router, route string and controller, every position of the
route tree that holds a controller before `AddRoute` holds the same controller
and the same template after it, whether the call succeeds or fails, the root
included; every position that holds a node before the call holds a node after
it; and the same is true of any sequence of `AddRoute` calls. -/
theorem AddRoute_keeps_bindings (router : Router C) (route : Str) (c : Option C) :
    (∀ b : List Str, (controllerAt router.RouteTree b).isSome = true →
      controllerAt (AddRoute router route c).1.RouteTree b = controllerAt router.RouteTree b ∧
      templateAt (AddRoute router route c).1.RouteTree b = templateAt router.RouteTree b) ∧
    (router.RouteTree.Controller.isSome = true →
      (AddRoute router route c).1.RouteTree.Controller = router.RouteTree.Controller ∧
      (AddRoute router route c).1.RouteTree.TemplateRoute = router.RouteTree.TemplateRoute) ∧
    (∀ b : List Str, (nodeAt router.RouteTree b).isSome = true →
      (nodeAt (AddRoute router route c).1.RouteTree b).isSome = true) ∧
    (∀ (calls : List (Str × Option C)) (b : List Str),
      (controllerAt router.RouteTree b).isSome = true →
      controllerAt (AddRoutes router calls).RouteTree b = controllerAt router.RouteTree b ∧
      templateAt (AddRoutes router calls).RouteTree b = templateAt router.RouteTree b) := by
  refine ⟨?_, ?_, ?_, ?_⟩
  · intro b hb
    exact ⟨controllerAt_AddRoute_bound router route c b hb,
      templateAt_AddRoute_bound router route c b hb⟩
  · intro h
    have h1 := controllerAt_AddRoute_bound router route c [] h
    have h2 := templateAt_AddRoute_bound router route c [] h
    simp only [controllerAt_nil] at h1
    simp only [templateAt, nodeAt, Option.map_some', Option.some.injEq] at h2
    exact ⟨h1, h2⟩
  · intro b hb
    rw [nodeAt_AddRoute_isSome, hb]
    rfl
  · intro calls b hb
    exact controllerAt_AddRoutes_bound calls router b hb

/-- Witness of C38: on the router with the root controller 0, the failed
registration of `/route` and the registration of `foo` leave the root bound to
0 with the template `/`. -/
theorem AddRoute_keeps_bindings_witness :
    ((AddRoute routerRootOnly "/route".toList (some 1)).1.RouteTree.Controller = some 0 ∧
      (AddRoute routerRootOnly "/route".toList (some 1)).1.RouteTree.TemplateRoute = Slash) ∧
    ((AddRoute routerRootOnly "foo".toList (some 1)).1.RouteTree.Controller = some 0 ∧
      (AddRoute routerRootOnly "foo".toList (some 1)).1.RouteTree.TemplateRoute = Slash) :=
  ⟨(AddRoute_keeps_bindings routerRootOnly "/route".toList (some 1)).2.1 rfl,
    (AddRoute_keeps_bindings routerRootOnly "foo".toList (some 1)).2.1 rfl⟩
theorem controllerAt_CreateRouter_none (b : List Str) :
    controllerAt (CreateRouter (none : Option C)).RouteTree b = none := by
  cases b <;> rfl

theorem find_of_FindRouteForPath (router : Router C) (path : Str) (node : RouteNode C)
    (hp : path ≠ []) (h : FindRouteForPath router path = (some node, none)) :
    find router.RouteTree (Split path SlashChar) = some node := by
  simp only [FindRouteForPath, hp, if_false] at h
  cases hf : find router.RouteTree (Split path SlashChar) with
  | none => simp [hf] at h
  | some n =>
    rw [hf] at h
    simp only at h
    split at h
    · simp at h
    · simp only [Prod.mk.injEq, Option.some.injEq, and_true] at h
      rw [h]

theorem SubRoutes_insertRoute_cons (node : RouteNode C) (seg : Str) (rest : List Str)
    (route : Str) (c : Option C) (key : Str) :
    (insertRoute node (seg :: rest) (bindController route c)).1.SubRoutes key =
      if key = routeKey seg then
        some (insertRoute ((node.SubRoutes (routeKey seg)).getD (createNode (routeKey seg))) rest
          (bindController route c)).1
      else node.SubRoutes key := by
  rw [insertRoute_cons]
  rfl

/-! ## The wildcard slot -/

theorem find_of_followsKeys (keys : List Str) :
    ∀ (path : List Str) (t n : RouteNode C), followsKeys t keys path = true →
      nodeAt t keys = some n → find t path = some n := by
  induction keys with
  | nil =>
    intro path t n hf hn
    cases path with
    | nil => simpa [nodeAt, find] using hn
    | cons p path => simp [followsKeys] at hf
  | cons key keys ih =>
    intro path t n hf hn
    cases path with
    | nil => simp [followsKeys] at hf
    | cons p path =>
      cases hk : t.SubRoutes key with
      | none => simp [followsKeys, hk] at hf
      | some child =>
        simp only [followsKeys, hk, Bool.and_eq_true, Bool.or_eq_true, beq_iff_eq] at hf
        simp only [nodeAt, hk] at hn
        obtain ⟨hhead, htail⟩ := hf
        have hrec := ih path child n htail hn
        rcases hhead with h | ⟨h1, h2⟩
        · subst h
          simp only [find, hk]
          exact hrec
        · subst h1
          rw [Option.isNone_iff_eq_none] at h2
          simp only [find, h2, hk]
          exact hrec

/-- Counterexample to C37 as written: `a/*` and `a/b/d` are registered on a
fresh router, both without error, and `a/*` is bound to its controller; the
route has the segment `*` at position 1, where the path `a/b` has the segment
`b`; the lookup of `a/b` returns the error "No route found for a/b", since the
node of `a` has the literal child `b`, which the lookup takes and which has no
controller. -/
theorem wildcard_slot_counterexample :
    AddRoutesErrors (CreateRouter (none : Option Nat))
        [("a/*".toList, some 1), ("a/b/d".toList, some 2)] = [none, none] ∧
    boundTo routerStarLiteral "a/*".toList 1 ∧
    Split "a/*".toList SlashChar = ["a".toList, WildCard] ∧
    Split "a/b".toList SlashChar = ["a".toList, "b".toList] ∧
    (FindRouteForPath routerStarLiteral "a/b".toList).2 =
      some (RouteError.noRoute "a/b".toList) ∧
    ((FindRouteForPath routerStarLiteral "a/b".toList).1.bind (fun n => n.Controller)) =
      none := by
  decide

/-- C37, amended: a route segment is stored under the key `*` of the map of
sub routes exactly when it begins with `{{`, well formed or not, or is the
segment `*`: `insertRoute` writes the child of the segment under the key of
the segment and leaves the other keys as they are, and that key is `*` in
exactly these cases. On every router, a route bound to a controller is found,
with that controller, for every path whose lookup follows the keys of the
route: at each position the path segment is the key, or the key is `*` and the
node reached has no literal child named as the path segment. A route with a
segment `*`, registered alone on a fresh router, is found for every path that
has any segment at the positions of `*` and the segments of the route
elsewhere; and after a successful registration of `a/*` the registration of
`a/{{id}}` returns the conflict error that names `a/*`. -/
theorem wildcard_slot (seg : Str) :
    (routeKey seg = WildCard ↔ (HasPrefix seg DOpen = true ∨ seg = WildCard)) ∧
    (∀ (node : RouteNode C) (rest : List Str) (route : Str) (c : Option C),
      ((insertRoute node (seg :: rest) (bindController route c)).1.SubRoutes
        (routeKey seg)).isSome = true ∧
      ∀ key : Str, key ≠ routeKey seg →
        (insertRoute node (seg :: rest) (bindController route c)).1.SubRoutes key =
          node.SubRoutes key) ∧
    (∀ (router : Router C) (route : Str) (c : C) (path : Str),
      boundTo router route c → path ≠ [] →
      followsKeys router.RouteTree (routeAddr route) (Split path SlashChar) = true →
      ∃ node : RouteNode C,
        FindRouteForPath router path = (some node, none) ∧
        nodeAt router.RouteTree (routeAddr route) = some node ∧
        node.Controller = some c) ∧
    (∀ (route : Str) (c : C) (path : Str),
      (AddRoute (CreateRouter none) route (some c)).2 = none → path ≠ [] →
      List.Forall₂ (fun t q => t = WildCard ∨ q = t) (Split (TrimSpace route) SlashChar)
        (Split path SlashChar) →
      ∃ node : RouteNode C,
        FindRouteForPath (AddRoute (CreateRouter none) route (some c)).1 path =
          (some node, none) ∧
        node.Controller = some c) ∧
    (∀ (router : Router C) (c1 : C) (c2 : Option C),
      (AddRoute router "a/*".toList (some c1)).2 = none →
      (AddRoute (AddRoute router "a/*".toList (some c1)).1 "a/\x7b\x7bid\x7d\x7d".toList c2).2 =
        some (RouteError.conflict "a/\x7b\x7bid\x7d\x7d".toList "a/*".toList)) := by
  refine ⟨?_, ?_, ?_, ?_, ?_⟩
  · unfold routeKey
    by_cases h : HasPrefix seg DOpen = true
    · simp [h]
    · simp [h]
  · intro node rest route c
    constructor
    · rw [SubRoutes_insertRoute_cons, if_pos rfl]
      rfl
    · intro key hkey
      rw [SubRoutes_insertRoute_cons, if_neg hkey]
  · intro router route c path hb hp hf
    unfold boundTo controllerAt at hb
    cases hn : nodeAt router.RouteTree (routeAddr route) with
    | none => simp [hn] at hb
    | some n =>
      rw [hn] at hb
      have hc : n.Controller = some c := by simpa using hb
      exact ⟨n, FindRouteForPath_of_find router path n c hp
        (find_of_followsKeys _ _ _ _ hf hn) hc, rfl, hc⟩
  · intro route c path hok hp hall
    have hv := AddRoute_fresh_valid none route (some c) hok
    have hacc : List.Forall₂ segmentAccepts (Split (TrimSpace route) SlashChar)
        (Split path SlashChar) :=
      List.Forall₂.imp (fun {t q} h => by
        unfold segmentAccepts
        rcases h with h | h
        · exact Or.inr (Or.inl h)
        · exact Or.inr (Or.inr h)) hall
    have herr : (FindRouteForPath (AddRoute (CreateRouter none) route (some c)).1 path).2 =
        none := by
      rw [FindRouteForPath_error_none_iff, AddRoute_valid _ route _ hv]
      simp only [hp, if_false]
      exact (find_single_insert (TrimSpace route) c _ _ _ (fun _ => rfl) rfl).mpr hacc
    obtain ⟨node, hnode⟩ := FindRouteForPath_node_of_no_error _ _ herr
    obtain ⟨c', hc'⟩ := FindRouteForPath_controller _ _ _ hnode
    refine ⟨node, hnode, ?_⟩
    have hfind := find_of_FindRouteForPath _ _ _ hp hnode
    obtain ⟨addr, haddr, _⟩ := find_some_addr _ _ _ hfind
    have hca : controllerAt (AddRoute (CreateRouter none) route (some c)).1.RouteTree addr =
        some c' := by
      simp [controllerAt, haddr, hc']
    rw [controllerAt_AddRoute, controllerAt_CreateRouter_none] at hca
    split at hca
    · rw [hc', ← hca]
    · simp at hca
  · intro router c1 c2 hok
    obtain ⟨hv, hc, ht⟩ := binding_of_AddRoute_ok router "a/*".toList c1 [] hok
    simp only [AddRoutes] at hc ht
    have haddr : routeAddr "a/\x7b\x7bid\x7d\x7d".toList = routeAddr "a/*".toList := by decide
    have hv2 : validRoute "a/\x7b\x7bid\x7d\x7d".toList = true := by decide
    have ht1 : TrimSpace "a/\x7b\x7bid\x7d\x7d".toList = "a/\x7b\x7bid\x7d\x7d".toList := by
      decide
    have ht2 : TrimSpace "a/*".toList = "a/*".toList := by decide
    rw [AddRoute_error, hv2, haddr, hc, ht, ht1, ht2]
    rfl

/-- Witness of C37: the segment `{{x` without closing braces has the key `*`;
on the router of `a/*` and `a/b/d` the path `a/c` is found with the controller
of `a/*`, the node of `a` having no literal child `c`; the route
`route/*/something` of the tests, alone on a fresh router, is found for the
path `route/awef/something`; and `a/{{id}}` after `a/*` is a conflict. -/
theorem wildcard_slot_witness :
    routeKey "\x7b\x7bx".toList = WildCard ∧
    (∃ node : RouteNode Nat,
      FindRouteForPath routerStarLiteral "a/c".toList = (some node, none) ∧
      nodeAt routerStarLiteral.RouteTree (routeAddr "a/*".toList) = some node ∧
      node.Controller = some 1) ∧
    (∃ node : RouteNode Nat,
      FindRouteForPath (AddRoute (CreateRouter none) "route/*/something".toList (some 1)).1
        "route/awef/something".toList = (some node, none) ∧
      node.Controller = some 1) ∧
    (AddRoute (AddRoute (CreateRouter (none : Option Nat)) "a/*".toList (some 1)).1
        "a/\x7b\x7bid\x7d\x7d".toList (some 2)).2 =
      some (RouteError.conflict "a/\x7b\x7bid\x7d\x7d".toList "a/*".toList) :=
  ⟨((wildcard_slot (C := Nat) "\x7b\x7bx".toList).1).mpr (Or.inl (by decide)),
    (wildcard_slot (C := Nat) []).2.2.1 routerStarLiteral "a/*".toList 1 "a/c".toList
      (by decide) (by decide) (by decide),
    (wildcard_slot (C := Nat) []).2.2.2.1 "route/*/something".toList 1
      "route/awef/something".toList (by decide) (by decide) (by decide),
    (wildcard_slot (C := Nat) []).2.2.2.2 (CreateRouter none) 1 (some 2) (by decide)⟩

/-- C39: on every router on which `foo/{{id}}/bar` is bound to a controller
and the node of `foo` has no child under the empty key, the lookup of
`foo//bar` succeeds and returns the node at the position of that route, with
its controller: the empty segment is taken by the wildcard slot. -/
theorem wildcard_matches_empty (router : Router C) (c : C)
    (hb : boundTo router "foo/\x7b\x7bid\x7d\x7d/bar".toList c)
    (hlit : (nodeAt router.RouteTree ["foo".toList, []]).isNone = true) :
    ∃ node : RouteNode C,
      FindRouteForPath router "foo//bar".toList = (some node, none) ∧
      nodeAt router.RouteTree (routeAddr "foo/\x7b\x7bid\x7d\x7d/bar".toList) = some node ∧
      node.Controller = some c := by
  have ha : routeAddr "foo/\x7b\x7bid\x7d\x7d/bar".toList =
      ["foo".toList, WildCard, "bar".toList] := by decide
  have hs : Split "foo//bar".toList SlashChar = ["foo".toList, [], "bar".toList] := by decide
  unfold boundTo at hb
  rw [ha] at hb ⊢
  obtain ⟨n, hf, hn, hc⟩ := find_via_wild router.RouteTree _ [] _ c hb hlit
  refine ⟨n, ?_, hn, hc⟩
  apply FindRouteForPath_of_find _ _ n c (by decide) _ hc
  rw [hs]
  exact hf

/-- Witness of C39: the route `foo/{{id}}/bar` alone on a fresh router. -/
theorem wildcard_matches_empty_witness :
    ∃ node : RouteNode Nat,
      FindRouteForPath
          (AddRoute (CreateRouter none) "foo/\x7b\x7bid\x7d\x7d/bar".toList (some 1)).1
          "foo//bar".toList = (some node, none) ∧
      nodeAt (AddRoute (CreateRouter none) "foo/\x7b\x7bid\x7d\x7d/bar".toList
          (some 1)).1.RouteTree (routeAddr "foo/\x7b\x7bid\x7d\x7d/bar".toList) = some node ∧
      node.Controller = some 1 :=
  wildcard_matches_empty
    (AddRoute (CreateRouter none) "foo/\x7b\x7bid\x7d\x7d/bar".toList (some 1)).1 1
    (by decide) (by decide)
theorem nodeAt_fresh_two (rc : Option C) (r1 r2 : Str) (c1 c2 : Option C) (k : Str)
    (b : List Str) :
    (nodeAt (AddRoutes (CreateRouter rc) [(r1, c1), (r2, c2)]).RouteTree (k :: b)).isSome =
      ((validRoute r1 && (k :: b).isPrefixOf (routeAddr r1)) ||
        (validRoute r2 && (k :: b).isPrefixOf (routeAddr r2))) := by
  simp only [AddRoutes]
  rw [nodeAt_AddRoute_isSome, nodeAt_AddRoute_isSome, nodeAt_CreateRouter_cons]
  rfl

theorem nodeAt_fresh_one (rc : Option C) (r1 : Str) (c1 : Option C) (k : Str)
    (b : List Str) :
    (nodeAt (AddRoute (CreateRouter rc) r1 c1).1.RouteTree (k :: b)).isSome =
      (validRoute r1 && (k :: b).isPrefixOf (routeAddr r1)) := by
  rw [nodeAt_AddRoute_isSome, nodeAt_CreateRouter_cons]
  rfl

theorem boundTo_fresh_two (rc : Option C) (r1 r2 : Str) (c1 c2 : C)
    (hv1 : validRoute r1 = true) (hv2 : validRoute r2 = true)
    (hne : routeAddr r2 ≠ routeAddr r1) :
    AddRoutesErrors (CreateRouter rc) [(r1, some c1), (r2, some c2)] = [none, none] ∧
    boundTo (AddRoutes (CreateRouter rc) [(r1, some c1), (r2, some c2)]) r1 c1 ∧
    boundTo (AddRoutes (CreateRouter rc) [(r1, some c1), (r2, some c2)]) r2 c2 := by
  have h1 : (AddRoute (CreateRouter rc) r1 (some c1)).2 = none :=
    AddRoute_ok_of_unbound _ _ _ hv1 (controllerAt_CreateRouter_routeAddr rc r1)
  have h2 : (AddRoute (AddRoute (CreateRouter rc) r1 (some c1)).1 r2 (some c2)).2 = none := by
    apply AddRoute_ok_of_unbound _ _ _ hv2
    rw [controllerAt_AddRoute, if_neg (fun h => hne h.2.1)]
    exact controllerAt_CreateRouter_routeAddr rc r2
  refine ⟨?_, ?_, ?_⟩
  · simp only [AddRoutesErrors, h1, h2]
  · exact boundTo_AddRoutes _ [(r2, some c2)] r1 c1 (boundTo_of_AddRoute _ r1 c1 h1)
  · exact boundTo_of_AddRoute _ r2 c2 h2

/-! ## The lookup does not backtrack -/

/-- C34: on a fresh router, with any root controller, the route `a/{{x}}/c`
registered alone is found for the path `a/b/c`; once `a/b/d` is registered as
well, before or after it, both registrations succeed, `a/{{x}}/c` is still
bound to its controller, and the lookup of `a/b/c` returns no node and the
error: the lookup takes the child `b` of `a` and does not go back to the
wildcard child. So the registration of `a/b/d` makes the path `a/b/c`, which
resolved before, unresolvable. On any router on which `a` has the child `b`
and `b` has neither a child `c` nor a wildcard child, the lookup of `a/b/c`
fails in the same way, whatever the wildcard child of `a` holds. -/
theorem lookup_commits_to_literal (rc : Option C) (X Y : C) :
    (∃ node : RouteNode C,
      FindRouteForPath (AddRoutes (CreateRouter rc)
          [("a/\x7b\x7bx\x7d\x7d/c".toList, some X)]) "a/b/c".toList = (some node, none) ∧
      node.Controller = some X) ∧
    (AddRoutesErrors (CreateRouter rc)
        [("a/\x7b\x7bx\x7d\x7d/c".toList, some X), ("a/b/d".toList, some Y)] = [none, none] ∧
      boundTo (AddRoutes (CreateRouter rc)
        [("a/\x7b\x7bx\x7d\x7d/c".toList, some X), ("a/b/d".toList, some Y)])
        "a/\x7b\x7bx\x7d\x7d/c".toList X ∧
      FindRouteForPath (AddRoutes (CreateRouter rc)
          [("a/\x7b\x7bx\x7d\x7d/c".toList, some X), ("a/b/d".toList, some Y)])
          "a/b/c".toList = (none, some (RouteError.noRoute "a/b/c".toList))) ∧
    (AddRoutesErrors (CreateRouter rc)
        [("a/b/d".toList, some Y), ("a/\x7b\x7bx\x7d\x7d/c".toList, some X)] = [none, none] ∧
      boundTo (AddRoutes (CreateRouter rc)
        [("a/b/d".toList, some Y), ("a/\x7b\x7bx\x7d\x7d/c".toList, some X)])
        "a/\x7b\x7bx\x7d\x7d/c".toList X ∧
      FindRouteForPath (AddRoutes (CreateRouter rc)
          [("a/b/d".toList, some Y), ("a/\x7b\x7bx\x7d\x7d/c".toList, some X)])
          "a/b/c".toList = (none, some (RouteError.noRoute "a/b/c".toList))) ∧
    (∀ router : Router C,
      (nodeAt router.RouteTree ["a".toList, "b".toList]).isSome = true →
      (nodeAt router.RouteTree ["a".toList, "b".toList, "c".toList]).isNone = true →
      (nodeAt router.RouteTree ["a".toList, "b".toList, WildCard]).isNone = true →
      FindRouteForPath router "a/b/c".toList =
        (none, some (RouteError.noRoute "a/b/c".toList))) := by
  have hvw : validRoute "a/\x7b\x7bx\x7d\x7d/c".toList = true := by decide
  have hvd : validRoute "a/b/d".toList = true := by decide
  have haw : routeAddr "a/\x7b\x7bx\x7d\x7d/c".toList = ["a".toList, WildCard, "c".toList] := by
    decide
  have hne1 : routeAddr "a/b/d".toList ≠ routeAddr "a/\x7b\x7bx\x7d\x7d/c".toList := by decide
  have hne2 : routeAddr "a/\x7b\x7bx\x7d\x7d/c".toList ≠ routeAddr "a/b/d".toList := by decide
  have hs : Split "a/b/c".toList SlashChar = ["a".toList, "b".toList, "c".toList] := by decide
  have hp : "a/b/c".toList ≠ [] := by decide
  refine ⟨?_, ?_, ?_, ?_⟩
  rotate_left 3
  · intro router h1 h2 h3
    apply FindRouteForPath_of_find_none _ _ hp
    rw [hs]
    exact find_literal_commit _ _ _ _ h1 h2 h3
  · have hok : (AddRoute (CreateRouter rc) "a/\x7b\x7bx\x7d\x7d/c".toList (some X)).2 = none :=
      AddRoute_ok_of_unbound _ _ _ hvw (controllerAt_CreateRouter_routeAddr rc _)
    have hb := boundTo_of_AddRoute _ _ X hok
    unfold boundTo at hb
    rw [haw] at hb
    have hlit : (nodeAt (AddRoute (CreateRouter rc) "a/\x7b\x7bx\x7d\x7d/c".toList
        (some X)).1.RouteTree ["a".toList, "b".toList]).isNone = true := by
      rw [Option.isNone_iff_eq_none, ← Option.not_isSome_iff_eq_none, nodeAt_fresh_one]
      decide
    obtain ⟨n, hf, _, hc⟩ := find_via_wild _ _ "b".toList _ X hb hlit
    refine ⟨n, ?_, hc⟩
    simp only [AddRoutes]
    apply FindRouteForPath_of_find _ _ n X hp _ hc
    rw [hs]
    exact hf
  · obtain ⟨he, hb1, _⟩ := boundTo_fresh_two rc _ _ X Y hvw hvd hne1
    refine ⟨he, hb1, ?_⟩
    apply FindRouteForPath_of_find_none _ _ hp
    rw [hs]
    apply find_literal_commit
    · rw [nodeAt_fresh_two]; decide
    · rw [Option.isNone_iff_eq_none, ← Option.not_isSome_iff_eq_none, nodeAt_fresh_two]
      decide
    · rw [Option.isNone_iff_eq_none, ← Option.not_isSome_iff_eq_none, nodeAt_fresh_two]
      decide
  · obtain ⟨he, _, hb2⟩ := boundTo_fresh_two rc _ _ Y X hvd hvw hne2
    refine ⟨he, hb2, ?_⟩
    apply FindRouteForPath_of_find_none _ _ hp
    rw [hs]
    apply find_literal_commit
    · rw [nodeAt_fresh_two]; decide
    · rw [Option.isNone_iff_eq_none, ← Option.not_isSome_iff_eq_none, nodeAt_fresh_two]
      decide
    · rw [Option.isNone_iff_eq_none, ← Option.not_isSome_iff_eq_none, nodeAt_fresh_two]
      decide

/-- Witness of C34: the router with the root controller 0, `a/{{x}}/c` bound
to 1 and `a/b/d` bound to 2. -/
theorem lookup_commits_to_literal_witness :
    FindRouteForPath (AddRoutes (CreateRouter (some 0))
        [("a/\x7b\x7bx\x7d\x7d/c".toList, some 1), ("a/b/d".toList, some 2)])
        "a/b/c".toList = (none, some (RouteError.noRoute "a/b/c".toList)) :=
  (lookup_commits_to_literal (some 0) 1 2).2.1.2.2

/-! ## Further properties of the life of a request -/

/-- C31: for every request whose query string `url.ParseQuery` cannot decode,
`CreateContext` returns a context with the error of code `malformed-url` and
status 400, with no route set, and calls no method of any controller,
`Authenticate` included; `ServeHTTP` then calls no controller either. -/
theorem malformed_query_context (env : Env C) (request : Request) (router : Router C)
    (hq : (env.ParseQuery request.URL.RawQuery).2 = true) :
    (CreateContext env request router).1.Error =
      some { Code := MalformedURL, Message := malformedURLMessage request, Details := none } ∧
    Status (CreateContext env request router).1 = 400 ∧
    HasError (CreateContext env request router).1 = true ∧
    (CreateContext env request router).1.Route = none ∧
    (CreateContext env request router).2 = [] ∧
    (dispatch env request router).map (fun r => r.2) = some [] := by
  have h := CreateContext_malformed env request router hq
  have he : HasError (CreateContext env request router).1 = true := by
    rw [h]; rfl
  have hd : dispatch env request router = some (CreateContext env request router) := by
    simp [dispatch, he]
  refine ⟨by rw [h]; rfl, by rw [h]; rfl, he, by rw [h]; rfl, by rw [h], ?_⟩
  rw [hd, h]
  rfl

/-- Witness of C31: the request `/?%zzzzz` of `TestCreateContextBadParameters`
on the router with a root controller. -/
theorem malformed_query_context_witness :
    (CreateContext (testEnv true) (testRequest MethodGet "/?%zzzzz".toList "%zzzzz".toList)
      routerRootOnly).1.Error =
      some { Code := MalformedURL,
             Message := malformedURLMessage
               (testRequest MethodGet "/?%zzzzz".toList "%zzzzz".toList),
             Details := none } ∧
    Status (CreateContext (testEnv true)
      (testRequest MethodGet "/?%zzzzz".toList "%zzzzz".toList) routerRootOnly).1 = 400 ∧
    (CreateContext (testEnv true) (testRequest MethodGet "/?%zzzzz".toList "%zzzzz".toList)
      routerRootOnly).1.Route = none ∧
    (CreateContext (testEnv true) (testRequest MethodGet "/?%zzzzz".toList "%zzzzz".toList)
      routerRootOnly).2 = [] :=
  have h := malformed_query_context (testEnv true)
    (testRequest MethodGet "/?%zzzzz".toList "%zzzzz".toList) routerRootOnly (by decide)
  ⟨h.1, h.2.1, h.2.2.2.1, h.2.2.2.2.1⟩

/-- C36: for every request and router, if `Authenticate` leaves the route of
the context as `CreateContext` set it and `CreateContext` returns a context
without an error, then the route of the context is the node that
`FindRouteForPath` returned for the path of the request, which has a
controller, and `ServeHTTP` runs up to `CompleteRequest` without a panic: the
call of the controller method is defined. -/
theorem dispatch_defined (env : Env C) (request : Request) (router : Router C)
    (hA : ∀ (node : RouteNode C) (c : C), node.Controller = some c →
      (env.Authenticate c (routedContext env request node)).1.Route = some node)
    (he : HasError (CreateContext env request router).1 = false) :
    (∃ (node : RouteNode C) (c : C),
      (CreateContext env request router).1.Route = some node ∧
      node.Controller = some c ∧
      FindRouteForPath router (cleanPath request) = (some node, none)) ∧
    (dispatch env request router).isSome = true := by
  have hroute : ∃ (node : RouteNode C) (c : C),
      (CreateContext env request router).1.Route = some node ∧
      node.Controller = some c ∧
      FindRouteForPath router (cleanPath request) = (some node, none) := by
    cases hq : (env.ParseQuery request.URL.RawQuery).2 with
    | true =>
      rw [CreateContext_malformed env request router hq] at he
      simp [HasError, SetError] at he
    | false =>
      by_cases hr : (FindRouteForPath router (cleanPath request)).2 = none
      · obtain ⟨node, hnode⟩ := FindRouteForPath_node_of_no_error _ _ hr
        obtain ⟨c, hc⟩ := FindRouteForPath_controller _ _ _ hnode
        refine ⟨node, c, ?_, hc, hnode⟩
        rw [CreateContext_found env request router node c hq hnode hc] at he ⊢
        by_cases hd : (!IsWhiteSpace (cleanPath request) &&
            (env.Detemplate node.TemplateRoute (cleanPath request)).2) = true
        · rw [if_pos hd] at he
          simp [HasError, SetError] at he
        · rw [if_neg hd] at he ⊢
          by_cases hm : MethodOptions ≠ request.Method
          · rw [if_pos hm] at he ⊢
            by_cases ha : (!(env.Authenticate c (routedContext env request node)).2) = true
            · rw [if_pos ha] at he
              simp [HasError, SetError] at he
            · rw [if_neg ha]
              exact hA node c hc
          · rw [if_neg hm]
            exact (routedContext_fields env request node).2.1
      · rw [CreateContext_not_found env request router hq hr] at he
        simp [HasError, SetError] at he
  refine ⟨hroute, ?_⟩
  obtain ⟨node, c, h1, h2, _⟩ := hroute
  have hc : (CreateContext env request router).1.Route.bind (fun n => n.Controller) = some c := by
    rw [h1]; exact h2
  simp only [dispatch, he, Bool.not_false, if_true]
  repeat' split
  all_goals first
    | rfl
    | (rw [invoke_of_controller _ _ _ c hc]; rfl)

/-- Witness of C36: the request `GET /` on the router with the root
controller 0, whose `Authenticate` returns true and leaves the context as it
is. -/
theorem dispatch_defined_witness :
    (∃ (node : RouteNode Nat) (c : Nat),
      (CreateContext (testEnv true) (testRequest MethodGet "/".toList [])
        routerRootOnly).1.Route = some node ∧
      node.Controller = some c ∧
      FindRouteForPath routerRootOnly (cleanPath (testRequest MethodGet "/".toList [])) =
        (some node, none)) ∧
    (dispatch (testEnv true) (testRequest MethodGet "/".toList []) routerRootOnly).isSome =
      true :=
  dispatch_defined (testEnv true) (testRequest MethodGet "/".toList []) routerRootOnly
    (fun node _ _ => (routedContext_fields (testEnv true)
      (testRequest MethodGet "/".toList []) node).2.1)
    (by decide)

/-! ## `ReadObject` when `Read` fails -/

theorem Read_frame (context : Context C) :
    (Read context).context.Error = context.Error ∧
    (Read context).context.responseStatus = context.responseStatus ∧
    (Read context).context.Model = context.Model := by
  unfold Read
  split
  · exact ⟨rfl, rfl, rfl⟩
  · split
    · exact ⟨rfl, rfl, rfl⟩
    · exact ⟨rfl, rfl, rfl⟩

theorem ReadObject_sets_validation_error (dec : Decoder T) (context : Context C) (target : T)
    (hread : (Read context).err = none) (e : ObjectError)
    (he : (ReadObject dec context target).err = some e) :
    ∃ text : Str, e = ObjectError.Other text ∧
      (ReadObject dec context target).context.Error =
        some { Code := ValidationError, Message := text, Details := none } ∧
      Status (ReadObject dec context target).context = 406 := by
  simp only [ReadObject, hread] at he ⊢
  split at he
  · rename_i text hp
    simp only [Option.some.injEq] at he
    refine ⟨text, he.symm, ?_⟩
    simp [hp, SetError, NewRestError, Status, StatusNotAcceptable]
  · rename_i hp
    split at he
    · rename_i text hd
      simp only [Option.some.injEq] at he
      refine ⟨text, he.symm, ?_⟩
      simp [hp, hd, SetError, NewRestError, Status, StatusNotAcceptable]
    · simp at he

/-- C40, as the code has it: when the body has not been read and the request
declares a content length of zero or less, `ReadObject` returns the
`NoContentError` and leaves the context and the target as they were. Whenever
`Read` fails, with that error or with another one such as
`io.ErrUnexpectedEOF` on a short read, `ReadObject` returns the error of `Read`
and the error, the status and the model of the context are the same as before
the call, so no validation error is set. The failures of `ReadObject` after
`Read` gave the body without error set a `validation-error` with status
406. -/
theorem ReadObject_read_failure (dec : Decoder T) (context : Context C) (target : T) :
    (context.bodyRead = false → context.Request.ContentLength ≤ 0 →
      ReadObject dec context target =
        { context := context, target := target,
          err := some (ObjectError.Read (ReadError.NoContent [] [])), log := [] }) ∧
    (∀ err : ReadError, (Read context).err = some err →
      (ReadObject dec context target).err = some (ObjectError.Read err) ∧
      (ReadObject dec context target).target = target ∧
      (ReadObject dec context target).context.Error = context.Error ∧
      HasError (ReadObject dec context target).context = HasError context ∧
      Status (ReadObject dec context target).context = Status context ∧
      (ReadObject dec context target).context.Model = context.Model) ∧
    ((Read context).err = none → ∀ e : ObjectError,
      (ReadObject dec context target).err = some e →
      ∃ text : Str, e = ObjectError.Other text ∧
        (ReadObject dec context target).context.Error =
          some { Code := ValidationError, Message := text, Details := none } ∧
        Status (ReadObject dec context target).context = 406) := by
  refine ⟨?_, ?_, ?_⟩
  · intro h1 h2
    have hr : Read context =
        { context := context, body := none, err := some (ReadError.NoContent [] []),
          log := [] } := by
      simp [Read, h1, h2]
    rw [ReadObject_of_read_error dec context target (ReadError.NoContent [] [])
      (by rw [hr]), hr]
  · intro err herr
    rw [ReadObject_of_read_error dec context target err herr]
    obtain ⟨h1, h2, h3⟩ := Read_frame context
    refine ⟨rfl, rfl, h1, ?_, h2, h3⟩
    simp only [HasError, h1]
  · intro hread e he
    exact ReadObject_sets_validation_error dec context target hread e he

/-- Witness of C40: the context of `TestReadObject_withJSON_Empty`, whose
request declares no content. -/
theorem ReadObject_read_failure_witness :
    ReadObject testDecoder (emptyContext : Context Nat) emptyTestModel3 =
      { context := emptyContext, target := emptyTestModel3,
        err := some (ObjectError.Read (ReadError.NoContent [] [])), log := [] } :=
  (ReadObject_read_failure testDecoder (emptyContext : Context Nat) emptyTestModel3).1
    rfl (by decide)

/-- Counterexample to C40 as stated: with 5 bytes declared and the 3 bytes
`foo` delivered, `ReadObject` fails with `io.ErrUnexpectedEOF`, which is not
the `NoContentError`, and the context has no error and not the status 406. -/
theorem ReadObject_read_failure_counterexample :
    (ReadObject testDecoder contextShortBody emptyTestModel3).err =
      some (ObjectError.Read (ReadError.Reader IOError.ErrUnexpectedEOF)) ∧
    (ReadObject testDecoder contextShortBody emptyTestModel3).err ≠
      some (ObjectError.Read (ReadError.NoContent [] [])) ∧
    HasError (ReadObject testDecoder contextShortBody emptyTestModel3).context = false ∧
    Status (ReadObject testDecoder contextShortBody emptyTestModel3).context ≠ 406 := by
  decide

/-! ## Properties of the JSON wire form -/

theorem marshalAny_eq_render (d : Option Any) :
    marshalAny d = (anyJSON d).map JSON.render := by
  cases d with
  | none => rfl
  | some a => cases a <;> rfl

theorem marshalAll_eq_render (ds : List (Option Any)) :
    marshalAll ds = (detailsJSON anyJSON ds).map JSONList.render := by
  induction ds with
  | nil => rfl
  | cons d ds ih =>
    simp only [marshalAll, detailsJSON, ih, marshalAny_eq_render]
    cases anyJSON d with
    | none => rfl
    | some x =>
      cases detailsJSON anyJSON ds with
      | none => rfl
      | some xs => rfl

theorem marshalRestError_eq_render (e : RestError) :
    marshalRestError e = (restErrorJSON anyJSON e).map JSON.render := by
  unfold marshalRestError restErrorJSON
  cases e.Details with
  | none => rfl
  | some ds =>
    simp only [marshalAll_eq_render]
    cases detailsJSON anyJSON ds with
    | none => rfl
    | some xs => rfl

theorem detailsJSON_length (item : Option Any → Option JSON) :
    ∀ (ds : List (Option Any)) (items : JSONList),
      detailsJSON item ds = some items → items.length = ds.length
  | [], items, h => by
    simp only [detailsJSON, Option.some.injEq] at h
    rw [← h]
    rfl
  | d :: ds, items, h => by
    simp only [detailsJSON] at h
    cases hx : item d with
    | none => simp [hx] at h
    | some x =>
      cases hxs : detailsJSON item ds with
      | none => simp [hx, hxs] at h
      | some xs =>
        simp only [hx, hxs, Option.some.injEq] at h
        rw [← h]
        simp only [JSONList.length, List.length_cons, detailsJSON_length item ds xs hxs]

/-- C32, as the code has it: the JSON value that `json.Marshal` gives for a
`RestError` whose details can be encoded is an object with exactly the keys
`code`, `message` and `details`, in this order; the values of `code` and
`message` are the strings of the error; the value of `details` is `null` when
the slice of details is `nil`, and otherwise an array with one element for
each detail, in order, so the empty array for an empty slice that is not
`nil`. With the encoding of the examples for the elements, the text that
`marshalRestError` gives is the text of that JSON value. -/
theorem RestError_wire_form (item : Option Any → Option JSON) (e : RestError) (j : JSON)
    (h : restErrorJSON item e = some j) :
    j.keys = some ["code".toList, "message".toList, "details".toList] ∧
    j.get "code".toList = some (JSON.string e.Code) ∧
    j.get "message".toList = some (JSON.string e.Message) ∧
    (e.Details = none → j.get "details".toList = some JSON.null) ∧
    (∀ ds : List (Option Any), e.Details = some ds →
      ∃ items : JSONList, detailsJSON item ds = some items ∧
        j.get "details".toList = some (JSON.array items) ∧ items.length = ds.length) ∧
    (item = anyJSON → marshalRestError e = some j.render) := by
  have hrender : item = anyJSON → marshalRestError e = some j.render := by
    intro hi
    rw [marshalRestError_eq_render, ← hi, h]
    rfl
  unfold restErrorJSON at h
  cases hd : e.Details with
  | none =>
    rw [hd] at h
    simp only [Option.some.injEq] at h
    subst h
    refine ⟨rfl, rfl, rfl, fun _ => rfl, ?_, hrender⟩
    intro ds hds
    simp at hds
  | some ds =>
    rw [hd] at h
    cases hi : detailsJSON item ds with
    | none => simp [hi] at h
    | some items =>
      simp only [hi, Option.map_some', Option.some.injEq] at h
      subst h
      refine ⟨rfl, rfl, rfl, ?_, ?_, hrender⟩
      · intro hn
        simp at hn
      · intro ds' hds'
        simp only [Option.some.injEq] at hds'
        subst hds'
        exact ⟨items, hi, rfl, detailsJSON_length item _ items hi⟩

/-- Witness of C32: the error that `AddError` leaves on a fresh context, with
one field error as its details. -/
theorem RestError_wire_form_witness :
    ∃ j : JSON, restErrorJSON anyJSON errorWithDetail = some j ∧
      j.keys = some ["code".toList, "message".toList, "details".toList] ∧
      j.get "code".toList = some (JSON.string ValidationError) ∧
      (j.get "details".toList).map JSON.isArray = some true ∧
      marshalRestError errorWithDetail = some j.render :=
  have h := RestError_wire_form anyJSON errorWithDetail
    (JSON.object
      (JSONFields.cons "code".toList (JSON.string ValidationError)
        (JSONFields.cons "message".toList (JSON.string [])
          (JSONFields.cons "details".toList
            (JSON.array (JSONList.cons
              (fieldErrorJSON { Code := CannotBeBlank, Message := [], Field := "name".toList })
              JSONList.nil))
            JSONFields.nil)))) rfl
  ⟨_, rfl, h.1, h.2.1, rfl, h.2.2.2.2.2 rfl⟩

/-- Counterexample to C32 as stated: the error
`NewRestError("testing", "", nil)` of `TestCompleteRequestError` has no
details, and the value of `details` in its wire form is `null`, not an array:
the text is `{"code":"testing","message":"","details":null}`. -/
theorem RestError_wire_form_counterexample :
    (NewRestError "testing".toList [] none).Details = none ∧
    ((restErrorJSON anyJSON (NewRestError "testing".toList [] none)).bind
      (fun j => j.get "details".toList)).map JSON.isArray = some false ∧
    marshalRestError (NewRestError "testing".toList [] none) =
      some "\x7b\"code\":\"testing\",\"message\":\"\",\"details\":null\x7d".toList := by
  refine ⟨rfl, rfl, ?_⟩
  decide

/-! ## The order of two registrations -/

theorem setSubRoute_comm (node a b : RouteNode C) (k1 k2 : Str) (h : k1 ≠ k2) :
    setSubRoute (setSubRoute node k1 a) k2 b = setSubRoute (setSubRoute node k2 b) k1 a := by
  unfold setSubRoute
  simp only [RouteNode.mk.injEq, true_and, and_true]
  funext k
  by_cases h1 : k = k1
  · subst h1
    simp [h]
  · by_cases h2 : k = k2
    · subst h2
      simp [h1]
    · simp [h1, h2]

theorem setSubRoute_overwrite (node a b : RouteNode C) (k : Str) :
    setSubRoute (setSubRoute node k a) k b = setSubRoute node k b := by
  unfold setSubRoute
  simp only [RouteNode.mk.injEq, true_and, and_true]
  funext k'
  by_cases h1 : k' = k <;> simp [h1]

theorem SubRoutes_bindController (route : Str) (c : Option C) (node : RouteNode C) :
    (bindController route c node).1.SubRoutes = node.SubRoutes := by
  obtain ⟨v, s, t, ctl⟩ := node
  cases ctl <;> rfl

theorem bindController_setSubRoute (route : Str) (c : Option C) (node child : RouteNode C)
    (key : Str) :
    (bindController route c (setSubRoute node key child)).1 =
      setSubRoute (bindController route c node).1 key child := by
  obtain ⟨v, s, t, ctl⟩ := node
  cases ctl <;> rfl

/-- An insertion at the node itself and an insertion below it give the same
tree in both orders. -/
theorem insertRoute_nil_comm (route1 route2 : Str) (c1 c2 : Option C) (p : Str)
    (rest : List Str) (node : RouteNode C) :
    (insertRoute (insertRoute node [] (bindController route1 c1)).1 (p :: rest)
        (bindController route2 c2)).1 =
      (insertRoute (insertRoute node (p :: rest) (bindController route2 c2)).1 []
        (bindController route1 c1)).1 := by
  rw [insertRoute_cons, insertRoute_cons]
  simp only [insertRoute]
  rw [bindController_setSubRoute, SubRoutes_bindController]

theorem insertRoute_comm (route1 route2 : Str) (c1 c2 : Option C) :
    ∀ (segs1 segs2 : List Str) (node : RouteNode C),
      segs1.map routeKey ≠ segs2.map routeKey →
      (insertRoute (insertRoute node segs1 (bindController route1 c1)).1 segs2
          (bindController route2 c2)).1 =
        (insertRoute (insertRoute node segs2 (bindController route2 c2)).1 segs1
          (bindController route1 c1)).1
  | [], [], _, h => absurd rfl h
  | [], p :: rest, node, _ => insertRoute_nil_comm route1 route2 c1 c2 p rest node
  | p :: rest, [], node, _ => (insertRoute_nil_comm route2 route1 c2 c1 p rest node).symm
  | p1 :: rest1, p2 :: rest2, node, h => by
    rw [insertRoute_cons node p1, insertRoute_cons node p2, insertRoute_cons, insertRoute_cons]
    by_cases hk : routeKey p1 = routeKey p2
    · have hrest : rest1.map routeKey ≠ rest2.map routeKey := by
        intro e
        apply h
        simp only [List.map_cons, hk, e]
      rw [hk]
      simp only [setSubRoute, if_true, Option.getD_some]
      rw [insertRoute_comm route1 route2 c1 c2 rest1 rest2 _ hrest]
      simp only [RouteNode.mk.injEq, true_and, and_true]
      funext k
      by_cases h1 : k = routeKey p2 <;> simp [h1]
    · have hk' : ¬ routeKey p2 = routeKey p1 := fun e => hk e.symm
      have e1 : (setSubRoute node (routeKey p1)
          (insertRoute ((node.SubRoutes (routeKey p1)).getD (createNode (routeKey p1))) rest1
            (bindController route1 c1)).1).SubRoutes (routeKey p2) =
          node.SubRoutes (routeKey p2) := by
        simp [setSubRoute, hk']
      have e2 : (setSubRoute node (routeKey p2)
          (insertRoute ((node.SubRoutes (routeKey p2)).getD (createNode (routeKey p2))) rest2
            (bindController route2 c2)).1).SubRoutes (routeKey p1) =
          node.SubRoutes (routeKey p1) := by
        simp [setSubRoute, hk]
      rw [e1, e2]
      exact setSubRoute_comm _ _ _ _ _ hk

theorem FindRouteForPath_congr (r1 r2 : Router C) (path : Str)
    (h : r1.RouteTree = r2.RouteTree) : FindRouteForPath r1 path = FindRouteForPath r2 path := by
  simp only [FindRouteForPath, h]

theorem AddRoute_error_comm (router : Router C) (r1 r2 : Str) (c1 c2 : Option C)
    (hne : routeAddr r1 ≠ routeAddr r2) :
    (AddRoute (AddRoute router r2 c2).1 r1 c1).2 = (AddRoute router r1 c1).2 := by
  rw [AddRoute_error, AddRoute_error]
  have hc : controllerAt (AddRoute router r2 c2).1.RouteTree (routeAddr r1) =
      controllerAt router.RouteTree (routeAddr r1) := by
    rw [controllerAt_AddRoute, if_neg (fun h => hne h.2.1)]
  rw [hc]
  cases hb : controllerAt router.RouteTree (routeAddr r1) with
  | none => rfl
  | some x =>
    rw [templateAt_AddRoute_bound router r2 c2 (routeAddr r1) (by rw [hb]; rfl)]

theorem AddRoute_tree_comm (router : Router C) (r1 r2 : Str) (c1 c2 : Option C)
    (hne : routeAddr r1 ≠ routeAddr r2) :
    (AddRoute (AddRoute router r1 c1).1 r2 c2).1.RouteTree =
      (AddRoute (AddRoute router r2 c2).1 r1 c1).1.RouteTree := by
  cases hv1 : validRoute r1 with
  | false => rw [AddRoute_invalid router r1 c1 hv1, AddRoute_invalid _ r1 c1 hv1]
  | true =>
    cases hv2 : validRoute r2 with
    | false => rw [AddRoute_invalid router r2 c2 hv2, AddRoute_invalid _ r2 c2 hv2]
    | true =>
      simp only [AddRoute_valid _ r1 c1 hv1, AddRoute_valid _ r2 c2 hv2]
      exact insertRoute_comm _ _ c1 c2 _ _ router.RouteTree hne

/-- C35, as the code has it: for every router and every two route strings with
different normalized segment sequences, `AddRoute` of the one and then of the
other gives the same route tree in both orders, each route returns in second
place the error it returns in first place, or none, and so `FindRouteForPath`
gives the same result for every path afterwards. Both calls succeed, in both
orders, when both routes pass the shape check and neither has its position
bound on the router before. -/
theorem AddRoute_order (router : Router C) (r1 r2 : Str) (c1 c2 : Option C)
    (hne : routeAddr r1 ≠ routeAddr r2) :
    (AddRoute (AddRoute router r1 c1).1 r2 c2).1.RouteTree =
      (AddRoute (AddRoute router r2 c2).1 r1 c1).1.RouteTree ∧
    (AddRoute (AddRoute router r2 c2).1 r1 c1).2 = (AddRoute router r1 c1).2 ∧
    (AddRoute (AddRoute router r1 c1).1 r2 c2).2 = (AddRoute router r2 c2).2 ∧
    (validRoute r1 = true → validRoute r2 = true →
      controllerAt router.RouteTree (routeAddr r1) = none →
      controllerAt router.RouteTree (routeAddr r2) = none →
      AddRoutesErrors router [(r1, c1), (r2, c2)] = [none, none] ∧
      AddRoutesErrors router [(r2, c2), (r1, c1)] = [none, none]) ∧
    (∀ path : Str,
      FindRouteForPath (AddRoute (AddRoute router r1 c1).1 r2 c2).1 path =
        FindRouteForPath (AddRoute (AddRoute router r2 c2).1 r1 c1).1 path) := by
  have htree := AddRoute_tree_comm router r1 r2 c1 c2 hne
  have he1 := AddRoute_error_comm router r1 r2 c1 c2 hne
  have he2 := AddRoute_error_comm router r2 r1 c2 c1 (fun h => hne h.symm)
  refine ⟨htree, he1, he2, ?_, fun path => FindRouteForPath_congr _ _ path htree⟩
  intro hv1 hv2 hn1 hn2
  have h1 := AddRoute_ok_of_unbound router r1 c1 hv1 hn1
  have h2 := AddRoute_ok_of_unbound router r2 c2 hv2 hn2
  simp only [AddRoutesErrors, he1, he2, h1, h2, and_self]

/-- Witness of C35: the routes `a/{{w}}/c` and `a/b/c` on the router with the
root controller 0. -/
theorem AddRoute_order_witness :
    (AddRoute (AddRoute routerRootOnly "a/\x7b\x7bw\x7d\x7d/c".toList (some 1)).1
        "a/b/c".toList (some 2)).1.RouteTree =
      (AddRoute (AddRoute routerRootOnly "a/b/c".toList (some 2)).1
        "a/\x7b\x7bw\x7d\x7d/c".toList (some 1)).1.RouteTree ∧
    AddRoutesErrors routerRootOnly
        [("a/\x7b\x7bw\x7d\x7d/c".toList, some 1), ("a/b/c".toList, some 2)] = [none, none] ∧
    AddRoutesErrors routerRootOnly
        [("a/b/c".toList, some 2), ("a/\x7b\x7bw\x7d\x7d/c".toList, some 1)] = [none, none] :=
  have h := AddRoute_order routerRootOnly "a/\x7b\x7bw\x7d\x7d/c".toList "a/b/c".toList
    (some 1) (some 2) (by decide)
  ⟨h.1, h.2.2.2.1 (by decide) (by decide) (by decide) (by decide)⟩

/-- Counterexample to C35 as stated: the route strings `a//b` and `c` have
different normalized segment sequences, and `AddRoute` of `a//b` fails on a
fresh router in both orders; the route strings `a` and `b` have different
normalized segment sequences, and on a router on which `a` is registered
`AddRoute` of `a` fails in both orders. -/
theorem AddRoute_order_counterexample :
    (routeAddr "a//b".toList ≠ routeAddr "c".toList ∧
      AddRoutesErrors (CreateRouter (none : Option Nat))
          [("a//b".toList, some 1), ("c".toList, some 2)] =
        [some (RouteError.invalidFormat "a//b".toList), none] ∧
      AddRoutesErrors (CreateRouter (none : Option Nat))
          [("c".toList, some 2), ("a//b".toList, some 1)] =
        [none, some (RouteError.invalidFormat "a//b".toList)]) ∧
    (routeAddr "a".toList ≠ routeAddr "b".toList ∧
      AddRoutesErrors (AddRoute (CreateRouter (none : Option Nat)) "a".toList (some 0)).1
          [("a".toList, some 1), ("b".toList, some 2)] =
        [some (RouteError.conflict "a".toList "a".toList), none] ∧
      AddRoutesErrors (AddRoute (CreateRouter (none : Option Nat)) "a".toList (some 0)).1
          [("b".toList, some 2), ("a".toList, some 1)] =
        [none, some (RouteError.conflict "a".toList "a".toList)]) := by
  decide

/-! ## The invariant of the route tree -/

theorem AddRoutes_append (xs ys : List (Str × Option C)) :
    ∀ router : Router C, AddRoutes router (xs ++ ys) = AddRoutes (AddRoutes router xs) ys := by
  induction xs with
  | nil => intro router; rfl
  | cons x xs ih =>
    intro router
    obtain ⟨route, c⟩ := x
    show AddRoutes (AddRoute router route c).1 (xs ++ ys) = _
    exact ih _

theorem addControllerRoutes_eq_AddRoutes (c : C) (routes : List Str) :
    ∀ router : Router C,
      (addControllerRoutes router c routes).1 = AddRoutes router (controllerCalls router c routes) := by
  induction routes with
  | nil => intro router; rfl
  | cons route routes ih =>
    intro router
    simp only [addControllerRoutes, controllerCalls]
    cases hr : AddRoute router route (some c) with
    | mk r e =>
      cases e with
      | none =>
        simp only [AddRoutes, hr]
        exact ih r
      | some err =>
        simp only [AddRoutes, hr]

theorem register_eq_AddRoutes (GetRoutes : C → List Str) (ops : List (Registration C)) :
    ∀ router : Router C,
      register GetRoutes router ops =
        AddRoutes router (registrationCalls GetRoutes router ops) := by
  induction ops with
  | nil => intro router; rfl
  | cons op ops ih =>
    intro router
    cases op with
    | route route c =>
      simp only [register, registrationCalls, AddRoutes, ih]
    | controller c =>
      simp only [register, registrationCalls, AddRoutes_append, ih]
      unfold AddController
      rw [addControllerRoutes_eq_AddRoutes]

theorem AddRoute_ok_iff (router : Router C) (route : Str) (c : Option C) :
    (AddRoute router route c).2 = none ↔
      (validRoute route = true ∧ controllerAt router.RouteTree (routeAddr route) = none) := by
  rw [AddRoute_error]
  cases hv : validRoute route with
  | false => simp
  | true =>
    cases hc : controllerAt router.RouteTree (routeAddr route) with
    | none => simp
    | some x => simp

theorem registered_cons (router : Router C) (route : Str) (controller : Option C)
    (calls : List (Str × Option C)) :
    registered router ((route, controller) :: calls) =
      (if (AddRoute router route controller).2 = none then
          controller.toList.map (fun c => (route, c))
        else []) ++ registered (AddRoute router route controller).1 calls := by
  simp only [registered]
  cases (AddRoute router route controller).2 with
  | none =>
    cases controller with
    | none => rfl
    | some c => rfl
  | some e => rfl

/-- No call registers a route at a position that is bound before. -/
theorem registered_bound (b : List Str) (calls : List (Str × Option C)) :
    ∀ router : Router C, (controllerAt router.RouteTree b).isSome = true →
      (registered router calls).filter (fun e => routeAddr e.1 = b) = [] := by
  induction calls with
  | nil => intro router _; rfl
  | cons call calls ih =>
    intro router hb
    obtain ⟨route, controller⟩ := call
    have hb' : (controllerAt (AddRoute router route controller).1.RouteTree b).isSome = true := by
      rw [controllerAt_AddRoute_bound router route controller b hb]
      exact hb
    rw [registered_cons, List.filter_append, ih _ hb', List.append_nil]
    cases he : (AddRoute router route controller).2 with
    | some e => simp
    | none =>
      cases controller with
      | none => simp
      | some c =>
        have hn := ((AddRoute_ok_iff router route (some c)).mp he).2
        have hne : ¬ routeAddr route = b := by
          intro e
          rw [e] at hn
          rw [hn] at hb
          simp at hb
        simp [hne]

/-- A position that is not bound before a sequence of calls is either not
bound after it, with no route registered at it, or bound to the controller of
the one route registered at it, with the route as template. -/
theorem registered_unbound (b : List Str) (calls : List (Str × Option C)) :
    ∀ router : Router C, controllerAt router.RouteTree b = none →
      ((registered router calls).filter (fun e => routeAddr e.1 = b) = [] ∧
        controllerAt (AddRoutes router calls).RouteTree b = none) ∨
      (∃ (route : Str) (c : C),
        (registered router calls).filter (fun e => routeAddr e.1 = b) = [(route, c)] ∧
        controllerAt (AddRoutes router calls).RouteTree b = some c ∧
        templateAt (AddRoutes router calls).RouteTree b = some (TrimSpace route)) := by
  induction calls with
  | nil => intro router hb; exact Or.inl ⟨rfl, hb⟩
  | cons call calls ih =>
    intro router hb
    obtain ⟨route, controller⟩ := call
    rw [registered_cons, List.filter_append]
    simp only [AddRoutes]
    by_cases hcase : (AddRoute router route controller).2 = none ∧ routeAddr route = b ∧
        controller.isSome = true
    · obtain ⟨he, haddr, hsome⟩ := hcase
      cases controller with
      | none => simp at hsome
      | some c =>
        obtain ⟨hv, hn⟩ := (AddRoute_ok_iff router route (some c)).mp he
        have hbound : controllerAt (AddRoute router route (some c)).1.RouteTree b = some c := by
          rw [controllerAt_AddRoute, if_pos ⟨hv, haddr.symm, by rw [hb]; rfl⟩]
        have htemp : templateAt (AddRoute router route (some c)).1.RouteTree b =
            some (TrimSpace route) := by
          rw [← haddr]
          exact templateAt_AddRoute_self router route (some c) hv (by rw [hn]; rfl)
        have hrest := registered_bound b calls (AddRoute router route (some c)).1
          (by rw [hbound]; rfl)
        have hkeep := controllerAt_AddRoutes_bound calls (AddRoute router route (some c)).1 b
          (by rw [hbound]; rfl)
        refine Or.inr ⟨route, c, ?_, hkeep.1.trans hbound, hkeep.2.trans htemp⟩
        rw [hrest, if_pos he]
        simp [haddr]
    · have hhead : List.filter (fun e : Str × C => routeAddr e.1 = b)
          (if (AddRoute router route controller).2 = none then
            controller.toList.map (fun c => (route, c))
          else []) = [] := by
        by_cases he : (AddRoute router route controller).2 = none
        · rw [if_pos he]
          cases hctl : controller with
          | none => rfl
          | some c =>
            have hne : ¬ routeAddr route = b := fun e => hcase ⟨he, e, by rw [hctl]; rfl⟩
            simp [hne]
        · rw [if_neg he]
          rfl
      have hb' : controllerAt (AddRoute router route controller).1.RouteTree b = none := by
        rw [controllerAt_AddRoute]
        split
        · rename_i hcond
          obtain ⟨hv, haddr, _⟩ := hcond
          have he : (AddRoute router route controller).2 = none :=
            (AddRoute_ok_iff router route controller).mpr ⟨hv, by rw [← haddr]; exact hb⟩
          cases controller with
          | none => rfl
          | some c => exact absurd ⟨he, haddr.symm, rfl⟩ hcase
        · exact hb
      rw [hhead, List.nil_append]
      exact ih _ hb'

/-- C33, as the code has it: every router reached from `CreateRouter` by calls
of `AddRoute` and `AddController` is the router after the `AddRoute` calls
they make. On it, a position other than the root holds a controller if and
only if exactly one successfully registered route, among those registered with
a controller that is not `nil`, has its terminal node there; the controller
and the template at the position are then the controller of that registration
and its route string, trimmed. The root holds the controller and the template
`/` that `CreateRouter` gave it, and no route has its terminal node there. -/
theorem bound_iff_registered_once (GetRoutes : C → List Str) (rc : Option C)
    (ops : List (Registration C)) :
    register GetRoutes (CreateRouter rc) ops =
      AddRoutes (CreateRouter rc) (registrationCalls GetRoutes (CreateRouter rc) ops) ∧
    (∀ b : List Str, b ≠ [] →
      ((controllerAt (register GetRoutes (CreateRouter rc) ops).RouteTree b).isSome = true ↔
        ((registered (CreateRouter rc)
          (registrationCalls GetRoutes (CreateRouter rc) ops)).filter
            (fun e => routeAddr e.1 = b)).length = 1) ∧
      ((registered (CreateRouter rc)
          (registrationCalls GetRoutes (CreateRouter rc) ops)).filter
            (fun e => routeAddr e.1 = b)).length ≤ 1 ∧
      (∀ (route : Str) (c : C),
        (route, c) ∈ registered (CreateRouter rc)
          (registrationCalls GetRoutes (CreateRouter rc) ops) →
        routeAddr route = b →
        controllerAt (register GetRoutes (CreateRouter rc) ops).RouteTree b = some c ∧
        templateAt (register GetRoutes (CreateRouter rc) ops).RouteTree b =
          some (TrimSpace route))) ∧
    (register GetRoutes (CreateRouter rc) ops).RouteTree.Controller = rc ∧
    (register GetRoutes (CreateRouter rc) ops).RouteTree.TemplateRoute = Slash ∧
    (∀ e ∈ registered (CreateRouter rc) (registrationCalls GetRoutes (CreateRouter rc) ops),
      routeAddr e.1 ≠ []) := by
  have hreg := register_eq_AddRoutes GetRoutes ops (CreateRouter rc)
  obtain ⟨_, hroot2, hroot3⟩ :=
    AddRoutes_root (registrationCalls GetRoutes (CreateRouter rc) ops) (CreateRouter rc)
  refine ⟨hreg, ?_, ?_, ?_, fun e _ => routeAddr_ne_nil e.1⟩
  · intro b hb
    have hfresh : controllerAt (CreateRouter rc).RouteTree b = none := by
      cases b with
      | nil => exact absurd rfl hb
      | cons k bs => rfl
    rw [hreg]
    rcases registered_unbound b (registrationCalls GetRoutes (CreateRouter rc) ops)
      (CreateRouter rc) hfresh with ⟨hf, hc⟩ | ⟨route, c, hf, hc, ht⟩
    · rw [hf, hc]
      refine ⟨by simp, by simp, ?_⟩
      intro route c hmem haddr
      have : (route, c) ∈ (registered (CreateRouter rc)
          (registrationCalls GetRoutes (CreateRouter rc) ops)).filter
            (fun e => routeAddr e.1 = b) := by
        rw [List.mem_filter]
        exact ⟨hmem, by simp [haddr]⟩
      rw [hf] at this
      simp at this
    · rw [hf, hc, ht]
      refine ⟨by simp, by simp, ?_⟩
      intro route' c' hmem haddr
      have : (route', c') ∈ (registered (CreateRouter rc)
          (registrationCalls GetRoutes (CreateRouter rc) ops)).filter
            (fun e => routeAddr e.1 = b) := by
        rw [List.mem_filter]
        exact ⟨hmem, by simp [haddr]⟩
      rw [hf, List.mem_singleton] at this
      obtain ⟨rfl, rfl⟩ := Prod.mk.inj this
      exact ⟨rfl, rfl⟩
  · rw [hreg, hroot3]
    rfl
  · rw [hreg, hroot2]
    rfl

/-- Witness of C33: the router with the root controller 0 after
`AddController` of the controller 1 with the routes `a`, `b//c`, `d` and
`AddRoute` of `x` with the controller 2: the positions of `a` and `x` are
bound, each by one registration, and the position of `d` is not. -/
theorem bound_iff_registered_once_witness :
    registered (CreateRouter (some 0))
        (registrationCalls routesWithBadSecond (CreateRouter (some 0))
          [Registration.controller 1, Registration.route "x".toList (some 2)]) =
      [("a".toList, 1), ("x".toList, 2)] ∧
    controllerAt (register routesWithBadSecond (CreateRouter (some 0))
        [Registration.controller 1, Registration.route "x".toList (some 2)]).RouteTree
        (routeAddr "a".toList) = some 1 ∧
    templateAt (register routesWithBadSecond (CreateRouter (some 0))
        [Registration.controller 1, Registration.route "x".toList (some 2)]).RouteTree
        (routeAddr "a".toList) = some (TrimSpace "a".toList) ∧
    ¬ ((controllerAt (register routesWithBadSecond (CreateRouter (some 0))
        [Registration.controller 1, Registration.route "x".toList (some 2)]).RouteTree
        (routeAddr "d".toList)).isSome = true) :=
  have h := (bound_iff_registered_once routesWithBadSecond (some 0)
    [Registration.controller 1, Registration.route "x".toList (some 2)]).2.1
  have ha := (h (routeAddr "a".toList) (by decide)).2.2 "a".toList 1 (by decide) rfl
  ⟨by decide, ha.1, ha.2,
    fun hd => absurd ((h (routeAddr "d".toList) (by decide)).1.mp hd) (by decide)⟩

/-- Counterexample to C33 as stated: on the router that `CreateRouter` makes
with the controller 0 the root node has a controller and no route is
registered; and on a fresh router the registrations of `a` with the `nil`
controller and then of `a` with the controller 1 both succeed, so the node of
`a`, which has a controller, is the terminal node of two successfully
registered routes. -/
theorem bound_iff_registered_once_counterexample :
    ((register routesWithBadSecond (CreateRouter (some 0)) []).RouteTree.Controller = some 0 ∧
      registrationCalls routesWithBadSecond (CreateRouter (some 0)) [] = []) ∧
    (AddRoutesErrors (CreateRouter (none : Option Nat))
        [("a".toList, none), ("a".toList, some 1)] = [none, none] ∧
      controllerAt (AddRoutes (CreateRouter (none : Option Nat))
        [("a".toList, none), ("a".toList, some 1)]).RouteTree (routeAddr "a".toList) =
        some 1) := by
  decide

end Quimby
